import Mathlib

/-!
# Synergy client: command line parsing and the client supervisor

A shallow embedding of `cmd/synergyc/synergyc.cpp` and `lib/synergy/CClientApp.cpp`, with the
key-button maps of `lib/platform/COSXKeyState.h`, the nested fake input of
`lib/server/CPrimaryClient.h` and the keyboard group and modifier maps of `CXWindowsKeyState`,
whose bodies are not among the sources and are modelled from their declarations, comments and
tests; and of the settings dialog of `gui/src/SettingsDialog.cpp` and the connecting handler of
`src/lib/ipc/CIpcServer.cpp`.

Conventions of the embedding.

* The build that is embedded is the `SYSAPI_UNIX` one (`WINAPI_MSWINDOWS` and `SYSAPI_WIN32`
  undefined, so no `--service` option and no Windows 95 branch); `WINAPI_XWINDOWS` is a build
  parameter.
* `bye(code)` never returns (it is `exit`): a function that may call it returns
  `Except Exit _`, and `.error` is the process exit.
* `LOG((...))` calls are not part of the state; the message printed right before a `bye`
  is kept inside the `Exit` value.
* The loop variable `i` of `parse` is represented by the unread suffix `argv[i .. argc)`.
-/

namespace Synergy

/-! ## Constants and collaborator types declared outside the listed sources -/

/-- Modelled from the spec: exit code `0` success (`kExitSuccess`; its header is not among the
sources). -/
def kExitSuccess : Int := 0

/-- Modelled from the spec: `kExitFailed`, the generic failure code, "other non-zero generic
failure": a value different from `0`, `3` and `4`. -/
def kExitFailed : Int := 1

/-- Modelled from the spec: exit code `3` bad args (`kExitArgs`). -/
def kExitArgs : Int := 3

/-- Modelled from the spec: the default port 24800 (`kDefaultPort`, ProtocolTypes.h is not among
the sources). -/
def kDefaultPort : Nat := 24800

/-- Modelled from the spec: the error classes of `XSocketAddress` (XSocket.h is not among the
sources), `AddressError{BadHost,BadPort}`. The code only tests for `kBadPort`. -/
inductive EError
  | kBadHost
  | kBadPort
deriving DecidableEq, Repr

/-- The exception `XSocketAddress`: `getError()` and `what()`. -/
structure XSocketAddress where
  getError : EError
  what : String
deriving DecidableEq, Repr

/-- Modelled from the spec: a `CNetworkAddress` value (its class is not among the sources): the
server endpoint, host and port, and whether the host has been looked up. -/
structure CNetworkAddress where
  m_hostname : String
  m_port : Nat
  m_resolved : Bool
deriving DecidableEq, Repr

/-- The build configuration: which `WINAPI_*` branch of the `#if`s is compiled. -/
structure Build where
  WINAPI_XWINDOWS : Bool
deriving DecidableEq, Repr

/-- The collaborators `parse` calls: `ARCH->getHostName()`, the `CNetworkAddress(host, port)`
constructor, `CNetworkAddress::resolve()` and `CLOG->setFilter()`. The two address operations
either succeed or throw an `XSocketAddress`. -/
structure Host where
  getHostName : String
  newAddress : String → Nat → Except XSocketAddress CNetworkAddress
  resolve : CNetworkAddress → Except XSocketAddress CNetworkAddress
  setFilter : Option String → Bool

/-- What is printed right before the process exits. -/
inductive Printed
  | missingArguments (option : String)
  | unrecognizedOption (option : String)
  | serverAddressRequired
  | addressError (what : String)
  | unrecognizedLogLevel (filter : Option String)
  | help
  | version
deriving DecidableEq, Repr

/-- A call of `bye(code)`, with the message printed before it. -/
structure Exit where
  code : Int
  printed : Printed
deriving DecidableEq, Repr

/-- The C library `isspace` in the "C" locale. -/
def isspace (c : Char) : Bool :=
  c = ' ' || c = '\t' || c = '\n' || c.toNat = 11 || c.toNat = 12 || c = '\r'

/-- The digits loop of `atoi`. -/
def atoiDigits : List Char → Int → Int
  | [], acc => acc
  | c :: cs, acc =>
    if c.isDigit then atoiDigits cs (acc * 10 + ((c.toNat : Int) - 48)) else acc

/-- The number a C string starts with, as `strtol` and `atoi` read it: leading white space, an
optional sign, then decimal digits up to the first other character. -/
def decimalValue (s : String) : Int :=
  match s.toList.dropWhile isspace with
  | '-' :: ds => - atoiDigits ds 0
  | '+' :: ds => atoiDigits ds 0
  | ds => atoiDigits ds 0

/-- The C library `strtol(nptr, NULL, 10)`: the result is a `long` of 64 bits, and a number
outside its range gives `LONG_MIN` or `LONG_MAX`. -/
def strtol (s : String) : Int :=
  max (-(2 ^ 63)) (min (decimalValue s) (2 ^ 63 - 1))

/-- The conversion of a `long` to `int`: the value of the low 32 bits, as a signed number. -/
def intOfLong (value : Int) : Int :=
  (value + 2 ^ 31) % 2 ^ 32 - 2 ^ 31

/-- The C library `atoi`, which is `(int) strtol(nptr, NULL, 10)`: the result is an `int` of 32
bits. For a number outside the range of `int` the C standard leaves the result open; the one
given is that of the conversion of the `long`, so "4294967296" gives 0 and "2147483648" gives
-2147483648. -/
def atoi (s : String) : Int :=
  intOfLong (strtol s)

/-- How one pass through the body of the option loop of `parse` ends. -/
inductive Step (α : Type)
  /-- The body ends normally; the loop does its `++i`. -/
  | next (args : α)
  /-- The body has read `argv[++i]` as a parameter; the loop then does its `++i`. -/
  | nextParam (args : α)
  /-- A `break` with `i` at the current argument. -/
  | stopHere (args : α)
  /-- `++i; break;` (the `--` argument). -/
  | stopAfter (args : α)
deriving DecidableEq, Repr

namespace CClientApp

/-- The class `CClientApp::CArgs`. Pointers to C strings are `Option String` (`none` is `NULL`);
`m_serverAddress` holds the pointee. `m_yscroll` is an `int`: the values the program stores in it,
the 0 of the constructor and the results of `atoi`, are within 32 bits. -/
structure CArgs where
  m_pname : Option String
  m_backend : Bool
  m_restartable : Bool
  m_daemon : Bool
  m_yscroll : Int
  m_logFilter : Option String
  m_display : Option String
  m_serverAddress : Option CNetworkAddress
  m_logFile : Option String
  m_name : String
deriving DecidableEq, Repr

set_option linter.dupNamespace false in
/-- The constructor `CClientApp::CArgs::CArgs()`. -/
def CArgs.CArgs : CArgs where
  m_pname := none
  m_backend := false
  m_restartable := true
  m_daemon := true
  m_yscroll := 0
  m_logFilter := none
  m_display := none
  m_serverAddress := none
  m_logFile := none
  m_name := ""

end CClientApp

open CClientApp (CArgs)

/-- The parameter `argv[++i]` of an option; `isArg` has checked that it exists. -/
def param (rest : List String) : String := rest.headD ""

/-! ## cmd/synergyc/synergyc.cpp: command line -/

namespace synergyc

/-- The function `isArg(argi, argc, argv, name1, name2, minRequiredParameters)`, with `arg` for
`argv[argi]` and `rest` for `argv[argi+1 .. argc)`, so that `argc - argi = rest.length + 1`. -/
def isArg (arg : String) (rest : List String) (name1 name2 : Option String)
    (minRequiredParameters : Nat) : Except Exit Bool :=
  if some arg = name1 ∨ some arg = name2 then
    -- match.  check args left: argi + minRequiredParameters >= argc
    if minRequiredParameters ≥ rest.length + 1 then
      .error ⟨kExitArgs, .missingArguments arg⟩
    else
      .ok true
  else
    -- no match
    .ok false

/-- The body of the option loop of `parse`, at the argument `arg = argv[i]` followed by `rest`. -/
def parseOption (b : Build) (arg : String) (rest : List String) (ARG : CArgs) :
    Except Exit (Step CArgs) := do
  if (← isArg arg rest (some "-d") (some "--debug") 1) then
    return .nextParam { ARG with m_logFilter := some (param rest) }
  else if (← isArg arg rest (some "-n") (some "--name") 1) then
    return .nextParam { ARG with m_name := param rest }
  else if (← isArg arg rest none (some "--camp") 0) then
    return .next ARG
  else if (← isArg arg rest none (some "--no-camp") 0) then
    return .next ARG
  else if (← isArg arg rest (some "-f") (some "--no-daemon") 0) then
    return .next { ARG with m_daemon := false }
  else if (← isArg arg rest none (some "--daemon") 0) then
    return .next { ARG with m_daemon := true }
  else if (← (if b.WINAPI_XWINDOWS then isArg arg rest (some "-display") (some "--display") 1
      else pure false)) then
    return .nextParam { ARG with m_display := some (param rest) }
  else if (← isArg arg rest none (some "--yscroll") 1) then
    return .nextParam { ARG with m_yscroll := atoi (param rest) }
  else if (← isArg arg rest (some "-l") (some "--log") 1) then
    return .nextParam { ARG with m_logFile := some (param rest) }
  else if (← isArg arg rest (some "-1") (some "--no-restart") 0) then
    return .next { ARG with m_restartable := false }
  else if (← isArg arg rest none (some "--restart") 0) then
    return .next { ARG with m_restartable := true }
  else if (← isArg arg rest (some "-z") none 0) then
    return .next { ARG with m_backend := true }
  else if (← isArg arg rest (some "-h") (some "--help") 0) then
    throw ⟨kExitSuccess, .help⟩
  else if (← isArg arg rest none (some "--version") 0) then
    throw ⟨kExitSuccess, .version⟩
  else if (← isArg arg rest (some "--") none 0) then
    return .stopAfter ARG
  else if arg.toList.head? = some '-' then
    throw ⟨kExitArgs, .unrecognizedOption arg⟩
  else
    return .stopHere ARG

/-- The option loop of `parse`, `for (i = 1; i < argc; ++i)`, started at the unread arguments
`argv[i .. argc)`. It returns the arguments left unread when the loop is left, `argv[i .. argc)`
for the final `i`, and the argument record. -/
def parseOptions (b : Build) : List String → CArgs → Except Exit (List String × CArgs)
  | [], ARG => .ok ([], ARG)
  | arg :: rest, ARG =>
    match parseOption b arg rest ARG with
    | .error e => .error e
    | .ok (.next ARG1) => parseOptions b rest ARG1
    | .ok (.nextParam ARG1) =>
      match rest with
      | [] => .ok ([], ARG1)
      | _ :: rest1 => parseOptions b rest1 ARG1
    | .ok (.stopHere ARG1) => .ok (arg :: rest, ARG1)
    | .ok (.stopAfter ARG1) => .ok (rest, ARG1)

/-- The block "save server address" of `parse`: the `try` with its `catch (XSocketAddress&)`. -/
def saveServerAddress (host : Host) (server : String) (ARG : CArgs) : Except Exit CArgs :=
  match host.newAddress server kDefaultPort with
  | .error e =>
    if !ARG.m_restartable || e.getError = EError.kBadPort then
      .error ⟨kExitFailed, .addressError e.what⟩
    else .ok ARG
  | .ok address =>
    match host.resolve address with
    | .error e =>
      if !ARG.m_restartable || e.getError = EError.kBadPort then
        .error ⟨kExitFailed, .addressError e.what⟩
      else .ok { ARG with m_serverAddress := some address }
    | .ok resolved => .ok { ARG with m_serverAddress := some resolved }

/-- The blocks "increase default filter level for daemon" and "set log filter" of `parse`. -/
def setLogFilter (host : Host) (ARG : CArgs) : Except Exit CArgs :=
  let ARG1 : CArgs :=
    if ARG.m_daemon && ARG.m_logFilter = none then { ARG with m_logFilter := some "NOTE" }
    else ARG
  if !host.setFilter ARG1.m_logFilter then
    .error ⟨kExitArgs, .unrecognizedLogLevel ARG1.m_logFilter⟩
  else .ok ARG1

/-- The function `parse(argc, argv)` of synergyc.cpp; `argv` is the whole vector, `argv[0]`
included, and `ARG` the argument record on entry. -/
def parse (b : Build) (host : Host) (argv : List String) (ARG : CArgs) : Except Exit CArgs :=
  -- set defaults
  let ARG0 : CArgs := { ARG with m_name := host.getHostName }
  -- parse options
  match parseOptions b argv.tail ARG0 with
  | .error e => .error e
  | .ok (unread, ARG1) =>
    -- exactly one non-option argument (server-address)
    match unread with
    | [] => .error ⟨kExitArgs, .serverAddressRequired⟩
    | server :: more =>
      if (server :: more).length ≠ 1 then
        .error ⟨kExitArgs, .unrecognizedOption server⟩
      else
        -- save server address
        match saveServerAddress host server ARG1 with
        | .error e => .error e
        | .ok ARG2 => setLogFilter host ARG2

end synergyc

/-! ## lib/synergy/CClientApp.cpp: command line -/

namespace CClientApp

/-- The method `CClientApp::isArg(argi, argc, argv, name1, name2, minRequiredParameters)`, with `arg` for
`argv[argi]` and `rest` for `argv[argi+1 .. argc)`, so that `argc - argi = rest.length + 1`. -/
def isArg (arg : String) (rest : List String) (name1 name2 : Option String)
    (minRequiredParameters : Nat) : Except Exit Bool :=
  if some arg = name1 ∨ some arg = name2 then
    -- match.  check args left: argi + minRequiredParameters >= argc
    if minRequiredParameters ≥ rest.length + 1 then
      .error ⟨kExitArgs, .missingArguments arg⟩
    else
      .ok true
  else
    -- no match
    .ok false

/-- The body of the option loop of `CClientApp::parse`, at the argument `arg = argv[i]` followed by `rest`. -/
def parseOption (b : Build) (arg : String) (rest : List String) (ARG : CArgs) :
    Except Exit (Step CArgs) := do
  if (← isArg arg rest (some "-d") (some "--debug") 1) then
    return .nextParam { ARG with m_logFilter := some (param rest) }
  else if (← isArg arg rest (some "-n") (some "--name") 1) then
    return .nextParam { ARG with m_name := param rest }
  else if (← isArg arg rest none (some "--camp") 0) then
    return .next ARG
  else if (← isArg arg rest none (some "--no-camp") 0) then
    return .next ARG
  else if (← isArg arg rest (some "-f") (some "--no-daemon") 0) then
    return .next { ARG with m_daemon := false }
  else if (← isArg arg rest none (some "--daemon") 0) then
    return .next { ARG with m_daemon := true }
  else if (← (if b.WINAPI_XWINDOWS then isArg arg rest (some "-display") (some "--display") 1
      else pure false)) then
    return .nextParam { ARG with m_display := some (param rest) }
  else if (← isArg arg rest none (some "--yscroll") 1) then
    return .nextParam { ARG with m_yscroll := atoi (param rest) }
  else if (← isArg arg rest (some "-l") (some "--log") 1) then
    return .nextParam { ARG with m_logFile := some (param rest) }
  else if (← isArg arg rest (some "-1") (some "--no-restart") 0) then
    return .next { ARG with m_restartable := false }
  else if (← isArg arg rest none (some "--restart") 0) then
    return .next { ARG with m_restartable := true }
  else if (← isArg arg rest (some "-z") none 0) then
    return .next { ARG with m_backend := true }
  else if (← isArg arg rest (some "-h") (some "--help") 0) then
    throw ⟨kExitSuccess, .help⟩
  else if (← isArg arg rest none (some "--version") 0) then
    throw ⟨kExitSuccess, .version⟩
  else if (← isArg arg rest (some "--") none 0) then
    return .stopAfter ARG
  else if arg.toList.head? = some '-' then
    throw ⟨kExitArgs, .unrecognizedOption arg⟩
  else
    return .stopHere ARG

/-- The option loop of `CClientApp::parse`, `for (i = 1; i < argc; ++i)`, started at the unread arguments
`argv[i .. argc)`. It returns the arguments left unread when the loop is left, `argv[i .. argc)`
for the final `i`, and the argument record. -/
def parseOptions (b : Build) : List String → CArgs → Except Exit (List String × CArgs)
  | [], ARG => .ok ([], ARG)
  | arg :: rest, ARG =>
    match parseOption b arg rest ARG with
    | .error e => .error e
    | .ok (.next ARG1) => parseOptions b rest ARG1
    | .ok (.nextParam ARG1) =>
      match rest with
      | [] => .ok ([], ARG1)
      | _ :: rest1 => parseOptions b rest1 ARG1
    | .ok (.stopHere ARG1) => .ok (arg :: rest, ARG1)
    | .ok (.stopAfter ARG1) => .ok (rest, ARG1)

/-- The block "save server address" of `CClientApp::parse`: the `try` with its `catch (XSocketAddress&)`. -/
def saveServerAddress (host : Host) (server : String) (ARG : CArgs) : Except Exit CArgs :=
  match host.newAddress server kDefaultPort with
  | .error e =>
    if !ARG.m_restartable || e.getError = EError.kBadPort then
      .error ⟨kExitFailed, .addressError e.what⟩
    else .ok ARG
  | .ok address =>
    match host.resolve address with
    | .error e =>
      if !ARG.m_restartable || e.getError = EError.kBadPort then
        .error ⟨kExitFailed, .addressError e.what⟩
      else .ok { ARG with m_serverAddress := some address }
    | .ok resolved => .ok { ARG with m_serverAddress := some resolved }

/-- The blocks "increase default filter level for daemon" and "set log filter" of
`CClientApp::parse`. -/
def setLogFilter (host : Host) (ARG : CArgs) : Except Exit CArgs :=
  let ARG1 : CArgs :=
    if ARG.m_daemon && ARG.m_logFilter = none then { ARG with m_logFilter := some "NOTE" }
    else ARG
  if !host.setFilter ARG1.m_logFilter then
    .error ⟨kExitArgs, .unrecognizedLogLevel ARG1.m_logFilter⟩
  else .ok ARG1

/-- The method `CClientApp::parse(argc, argv)`, which exits through `m_bye`; `argv` is the whole vector, `argv[0]`
included, and `ARG` the argument record on entry. -/
def parse (b : Build) (host : Host) (argv : List String) (ARG : CArgs) : Except Exit CArgs :=
  -- set defaults
  let ARG0 : CArgs := { ARG with m_name := host.getHostName }
  -- parse options
  match parseOptions b argv.tail ARG0 with
  | .error e => .error e
  | .ok (unread, ARG1) =>
    -- exactly one non-option argument (server-address)
    match unread with
    | [] => .error ⟨kExitArgs, .serverAddressRequired⟩
    | server :: more =>
      if (server :: more).length ≠ 1 then
        .error ⟨kExitArgs, .unrecognizedOption server⟩
      else
        -- save server address
        match saveServerAddress host server ARG1 with
        | .error e => .error e
        | .ok ARG2 => setLogFilter host ARG2

end CClientApp

/-! ## The event queue and the objects the supervisor works with -/

/-- An event target (`void*`): the address of a screen, of a client or of a timer, or `NULL`. -/
inductive Target
  | null
  | screen (id : Nat)
  | client (id : Nat)
  | timer (id : Nat)
deriving DecidableEq, Repr

/-- The event types seen by the supervisor: `CEvent::kQuit`, `CEvent::kTimer`,
`IScreen::getErrorEvent()`, `CClient::getConnectedEvent()`, `CClient::getConnectionFailedEvent()`,
`CClient::getDisconnectedEvent()`, and any other registered type. -/
inductive EventType
  | kQuit
  | kTimer
  | screenError
  | clientConnected
  | clientConnectionFailed
  | clientDisconnected
  | other (type : Nat)
deriving DecidableEq, Repr

/-- The payload `CClient::CFailInfo` of a connection-failed event. -/
structure CFailInfo where
  m_what : String
  m_retry : Bool
deriving DecidableEq, Repr

/-- An event `CEvent`; `getData()` is `none` for `NULL` and otherwise a fail info, the only
payload the supervisor reads. -/
structure CEvent where
  getType : EventType
  getTarget : Target
  getData : Option CFailInfo
deriving DecidableEq, Repr

/-- The event `CEvent(CEvent::kQuit)`. -/
def CEvent.quit : CEvent := ⟨.kQuit, .null, none⟩

/-- The `CFunctionEventJob`s the supervisor installs: the handler and its bound argument. -/
inductive Job
  | handleScreenError
  | handleClientRestart (vtimer : Nat)
  | handleClientConnected
  | handleClientFailed
  | handleClientDisconnected
deriving DecidableEq, Repr

/-- A timer of the event queue: its identity, its delay in seconds and whether it is one-shot.
Delays are `double`s in the source; they are only stored and passed on, and are rationals here. -/
structure CEventQueueTimer where
  id : Nat
  m_timeout : ℚ
  m_oneShot : Bool
deriving DecidableEq, Repr

/-- Modelled from the spec: the event queue of section 4.3 (`CEventQueue` is not among the
sources): the events delivered in enqueue order, the timers not yet deleted, and the handlers
registered under `(event_type, target)`. `m_timerCount` numbers the timers made so far. -/
structure CEventQueue where
  m_events : List CEvent
  m_timers : List CEventQueueTimer
  m_handlers : List ((EventType × Target) × Job)
  m_timerCount : Nat
deriving DecidableEq, Repr

namespace CEventQueue

set_option linter.dupNamespace false in
/-- Modelled from the spec: a newly constructed event queue. -/
def CEventQueue : CEventQueue := ⟨[], [], [], 0⟩

/-- Modelled from the spec: `addEvent` appends to the pending events. -/
def addEvent (event : CEvent) (q : Synergy.CEventQueue) : Synergy.CEventQueue :=
  { q with m_events := q.m_events ++ [event] }

/-- Modelled from the spec: `removeHandler(type, target)`. -/
def removeHandler (type : EventType) (target : Target) (q : Synergy.CEventQueue) :
    Synergy.CEventQueue :=
  { q with m_handlers := q.m_handlers.filter fun h => h.1 ≠ (type, target) }

/-- Modelled from the spec: `adoptHandler(type, target, job)` registers `job` under
`(type, target)`, in place of any handler registered there. -/
def adoptHandler (type : EventType) (target : Target) (job : Job) (q : Synergy.CEventQueue) :
    Synergy.CEventQueue :=
  { q with m_handlers := (q.m_handlers.filter fun h => h.1 ≠ (type, target)) ++
      [((type, target), job)] }

/-- Modelled from the spec: `newOneShotTimer(duration, NULL)` makes a one-shot timer whose events
have the timer itself as target; the new timer is returned with the queue. -/
def newOneShotTimer (duration : ℚ) (q : Synergy.CEventQueue) : Nat × Synergy.CEventQueue :=
  (q.m_timerCount,
    { q with m_timers := q.m_timers ++ [⟨q.m_timerCount, duration, true⟩],
             m_timerCount := q.m_timerCount + 1 })

/-- Modelled from the spec: `deleteTimer(timer)` cancels a timer. -/
def deleteTimer (timer : Nat) (q : Synergy.CEventQueue) : Synergy.CEventQueue :=
  { q with m_timers := q.m_timers.filter fun t => t.id ≠ timer }

/-- Modelled from the spec: the handler looked up, exactly, for an event. -/
def getHandler (event : CEvent) (q : Synergy.CEventQueue) : Option Job :=
  (q.m_handlers.find? fun h => h.1 = (event.getType, event.getTarget)).map Prod.snd

/-- Modelled from the spec: `getEvent`, the only blocking point. `arrivals` lists what the other
parties (network client, timers, screen) enqueue from now on, one batch before each call of
`getEvent`; `pending` is the queue content. The oldest event is returned with the batches and
the queue content left; `none` means that the call waits for ever. -/
def getEvent : List (List CEvent) → List CEvent →
    Option (CEvent × List (List CEvent) × List CEvent)
  | [], [] => none
  | [], event :: pending => some (event, [], pending)
  | batch :: later, pending =>
    match pending ++ batch with
    | [] => getEvent later []
    | event :: pending1 => some (event, later, pending1)

end CEventQueue

/-- The exceptions `startClient` tells apart: `XScreenUnavailable` with `getRetryTime()`,
`XScreenOpenFailure`, and any other `XBase`; each with its `what()`. -/
inductive XBase
  | XScreenUnavailable (what : String) (getRetryTime : ℚ)
  | XScreenOpenFailure (what : String)
  | other (what : String)
deriving DecidableEq, Repr

/-- The platform behind the factories: whether the n-th call of `createScreen()` and the n-th
`new CClient(...)` return (`none`) or throw. -/
structure Platform where
  createScreen : Nat → Option XBase
  newClient : Nat → Option XBase

/-- A `CClient` object as constructed by `openClient`: its name, server address and screen. -/
structure CClient where
  id : Nat
  m_name : String
  m_serverAddress : Option CNetworkAddress
  m_screen : Nat
deriving DecidableEq, Repr

namespace synergyc

/-! ## cmd/synergyc/synergyc.cpp: the supervisor -/

/-- The file-static variables of synergyc.cpp (`s_client`, `s_clientScreen`, `s_suspened`; `none`
is `NULL`), the global event queue `EVENTQUEUE`, and the world they act on: the screens and
clients constructed and not deleted, the number of `createScreen()` and `new CClient` calls so
far, the `connect()` calls made (by client) and the `updateStatus` calls received by the task bar
receiver (the client shown and the message). -/
structure Statics where
  s_client : Option Nat
  s_clientScreen : Option Nat
  s_suspened : Bool
  EVENTQUEUE : CEventQueue
  screens : List Nat
  clients : List CClient
  screenCount : Nat
  clientCount : Nat
  connects : List Nat
  statusUpdates : List (Option Nat × String)
deriving DecidableEq, Repr

/-- The statics at process start. -/
def Statics.initial : Statics :=
  ⟨none, none, false, CEventQueue.CEventQueue, [], [], 0, 0, [], []⟩

/-- The constant `RETRY_TIME`. -/
def RETRY_TIME : ℚ := 1.0

/-- The function `updateStatus(msg)`; `updateStatus()` is `updateStatus ""`. -/
def updateStatus (msg : String) (s : Statics) : Statics :=
  { s with statusUpdates := s.statusUpdates ++ [(s.s_client, msg)] }

/-- The function `resetRestartTimeout()`: its body is a comment. -/
def resetRestartTimeout (s : Statics) : Statics := s

/-- The function `nextRestartTimeout()`: the value returned, and the statics, which it leaves
alone. -/
def nextRestartTimeout (s : Statics) : ℚ × Statics := (RETRY_TIME, s)

/-- The schedule in the commented-out body of `nextRestartTimeout()`, on the commented-out
static `s_retryTime`: the new value of `s_retryTime`, which is also the value returned. -/
def deprecatedRestartTimeout (s_retryTime : ℚ) : ℚ :=
  if s_retryTime < 1.0 then 1.0
  else if s_retryTime < 3.0 then 3.0
  else 5.0

/-- The handler `handleScreenError`. -/
def handleScreenError (_e : CEvent) (s : Statics) : Statics :=
  { s with EVENTQUEUE := s.EVENTQUEUE.addEvent CEvent.quit }

/-- The function `openClientScreen()`: `createScreen()` throws or returns a new screen, whose
error event is then given its handler. The statics come back in both cases. -/
def openClientScreen (pf : Platform) (s : Statics) : Except (XBase × Statics) (Nat × Statics) :=
  let screen := s.screenCount
  let s1 := { s with screenCount := s.screenCount + 1 }
  match pf.createScreen screen with
  | some e => .error (e, s1)
  | none =>
    .ok (screen, { s1 with
      screens := s1.screens ++ [screen],
      EVENTQUEUE := s1.EVENTQUEUE.adoptHandler .screenError (.screen screen) .handleScreenError })

/-- The function `closeClientScreen(screen)`. -/
def closeClientScreen (screen : Option Nat) (s : Statics) : Statics :=
  match screen with
  | none => s
  | some id =>
    { s with
      EVENTQUEUE := s.EVENTQUEUE.removeHandler .screenError (.screen id),
      screens := s.screens.filter fun x => x ≠ id }

/-- The function `scheduleClientRestart(retryTime)`. -/
def scheduleClientRestart (retryTime : ℚ) (s : Statics) : Statics :=
  let (timer, q) := s.EVENTQUEUE.newOneShotTimer retryTime
  { s with EVENTQUEUE := q.adoptHandler .kTimer (.timer timer) (.handleClientRestart timer) }

/-- The handler `handleClientConnected`. -/
def handleClientConnected (_e : CEvent) (s : Statics) : Statics :=
  updateStatus "" (resetRestartTimeout s)

/-- The handler `handleClientFailed`; `none` when the event carries no fail info (the handler
reads through the null pointer). -/
def handleClientFailed (ARG : CArgs) (e : CEvent) (s : Statics) : Option Statics :=
  match e.getData with
  | none => none
  | some info =>
    let s1 := updateStatus ("Failed to connect to server: " ++ info.m_what) s
    if !ARG.m_restartable || !info.m_retry then
      some { s1 with EVENTQUEUE := s1.EVENTQUEUE.addEvent CEvent.quit }
    else
      if !s1.s_suspened then
        let (retryTime, s2) := nextRestartTimeout s1
        some (scheduleClientRestart retryTime s2)
      else
        some s1

/-- Modelled from the spec: `CClient::connect()` (CClient is not among the sources). The spec
surfaces every failure of a connect attempt as a later connection-failed event (S1, S2 to S6),
so the call itself returns; the attempt is recorded. The call that throws, which the `try` block
of `startClient` provides for, is in `startClientConnecting`. -/
def connect (client : Nat) (s : Statics) : Statics :=
  { s with connects := s.connects ++ [client] }

/-- The handler `handleClientDisconnected`; `none` when `connect()` would be called through a
null `s_client`. -/
def handleClientDisconnected (ARG : CArgs) (_e : CEvent) (s : Statics) : Option Statics :=
  if !ARG.m_restartable then
    some (updateStatus "" { s with EVENTQUEUE := s.EVENTQUEUE.addEvent CEvent.quit })
  else if !s.s_suspened then
    match s.s_client with
    | none => none
    | some client => some (updateStatus "" (connect client s))
  else
    some (updateStatus "" s)

/-- The function `openClient(name, address, screen)`: `new CClient` throws or returns a new
client, whose three events are then given their handlers. -/
def openClient (pf : Platform) (name : String) (address : Option CNetworkAddress) (screen : Nat)
    (s : Statics) : Except (XBase × Statics) (Nat × Statics) :=
  let client := s.clientCount
  let s1 := { s with clientCount := s.clientCount + 1 }
  match pf.newClient client with
  | some e => .error (e, s1)
  | none =>
    .ok (client, { s1 with
      clients := s1.clients ++ [⟨client, name, address, screen⟩],
      EVENTQUEUE :=
        ((s1.EVENTQUEUE.adoptHandler .clientConnected (.client client) .handleClientConnected
          ).adoptHandler .clientConnectionFailed (.client client) .handleClientFailed
          ).adoptHandler .clientDisconnected (.client client) .handleClientDisconnected })

/-- The function `closeClient(client)`. -/
def closeClient (client : Option Nat) (s : Statics) : Statics :=
  match client with
  | none => s
  | some id =>
    { s with
      EVENTQUEUE :=
        ((s.EVENTQUEUE.removeHandler .clientConnected (.client id)
          ).removeHandler .clientConnectionFailed (.client id)
          ).removeHandler .clientDisconnected (.client id),
      clients := s.clients.filter fun c => c.id ≠ id }

/-- The body of the `try` block of `startClient`: the statics when it completes up to the call of
`connect()`, or the exception thrown with the local `clientScreen` and the statics then. -/
def startClientTry (pf : Platform) (ARG : CArgs) (s : Statics) :
    Except (XBase × Option Nat × Statics) Statics :=
  if s.s_clientScreen = none then
    match openClientScreen pf s with
    | .error (e, s1) => .error (e, none, s1)
    | .ok (clientScreen, s1) =>
      match openClient pf ARG.m_name ARG.m_serverAddress clientScreen s1 with
      | .error (e, s2) => .error (e, some clientScreen, s2)
      | .ok (client, s2) =>
        .ok { s2 with s_client := some client, s_clientScreen := some clientScreen }
  else
    .ok s

/-- The function `startClient()`: its result and the statics; `none` when `connect()` would be
called through a null `s_client`. -/
def startClient (pf : Platform) (ARG : CArgs) (s : Statics) : Option (Bool × Statics) :=
  match startClientTry pf ARG s with
  | .ok s1 =>
    match s1.s_client with
    | none => none
    | some client => some (true, updateStatus "" (connect client s1))
  | .error (.XScreenUnavailable what retryTime, clientScreen, s1) =>
    let s2 := updateStatus ("Cannot open secondary screen: " ++ what)
      (closeClientScreen clientScreen s1)
    if ARG.m_restartable then
      some (true, scheduleClientRestart retryTime s2)
    else
      -- don't try again
      some (false, s2)
  | .error (.XScreenOpenFailure _, clientScreen, s1) =>
    some (false, closeClientScreen clientScreen s1)
  | .error (.other _, clientScreen, s1) =>
    some (false, closeClientScreen clientScreen s1)

/-- The handler `handleClientRestart`, bound to its timer. -/
def handleClientRestart (pf : Platform) (ARG : CArgs) (_e : CEvent) (vtimer : Nat)
    (s : Statics) : Option Statics :=
  -- discard old timer
  let q := (s.EVENTQUEUE.deleteTimer vtimer).removeHandler .kTimer (.timer vtimer)
  -- reconnect
  (startClient pf ARG { s with EVENTQUEUE := q }).map Prod.snd

/-- The function `stopClient()`. -/
def stopClient (s : Statics) : Statics :=
  let s1 := closeClientScreen s.s_clientScreen (closeClient s.s_client s)
  { s1 with s_client := none, s_clientScreen := none }

/-- Modelled from the spec: `EVENTQUEUE->dispatchEvent(event)`: the handler registered for the
event is run; an event without handler is discarded. -/
def dispatchEvent (pf : Platform) (ARG : CArgs) (event : CEvent) (s : Statics) :
    Option Statics :=
  match s.EVENTQUEUE.getHandler event with
  | none => some s
  | some .handleScreenError => some (handleScreenError event s)
  | some (.handleClientRestart vtimer) => handleClientRestart pf ARG event vtimer s
  | some .handleClientConnected => some (handleClientConnected event s)
  | some .handleClientFailed => handleClientFailed ARG event s
  | some .handleClientDisconnected => handleClientDisconnected ARG event s

/-- How a run of `mainLoop` ends: it returns an exit code, or waits for ever in `getEvent`, or
runs into a call through a null pointer, or the run is longer than the steps allowed. -/
inductive Run
  | returned (code : Int) (s : Statics)
  | blocked (s : Statics)
  | undefined
  | outOfSteps
deriving DecidableEq, Repr

/-- The event loop of `mainLoop`, `getEvent` then `while (event.getType() != CEvent::kQuit)`,
followed by the close-down code; at most `steps` events are taken from the queue. -/
def eventLoop (pf : Platform) (ARG : CArgs) : Nat → List (List CEvent) → Statics → Run
  | 0, _, _ => .outOfSteps
  | steps + 1, arrivals, s =>
    match CEventQueue.getEvent arrivals s.EVENTQUEUE.m_events with
    | none => .blocked s
    | some (event, later, pending) =>
      let s1 := { s with EVENTQUEUE := { s.EVENTQUEUE with m_events := pending } }
      if event.getType = .kQuit then
        -- close down
        .returned kExitSuccess (updateStatus "" (stopClient s1))
      else
        match dispatchEvent pf ARG event s1 with
        | none => .undefined
        | some s2 => eventLoop pf ARG steps later s2

/-- The function `mainLoop()`, run on a newly created event queue. -/
def mainLoop (pf : Platform) (ARG : CArgs) (steps : Nat) (arrivals : List (List CEvent))
    (s : Statics) : Run :=
  -- create the event queue
  let s0 := { s with EVENTQUEUE := CEventQueue.CEventQueue }
  -- start the client
  match startClient pf ARG s0 with
  | none => .undefined
  | some (false, s1) => .returned kExitFailed s1
  | some (true, s1) => eventLoop pf ARG steps arrivals s1

/-- The event loop of `mainLoop` with a record of what it does: how the run ends, the events
`getEvent` delivered, in order, and the events passed to `dispatchEvent`, in order. -/
def eventLoopLog (pf : Platform) (ARG : CArgs) :
    Nat → List (List CEvent) → Statics → Run × List CEvent × List CEvent
  | 0, _, _ => (.outOfSteps, [], [])
  | steps + 1, arrivals, s =>
    match CEventQueue.getEvent arrivals s.EVENTQUEUE.m_events with
    | none => (.blocked s, [], [])
    | some (event, later, pending) =>
      let s1 := { s with EVENTQUEUE := { s.EVENTQUEUE with m_events := pending } }
      if event.getType = .kQuit then
        -- close down
        (.returned kExitSuccess (updateStatus "" (stopClient s1)), [event], [])
      else
        match dispatchEvent pf ARG event s1 with
        | none => (.undefined, [event], [event])
        | some s2 =>
          let r := eventLoopLog pf ARG steps later s2
          (r.1, event :: r.2.1, event :: r.2.2)

/-- The function `mainLoop()` with the same record: how the run ends, the events delivered and
the events dispatched. -/
def mainLoopLog (pf : Platform) (ARG : CArgs) (steps : Nat) (arrivals : List (List CEvent))
    (s : Statics) : Run × List CEvent × List CEvent :=
  -- create the event queue
  let s0 := { s with EVENTQUEUE := CEventQueue.CEventQueue }
  -- start the client
  match startClient pf ARG s0 with
  | none => (.undefined, [], [])
  | some (false, s1) => (.returned kExitFailed s1, [], [])
  | some (true, s1) => eventLoopLog pf ARG steps arrivals s1

/-- The `try` block of `startClient` when `s_client->connect()` may throw: `connectThrows n` is
the `XBase` thrown by the call of `connect()` made after `n` earlier calls, or `none` when that
call returns (the case of `connect` above). The exception comes with the local `clientScreen`,
which is the screen opened in this call, or `NULL` when the screen was already there. `none`
when `connect()` would be called through a null `s_client`. -/
def startClientTryConnecting (pf : Platform) (connectThrows : Nat → Option XBase) (ARG : CArgs)
    (s : Statics) : Option (Except (XBase × Option Nat × Statics) Statics) :=
  match startClientTry pf ARG s with
  | .error x => some (.error x)
  | .ok s1 =>
    match s1.s_client with
    | none => none
    | some client =>
      match connectThrows s1.connects.length with
      | some e =>
        some (.error (e, (if s.s_clientScreen = none then s1.s_clientScreen else none),
          connect client s1))
      | none => some (.ok (updateStatus "" (connect client s1)))

/-- The function `startClient()` when `s_client->connect()` may throw: the `try` block and the
three `catch` clauses, then the restart. -/
def startClientConnecting (pf : Platform) (connectThrows : Nat → Option XBase) (ARG : CArgs)
    (s : Statics) : Option (Bool × Statics) :=
  match startClientTryConnecting pf connectThrows ARG s with
  | none => none
  | some (.ok s1) => some (true, s1)
  | some (.error (.XScreenUnavailable what retryTime, clientScreen, s1)) =>
    let s2 := updateStatus ("Cannot open secondary screen: " ++ what)
      (closeClientScreen clientScreen s1)
    if ARG.m_restartable then
      some (true, scheduleClientRestart retryTime s2)
    else
      -- don't try again
      some (false, s2)
  | some (.error (.XScreenOpenFailure _, clientScreen, s1)) =>
    some (false, closeClientScreen clientScreen s1)
  | some (.error (.other _, clientScreen, s1)) =>
    some (false, closeClientScreen clientScreen s1)

end synergyc

namespace synergyc

/-! ## cmd/synergyc/synergyc.cpp: startup -/

/-- The macro `DAEMON_NAME` of the `SYSAPI_UNIX` build. -/
def DAEMON_NAME : String := "synergyc"

/-- How `standardStartup` goes on after the command line: `parse` has exited, or the process is
handed to `ARCH->daemonize(DAEMON_NAME, &daemonMainLoop)`, or `mainLoop()` is run in the
foreground; with the argument record then. -/
inductive Startup
  | exited (e : Exit)
  | daemonize (name : String) (ARG : CArgs)
  | mainLoop (ARG : CArgs)
deriving DecidableEq, Repr

/-- The function `standardStartup(argc, argv)`: whether `ARCH->showConsole(false)` is called
first, and how the startup goes on. -/
def standardStartup (b : Build) (host : Host) (argv : List String) (ARG : CArgs) :
    Bool × Startup :=
  let showConsole := !ARG.m_daemon
  -- parse command line
  match parse b host argv ARG with
  | .error e => (showConsole, .exited e)
  | .ok ARG1 =>
    -- daemonize if requested
    if ARG1.m_daemon then
      (showConsole, .daemonize DAEMON_NAME ARG1)
    else
      (showConsole, .mainLoop ARG1)

end synergyc

/-! ## lib/platform/COSXKeyState.h: key buttons -/

namespace COSXKeyState

/-- The enumerator `KeyButtonOffset`. -/
def KeyButtonOffset : Nat := 1

/-- Modelled from the spec: `COSXKeyState::mapVirtualKeyToKeyButton(UInt32 keyCode)`, declared in
COSXKeyState.h with its body not among the sources. The header has the OS X key ids offset by
`KeyButtonOffset` when used as a `KeyButton`, so that `KeyButton` 0 is not used. `bits` is the
number of bits of a `KeyButton`, an unsigned type whose typedef is not among the sources; the
result is the sum as a value of that many bits. -/
def mapVirtualKeyToKeyButton (bits : Nat) (keyCode : Nat) : Nat :=
  (keyCode + KeyButtonOffset) % 2 ^ bits

/-- Modelled from the spec: `COSXKeyState::mapKeyButtonToVirtualKey(KeyButton keyButton)`,
declared in COSXKeyState.h with its body not among the sources. The header has the button offset
by minus `KeyButtonOffset`; the result is a `UInt32`, so the difference is taken modulo 2^32. -/
def mapKeyButtonToVirtualKey (keyButton : Nat) : Nat :=
  (((keyButton : Int) - (KeyButtonOffset : Int)) % 2 ^ 32).toNat

end COSXKeyState

/-! ## lib/server/CPrimaryClient.h: nested fake input -/

namespace CPrimaryClient

/-- The two calls `CPrimaryClient` makes on its screen for fake input. -/
inductive ScreenCall
  | fakeInputBegin
  | fakeInputEnd
deriving DecidableEq, Repr

/-- The members of `CPrimaryClient` that fake input touches: the nesting count
`m_fakeInputCount`, and the calls `m_screen` has received, oldest first. The count is an `SInt32`
in the source and is not reduced here (overflow of a signed counter is undefined in C++). -/
structure State where
  m_fakeInputCount : Int
  m_screen : List ScreenCall
deriving DecidableEq, Repr

/-- Modelled from the spec: the state after the constructor, with no fake input begun. -/
def State.initial : State := ⟨0, []⟩

/-- Modelled from the spec: `CPrimaryClient::fakeInputBegin()`, declared in CPrimaryClient.h with
its body not among the sources. Calls may be nested and only the outermost have an effect: the
count goes up, and the screen is told when it becomes 1. -/
def fakeInputBegin (c : State) : State :=
  let count := c.m_fakeInputCount + 1
  if count = 1 then ⟨count, c.m_screen ++ [.fakeInputBegin]⟩ else ⟨count, c.m_screen⟩

/-- Modelled from the spec: `CPrimaryClient::fakeInputEnd()`, declared in CPrimaryClient.h with
its body not among the sources. It undoes `fakeInputBegin`: the count goes down, and the screen
is told when it is back to 0. -/
def fakeInputEnd (c : State) : State :=
  let count := c.m_fakeInputCount - 1
  if count = 0 then ⟨count, c.m_screen ++ [.fakeInputEnd]⟩ else ⟨count, c.m_screen⟩

/-- A call of one of the two methods. -/
inductive Call
  | fakeInputBegin
  | fakeInputEnd
deriving DecidableEq, Repr

/-- The state after one call. -/
def call : Call → State → State
  | .fakeInputBegin, c => fakeInputBegin c
  | .fakeInputEnd, c => fakeInputEnd c

/-- The state after a sequence of calls. -/
def calls : List Call → State → State
  | [], c => c
  | x :: xs, c => calls xs (call x c)

/-- A sequence of calls is properly nested from depth `depth` when no `fakeInputEnd` comes
without an open `fakeInputBegin`. -/
def properlyNestedFrom : Nat → List Call → Bool
  | _, [] => true
  | depth, .fakeInputBegin :: xs => properlyNestedFrom (depth + 1) xs
  | 0, .fakeInputEnd :: _ => false
  | depth + 1, .fakeInputEnd :: xs => properlyNestedFrom depth xs

end CPrimaryClient

/-! ## CXWindowsKeyState, as exercised by test/integtests/platform/CXWindowsKeyStateTests.cpp -/

namespace CXWindowsKeyState

/-- Modelled from the spec: the symbolic group `kGroupPoll` (its enum is not among the sources);
the group that is not set is -1. -/
def kGroupPoll : Int := -1

/-- Modelled from the spec: the symbolic group `kGroupPollAndSet` (its enum is not among the
sources). -/
def kGroupPollAndSet : Int := -2

/-- The X server as the key state sees it: the group `XkbGetState` reports, `none` when the call
fails or the XKB extension is absent. -/
structure XServer where
  XkbGetState : Option Int
deriving DecidableEq, Repr

/-- The member `m_group` of `CXWindowsKeyState`, the one the tests read and write. -/
structure State where
  m_group : Int
deriving DecidableEq, Repr

/-- Modelled from the spec: `CXWindowsKeyState::pollActiveGroup()` (CXWindowsKeyState.cpp is not
among the sources), from the tests `pollActiveGroup_positiveGroup_returnsGroup`,
`pollActiveGroup_xkb_areEqual` and `pollActiveGroup_defaultState_returnsZero`: a stored group is
returned as it is; with the group reset to -1 the group of `XkbGetState` is returned, and 0 when
there is none. The second component tells whether the X server was consulted. -/
def pollActiveGroup (x : XServer) (k : State) : Int × Bool :=
  if k.m_group ≠ -1 then (k.m_group, false)
  else (x.XkbGetState.getD 0, true)

/-- Modelled from the spec: `CXWindowsKeyState::setActiveGroup(group)` (CXWindowsKeyState.cpp is
not among the sources), from the tests `setActiveGroup_pollAndSet_groupIsZero`,
`setActiveGroup_poll_groupIsNotSet` and `setActiveGroup_customGroup_groupWasSet`: poll-and-set
stores the polled group, poll leaves the group not set, any other group is stored. -/
def setActiveGroup (x : XServer) (group : Int) (_k : State) : State :=
  if group = kGroupPollAndSet then ⟨(pollActiveGroup x ⟨-1⟩).1⟩
  else if group = kGroupPoll then ⟨-1⟩
  else ⟨group⟩

/-- The modifier maps of `CXWindowsKeyState`: the vector `m_modifierFromX`, which the test
`pollActiveModifiers_shiftKeyPressed_shiftInMask` fills and indexes by X modifier index
(`ShiftMapIndex`), holding the modifier mask of each X modifier bit, and the map `m_modifierToX`
from a modifier bit to its X mask. -/
structure ModifierMaps where
  m_modifierFromX : List Nat
  m_modifierToX : List (Nat × Nat)
deriving DecidableEq, Repr

/-- Modelled from the spec: the number of bits of a `KeyModifierMask` (KeyTypes.h is not among
the sources). -/
def kKeyModifierNumBits : Nat := 16

/-- Modelled from the spec: `CXWindowsKeyState::mapModifiersFromX(state)` (CXWindowsKeyState.cpp
is not among the sources), from the test `mapModifiersFromX_zeroState_zeroMask` and the use of
`m_modifierFromX` in `pollActiveModifiers_shiftKeyPressed_shiftInMask`: the mask is the union of
the entries of `m_modifierFromX` for the eight modifier bits set in the X state, the entries being
those of the keyboard group held in bits 13 and 14 of the state; a missing entry adds nothing. -/
def mapModifiersFromX (k : ModifierMaps) (state : Nat) : Nat :=
  let offset := 8 * ((state >>> 13) &&& 3)
  (List.range 8).foldl
    (fun mask i => if state.testBit i then mask ||| k.m_modifierFromX.getD (offset + i) 0 else mask)
    0

/-- Modelled from the spec: the loop of `mapModifiersToX` over the modifier bits `bits`:
the result and the X modifiers collected; a bit of the mask without entry in `m_modifierToX`
ends the loop with false. -/
def mapModifiersToXLoop (k : ModifierMaps) (mask : Nat) : List Nat → Nat → Bool × Nat
  | [], modifiers => (true, modifiers)
  | i :: bits, modifiers =>
    if mask.testBit i then
      match k.m_modifierToX.lookup (1 <<< i) with
      | none => (false, modifiers)
      | some x => mapModifiersToXLoop k mask bits (modifiers ||| x)
    else mapModifiersToXLoop k mask bits modifiers

/-- Modelled from the spec: `CXWindowsKeyState::mapModifiersToX(mask, modifiers)`
(CXWindowsKeyState.cpp is not among the sources), from the test
`mapModifiersToX_zeroMask_resultIsTrue`: the result, true for success, and the value left in the
reference parameter `modifiers`, the union of the X masks of the modifier bits set in `mask`. -/
def mapModifiersToX (k : ModifierMaps) (mask : Nat) : Bool × Nat :=
  mapModifiersToXLoop k mask (List.range kKeyModifierNumBits) 0

end CXWindowsKeyState

/-! ## gui/src/SettingsDialog.cpp -/

/-- Modelled from the spec: the seven settings of `AppConfig` that the dialog loads and stores
(AppConfig.h is not among the sources): auto-connect, the synergyc path, the synergys path, the
screen name, the port, the interface and the log level; the getters `autoConnect()`, ...,
`logLevel()` are the fields. -/
structure AppConfig where
  autoConnect : Bool
  synergyc : String
  synergys : String
  screenName : String
  port : Int
  interface : String
  logLevel : Int
deriving DecidableEq, Repr

namespace AppConfig

/-- Modelled from the spec: `AppConfig::setAutoConnect`, which replaces its own setting. -/
def setAutoConnect (b : Bool) (c : AppConfig) : AppConfig := { c with autoConnect := b }

/-- Modelled from the spec: `AppConfig::setSynergyc`, which replaces its own setting. -/
def setSynergyc (s : String) (c : AppConfig) : AppConfig := { c with synergyc := s }

/-- Modelled from the spec: `AppConfig::setSynergys`, which replaces its own setting. -/
def setSynergys (s : String) (c : AppConfig) : AppConfig := { c with synergys := s }

/-- Modelled from the spec: `AppConfig::setScreenName`, which replaces its own setting. -/
def setScreenName (s : String) (c : AppConfig) : AppConfig := { c with screenName := s }

/-- Modelled from the spec: `AppConfig::setPort`, which replaces its own setting. -/
def setPort (i : Int) (c : AppConfig) : AppConfig := { c with port := i }

/-- Modelled from the spec: `AppConfig::setInterface`, which replaces its own setting. -/
def setInterface (s : String) (c : AppConfig) : AppConfig := { c with interface := s }

/-- Modelled from the spec: `AppConfig::setLogLevel`, which replaces its own setting. -/
def setLogLevel (i : Int) (c : AppConfig) : AppConfig := { c with logLevel := i }

end AppConfig

/-- The widget classes behind `Ui::SettingsDialogBase` as `setupUi` configures them (Qt and the
.ui file are not among the sources), each by what its widget holds once its setter has been
called: `isChecked()` after `setChecked(b)`, `text()` after `setText(s)`, `value()` after
`setValue(i)` and `currentIndex()` after `setCurrentIndex(i)`. -/
structure SettingsDialogBase where
  m_pCheckBoxAutoConnect : Bool → Bool
  m_pLineEditSynergyc : String → String
  m_pLineEditSynergys : String → String
  m_pLineEditScreenName : String → String
  m_pSpinBoxPort : Int → Int
  m_pLineEditInterface : String → String
  m_pComboLogLevel : Int → Int

/-- What the seven widgets of the dialog hold: `isChecked()`, the four `text()`, `value()` and
`currentIndex()`. -/
structure Widgets where
  m_pCheckBoxAutoConnect : Bool
  m_pLineEditSynergyc : String
  m_pLineEditSynergys : String
  m_pLineEditScreenName : String
  m_pSpinBoxPort : Int
  m_pLineEditInterface : String
  m_pComboLogLevel : Int
deriving DecidableEq, Repr

/-- The dialog `SettingsDialog`: the configuration `m_AppConfig` it refers to, its widgets, and
whether `QDialog::accept()` has closed it as accepted. -/
structure SettingsDialog where
  m_AppConfig : AppConfig
  widgets : Widgets
  accepted : Bool
deriving DecidableEq, Repr

namespace SettingsDialog

set_option linter.dupNamespace false in
/-- The constructor `SettingsDialog::SettingsDialog(parent, config)`: after `setupUi`, each widget
is set from its setting. -/
def SettingsDialog (ui : SettingsDialogBase) (config : AppConfig) : Synergy.SettingsDialog :=
  { m_AppConfig := config
    widgets :=
      { m_pCheckBoxAutoConnect := ui.m_pCheckBoxAutoConnect config.autoConnect
        m_pLineEditSynergyc := ui.m_pLineEditSynergyc config.synergyc
        m_pLineEditSynergys := ui.m_pLineEditSynergys config.synergys
        m_pLineEditScreenName := ui.m_pLineEditScreenName config.screenName
        m_pSpinBoxPort := ui.m_pSpinBoxPort config.port
        m_pLineEditInterface := ui.m_pLineEditInterface config.interface
        m_pComboLogLevel := ui.m_pComboLogLevel config.logLevel }
    accepted := false }

/-- The slot `on_m_pButtonBrowseSynergys_clicked()`, `fileName` being what the file dialog
returns (empty when it is cancelled). -/
def on_m_pButtonBrowseSynergys_clicked (ui : SettingsDialogBase) (fileName : String)
    (d : Synergy.SettingsDialog) : Bool × Synergy.SettingsDialog :=
  if !fileName.isEmpty then
    (true, { d with widgets :=
      { d.widgets with m_pLineEditSynergys := ui.m_pLineEditSynergys fileName } })
  else
    (false, d)

/-- The slot `on_m_pButtonBrowseSynergyc_clicked()`, `fileName` being what the file dialog
returns (empty when it is cancelled). -/
def on_m_pButtonBrowseSynergyc_clicked (ui : SettingsDialogBase) (fileName : String)
    (d : Synergy.SettingsDialog) : Bool × Synergy.SettingsDialog :=
  if !fileName.isEmpty then
    (true, { d with widgets :=
      { d.widgets with m_pLineEditSynergyc := ui.m_pLineEditSynergyc fileName } })
  else
    (false, d)

/-- The method `SettingsDialog::accept()`: the seven setters, in the order of the source, then
`QDialog::accept()`. -/
def accept (d : Synergy.SettingsDialog) : Synergy.SettingsDialog :=
  let c1 := d.m_AppConfig.setAutoConnect d.widgets.m_pCheckBoxAutoConnect
  let c2 := c1.setSynergyc d.widgets.m_pLineEditSynergyc
  let c3 := c2.setSynergys d.widgets.m_pLineEditSynergys
  let c4 := c3.setScreenName d.widgets.m_pLineEditScreenName
  let c5 := c4.setPort d.widgets.m_pSpinBoxPort
  let c6 := c5.setInterface d.widgets.m_pLineEditInterface
  let c7 := c6.setLogLevel d.widgets.m_pComboLogLevel
  { d with m_AppConfig := c7, accepted := true }

end SettingsDialog

/-! ## src/lib/ipc/CIpcServer.cpp -/

namespace CIpcServer

/-- An event as `CIpcServer` sees it, `CEvent(type, target, data)`: the name its type is
registered under, the object it is for, and the client proxy it carries (`none` for `NULL`). -/
structure Event where
  getType : String
  getTarget : Nat
  getData : Option Nat
deriving DecidableEq, Repr

/-- The method `getClientConnectedEvent()`: the event type registered, once, under the name
"CIpcServer::clientConnected"; a type is given here by its name. -/
def getClientConnectedEvent : String := "CIpcServer::clientConnected"

/-- The server `this` with what `handleClientConnecting` acts on: the set `m_clients`, the
`CIpcClientProxy` objects constructed so far (none is ever deleted), each given by the stream it
wraps and identified by its place in the list, and the events pending in `EVENTQUEUE`. -/
structure State where
  this : Nat
  m_clients : Finset Nat
  proxies : List Nat
  events : List Event
deriving DecidableEq

/-- The handler `handleClientConnecting`, `accepted` being what `m_socket.accept()` returns (`none`
for `NULL`). -/
def handleClientConnecting (_e : Event) (accepted : Option Nat) (s : State) : State :=
  match accepted with
  | none => s
  | some stream =>
    -- new CIpcClientProxy(*stream)
    let proxy := s.proxies.length
    { s with
      proxies := s.proxies ++ [stream],
      m_clients := insert proxy s.m_clients,
      events := s.events ++ [⟨getClientConnectedEvent, s.this, some proxy⟩] }

/-- The clients are proxies that have been constructed. -/
def clientsConstructed (s : State) : Prop :=
  ∀ proxy ∈ s.m_clients, proxy < s.proxies.length

instance (s : State) : Decidable (clientsConstructed s) := by
  unfold clientsConstructed
  infer_instance

/-- The state after the connecting events of a list, each with what `accept()` returns for it. -/
def handleClientConnectingAll : List (Event × Option Nat) → State → State
  | [], s => s
  | (e, accepted) :: later, s => handleClientConnectingAll later (handleClientConnecting e accepted s)

end CIpcServer

/-! ## Vocabulary of the statements -/

/-- The address error raised, if any, when the server address is built from `server` with the
default port and then resolved. -/
def addressError (host : Host) (server : String) : Option XSocketAddress :=
  match host.newAddress server kDefaultPort with
  | .error e => some e
  | .ok address =>
    match host.resolve address with
    | .error e => some e
    | .ok _ => none

/-- The argument record after the address step when that step does not exit: the address built,
when it could be built, is kept. -/
def withAddressBuilt (host : Host) (server : String) (ARG : CArgs) : CArgs :=
  match host.newAddress server kDefaultPort with
  | .error _ => ARG
  | .ok address => { ARG with m_serverAddress := some address }

/-- The arguments that the option loop recognises. -/
def recognised (b : Build) (arg : String) : Bool :=
  arg ∈ ["-d", "--debug", "-n", "--name", "--camp", "--no-camp", "-f", "--no-daemon", "--daemon",
    "--yscroll", "-l", "--log", "-1", "--no-restart", "--restart", "-z", "-h", "--help",
    "--version", "--"] ||
  (b.WINAPI_XWINDOWS && arg ∈ ["-display", "--display"])

/-- The parameter-taking options: `-d`, `--debug`, `-n`, `--name`, `--yscroll`, `-l`, `--log`. -/
def takesParameter (arg : String) : Bool :=
  arg ∈ ["-d", "--debug", "-n", "--name", "--yscroll", "-l", "--log"]

namespace synergyc

/-- The option loop of `parse` after `n` passes through its body, none of which exits or breaks:
the arguments still unread and the argument record. `none` when the loop is left before. -/
def optionLoopAfter (b : Build) : Nat → List String → CArgs → Option (List String × CArgs)
  | 0, unread, ARG => some (unread, ARG)
  | _ + 1, [], _ => none
  | n + 1, arg :: rest, ARG =>
    match parseOption b arg rest ARG with
    | .ok (.next ARG1) => optionLoopAfter b n rest ARG1
    | .ok (.nextParam ARG1) => optionLoopAfter b n rest.tail ARG1
    | _ => none

end synergyc

namespace CClientApp

/-- The option loop of `CClientApp::parse` after `n` passes through its body, none of which
exits or breaks. -/
def optionLoopAfter (b : Build) : Nat → List String → CArgs → Option (List String × CArgs)
  | 0, unread, ARG => some (unread, ARG)
  | _ + 1, [], _ => none
  | n + 1, arg :: rest, ARG =>
    match parseOption b arg rest ARG with
    | .ok (.next ARG1) => optionLoopAfter b n rest ARG1
    | .ok (.nextParam ARG1) => optionLoopAfter b n rest.tail ARG1
    | _ => none

end CClientApp

/-- The options that take a parameter on the build: those of `takesParameter` and, on X Windows,
`-display` and `--display`. -/
def takesParameterOn (b : Build) (arg : String) : Bool :=
  takesParameter arg || (b.WINAPI_XWINDOWS && arg ∈ ["-display", "--display"])

/-- The options without parameter that do not end the run. -/
def isFlag (arg : String) : Bool :=
  arg ∈ ["--camp", "--no-camp", "-f", "--no-daemon", "--daemon", "-1", "--no-restart",
    "--restart", "-z"]

/-- The arguments in option position, read from the left as the usage text has them, each with
the parameter that follows it when it takes one. The reading ends at the first argument that is
neither a parameter-taking option with its parameter nor a flag (`--`, help, version, the server
address, anything else). -/
def optionsOf (b : Build) : List String → List (String × Option String)
  | [] => []
  | arg :: rest =>
    if takesParameterOn b arg then
      match rest with
      | [] => []
      | p :: rest1 => (arg, some p) :: optionsOf b rest1
    else if isFlag arg then (arg, none) :: optionsOf b rest
    else []

/-- The value set by the last option that sets one, `f` telling what an option sets. -/
def lastSetting {α : Type} (f : String × Option String → Option α) :
    List (String × Option String) → Option α
  | [] => none
  | o :: opts =>
    match lastSetting f opts with
    | some v => some v
    | none => f o

/-- The screen name an option gives: the parameter of `-n` or `--name`. -/
def nameSetting (o : String × Option String) : Option String :=
  if o.1 = "-n" ∨ o.1 = "--name" then o.2 else none

/-- The scroll delta an option gives: the integer value of the parameter of `--yscroll`. -/
def yscrollSetting (o : String × Option String) : Option Int :=
  if o.1 = "--yscroll" then o.2.map atoi else none

/-- The restart policy an option gives: true for `--restart`, false for `--no-restart`, `-1`. -/
def restartSetting (o : String × Option String) : Option Bool :=
  if o.1 = "--restart" then some true
  else if o.1 = "--no-restart" ∨ o.1 = "-1" then some false
  else none

/-- The daemon flag an option gives: true for `--daemon`, false for `--no-daemon`, `-f`. -/
def daemonSetting (o : String × Option String) : Option Bool :=
  if o.1 = "--daemon" then some true
  else if o.1 = "--no-daemon" ∨ o.1 = "-f" then some false
  else none

/-- The argument record after one option in option position. -/
def applyOption (ARG : CArgs) (o : String × Option String) : CArgs :=
  { ARG with
    m_logFilter := if o.1 = "-d" ∨ o.1 = "--debug" then o.2 else ARG.m_logFilter
    m_name := (nameSetting o).getD ARG.m_name
    m_display := if o.1 = "-display" ∨ o.1 = "--display" then o.2 else ARG.m_display
    m_yscroll := (yscrollSetting o).getD ARG.m_yscroll
    m_logFile := if o.1 = "-l" ∨ o.1 = "--log" then o.2 else ARG.m_logFile
    m_daemon := (daemonSetting o).getD ARG.m_daemon
    m_restartable := (restartSetting o).getD ARG.m_restartable
    m_backend := if o.1 = "-z" then true else ARG.m_backend }

/-- The log level an option gives: the parameter of `-d` or `--debug`. -/
def debugSetting (o : String × Option String) : Option (Option String) :=
  if o.1 = "-d" ∨ o.1 = "--debug" then some o.2 else none

/-- The log filter to hand to the logger: the level given by the last `-d` or `--debug`, else the
filter of the argument record on entry; and when there is none at all, "NOTE" for a daemon and
no filter otherwise. -/
def filterPassed (given : Option (Option String)) (entry : Option String) (daemon : Bool) :
    Option String :=
  match given.getD entry with
  | some level => some level
  | none => if daemon then some "NOTE" else none

/-! ## Inputs of the worked examples and sequences of calls -/

/-- Host used in the worked examples: every address is built and resolved, every log level but
"BAD" accepted. -/
def exampleHost : Host :=
  ⟨"me", fun s p => .ok ⟨s, p, false⟩, fun a => .ok { a with m_resolved := true },
    fun f => f != some "BAD"⟩

/-- Host used in the worked examples: addresses are built but never resolved. -/
def unresolvedHost : Host :=
  ⟨"me", fun s p => .ok ⟨s, p, false⟩, fun _ => .error ⟨.kBadHost, "unknown host"⟩,
    fun _ => true⟩

/-- A call among those that could move a retry delay. -/
inductive RetryCall
  | nextRestartTimeout
  | resetRestartTimeout
  | handleClientConnected (e : CEvent)
deriving DecidableEq, Repr

/-- The statics after a sequence of such calls. -/
def runRetryCalls : List RetryCall → synergyc.Statics → synergyc.Statics
  | [], s => s
  | .nextRestartTimeout :: calls, s => runRetryCalls calls (synergyc.nextRestartTimeout s).2
  | .resetRestartTimeout :: calls, s => runRetryCalls calls (synergyc.resetRestartTimeout s)
  | .handleClientConnected e :: calls, s => runRetryCalls calls (synergyc.handleClientConnected e s)

/-- Platform used in the worked examples: every screen and every client can be made. -/
def okPlatform : Platform := ⟨fun _ => none, fun _ => none⟩

/-- Platform used in the worked examples: the screen cannot be opened. -/
def openFailurePlatform : Platform :=
  ⟨fun _ => some (.XScreenOpenFailure "unable to open screen"), fun _ => none⟩

/-- Platform used in the worked examples: the screen throws another `XBase`. -/
def brokenPlatform : Platform := ⟨fun _ => some (.other "no memory"), fun _ => none⟩

/-- Platform used in the worked examples: the screen is unavailable, to be retried after 7.5 s. -/
def unavailablePlatform : Platform :=
  ⟨fun _ => some (.XScreenUnavailable "screen saver running" 7.5), fun _ => none⟩

/-- The statics once `startClient` has started client 0 on screen 0, restart enabled. -/
def startedStatics : synergyc.Statics :=
  match synergyc.startClient okPlatform CClientApp.CArgs.CArgs synergyc.Statics.initial with
  | some (_, s) => s
  | none => synergyc.Statics.initial

/-- A call of one of the two functions that set and reset `s_client` and `s_clientScreen`. -/
inductive SupervisorCall
  | startClient
  | stopClient
deriving DecidableEq, Repr

/-- The statics after a sequence of such calls, `connect()` throwing as `connectThrows` says;
`none` when a call goes through a null pointer. -/
def runSupervisorCalls (pf : Platform) (connectThrows : Nat → Option XBase) (ARG : CArgs) :
    List SupervisorCall → synergyc.Statics → Option synergyc.Statics
  | [], s => some s
  | .startClient :: calls, s =>
    match synergyc.startClientConnecting pf connectThrows ARG s with
    | none => none
    | some (_, s1) => runSupervisorCalls pf connectThrows ARG calls s1
  | .stopClient :: calls, s => runSupervisorCalls pf connectThrows ARG calls (synergyc.stopClient s)

/-- The recorded screen is none or a screen still open, and the client is recorded exactly when
the screen is. -/
def recordedScreenOpen (s : synergyc.Statics) : Prop :=
  (s.s_client = none ↔ s.s_clientScreen = none) ∧
  ∀ screen : Nat, s.s_clientScreen = some screen → screen ∈ s.screens

instance (s : synergyc.Statics) : Decidable (recordedScreenOpen s) := by
  unfold recordedScreenOpen
  cases s.s_clientScreen with
  | none => exact decidable_of_iff (s.s_client = none) (by simp)
  | some id =>
    exact decidable_of_iff (s.s_client ≠ none ∧ id ∈ s.screens) (by simp)

/-- An operation of the supervisor: `startClient`, `stopClient`, or one of the five handlers run
on an event (the restart handler with the timer it is bound to). -/
inductive SupervisorOp
  | startClient
  | stopClient
  | handleClientConnected (e : CEvent)
  | handleClientFailed (e : CEvent)
  | handleClientDisconnected (e : CEvent)
  | handleClientRestart (e : CEvent) (vtimer : Nat)
  | handleScreenError (e : CEvent)
deriving DecidableEq, Repr

/-- The statics after one operation of the supervisor; `none` when it goes through a null
pointer. -/
def runSupervisorOp (pf : Platform) (ARG : CArgs) : SupervisorOp → synergyc.Statics →
    Option synergyc.Statics
  | .startClient, s => (synergyc.startClient pf ARG s).map Prod.snd
  | .stopClient, s => some (synergyc.stopClient s)
  | .handleClientConnected e, s => some (synergyc.handleClientConnected e s)
  | .handleClientFailed e, s => synergyc.handleClientFailed ARG e s
  | .handleClientDisconnected e, s => synergyc.handleClientDisconnected ARG e s
  | .handleClientRestart e vtimer, s => synergyc.handleClientRestart pf ARG e vtimer s
  | .handleScreenError e, s => some (synergyc.handleScreenError e s)

/-- The statics after a sequence of operations of the supervisor. -/
def runSupervisorOps (pf : Platform) (ARG : CArgs) : List SupervisorOp → synergyc.Statics →
    Option synergyc.Statics
  | [], s => some s
  | op :: ops, s =>
    match runSupervisorOp pf ARG op s with
    | none => none
    | some s1 => runSupervisorOps pf ARG ops s1

/-- Widgets used in the worked examples: each holds the value it is set to. -/
def holdingWidgets : SettingsDialogBase :=
  { m_pCheckBoxAutoConnect := fun b => b
    m_pLineEditSynergyc := fun s => s
    m_pLineEditSynergys := fun s => s
    m_pLineEditScreenName := fun s => s
    m_pSpinBoxPort := fun i => i
    m_pLineEditInterface := fun s => s
    m_pComboLogLevel := fun i => i }

/-- Configuration used in the worked examples. -/
def exampleConfig : AppConfig := ⟨true, "/usr/bin/synergyc", "/usr/bin/synergys", "desk", 24800, "", 2⟩

/-! ## The two parsers are the same function -/

theorem CClientApp.isArg_eq : @CClientApp.isArg = @synergyc.isArg := rfl

theorem CClientApp.parseOption_eq : @CClientApp.parseOption = @synergyc.parseOption := rfl

theorem CClientApp.parseOptions_eq_aux (b : Build) :
    ∀ (n : Nat) (l : List String) (ARG : CArgs), l.length ≤ n →
      CClientApp.parseOptions b l ARG = synergyc.parseOptions b l ARG := by
  intro n
  induction n with
  | zero =>
    intro l ARG h
    cases l with
    | nil => rfl
    | cons a rest => simp at h
  | succ n ih =>
    intro l ARG h
    cases l with
    | nil => rfl
    | cons a rest =>
      have hlen : rest.length ≤ n := by simpa using h
      rw [CClientApp.parseOptions, synergyc.parseOptions, CClientApp.parseOption_eq]
      cases synergyc.parseOption b a rest ARG with
      | error e => rfl
      | ok st =>
        cases st with
        | next A => exact ih rest A hlen
        | nextParam A =>
          cases rest with
          | nil => rfl
          | cons p r => exact ih r A (by simp at hlen; omega)
        | stopHere A => rfl
        | stopAfter A => rfl

theorem CClientApp.parseOptions_eq : @CClientApp.parseOptions = @synergyc.parseOptions := by
  funext b l ARG
  exact CClientApp.parseOptions_eq_aux b l.length l ARG le_rfl

theorem CClientApp.saveServerAddress_eq :
    @CClientApp.saveServerAddress = @synergyc.saveServerAddress := rfl

theorem CClientApp.setLogFilter_eq : @CClientApp.setLogFilter = @synergyc.setLogFilter := rfl

theorem CClientApp.parse_eq : @CClientApp.parse = @synergyc.parse := by
  funext b host argv ARG
  simp only [CClientApp.parse, synergyc.parse, CClientApp.parseOptions_eq,
    CClientApp.saveServerAddress_eq, CClientApp.setLogFilter_eq]

theorem CClientApp.optionLoopAfter_eq :
    @CClientApp.optionLoopAfter = @synergyc.optionLoopAfter := by
  funext b n
  induction n with
  | zero => rfl
  | succ n ih =>
    funext l ARG
    cases l with
    | nil => rfl
    | cons a rest =>
      rw [CClientApp.optionLoopAfter, synergyc.optionLoopAfter, CClientApp.parseOption_eq, ih]

/-! ## One pass through the body of the option loop -/

namespace synergyc

theorem isArg_congr (arg : String) (rest rest2 : List String) (name1 name2 : Option String)
    (h : rest.head? = rest2.head?) :
    isArg arg rest name1 name2 1 = isArg arg rest2 name1 name2 1 := by
  unfold isArg
  cases rest <;> cases rest2 <;> simp_all

theorem isArg_zero (arg : String) (rest rest2 : List String) (name1 name2 : Option String) :
    isArg arg rest name1 name2 0 = isArg arg rest2 name1 name2 0 := by
  simp [isArg]

theorem param_congr (rest rest2 : List String) (h : rest.head? = rest2.head?) :
    param rest = param rest2 := by
  cases rest <;> cases rest2 <;> simp_all [param]

theorem parseOption_congr (b : Build) (arg : String) (rest rest2 : List String) (ARG : CArgs)
    (h : rest.head? = rest2.head?) :
    parseOption b arg rest ARG = parseOption b arg rest2 ARG := by
  unfold parseOption
  simp only [isArg_congr arg rest rest2 _ _ h, isArg_zero arg rest rest2, param_congr rest rest2 h]

theorem parseOption_unrecognised (b : Build) (arg : String) (rest : List String) (ARG : CArgs)
    (hdash : arg.toList.head? = some '-') (hrec : recognised b arg = false) :
    parseOption b arg rest ARG = .error ⟨kExitArgs, .unrecognizedOption arg⟩ := by
  simp [recognised] at hrec
  obtain ⟨h1, h2⟩ := hrec
  have hdash : arg.data.head? = some '-' := hdash
  rcases hb : b.WINAPI_XWINDOWS with _ | _
  · simp [parseOption, isArg, h1, hdash, hb, bind, Except.bind, pure, Except.pure, throw, throwThe,
      MonadExceptOf.throw]
  · simp [hb] at h2
    simp [parseOption, isArg, h1, h2, hdash, hb, bind, Except.bind, pure, Except.pure, throw, throwThe,
      MonadExceptOf.throw]

theorem parseOption_missing (b : Build) (arg : String) (ARG : CArgs)
    (hpar : takesParameter arg = true) :
    parseOption b arg [] ARG = .error ⟨kExitArgs, .missingArguments arg⟩ := by
  simp [takesParameter] at hpar
  rcases hpar with h | h | h | h | h | h | h <;> subst h <;>
    simp [parseOption, isArg, bind, Except.bind, pure, Except.pure]

/-! ## The option loop -/

theorem optionLoopAfter_length (b : Build) :
    ∀ (n : Nat) (l : List String) (ARG : CArgs) (l1 : List String) (ARG1 : CArgs),
      optionLoopAfter b n l ARG = some (l1, ARG1) → l1.length + n ≤ l.length := by
  intro n
  induction n with
  | zero =>
    intro l ARG l1 ARG1 h
    simp [optionLoopAfter] at h
    simp [h.1]
  | succ n ih =>
    intro l ARG l1 ARG1 h
    cases l with
    | nil => simp [optionLoopAfter] at h
    | cons a rest =>
      rw [optionLoopAfter] at h
      cases hp : parseOption b a rest ARG with
      | error e => simp [hp] at h
      | ok st =>
        cases st with
        | next A =>
          simp only [hp] at h
          have := ih rest A l1 ARG1 h
          simp; omega
        | nextParam A =>
          simp only [hp] at h
          have := ih rest.tail A l1 ARG1 h
          simp at this ⊢; omega
        | stopHere A => simp [hp] at h
        | stopAfter A => simp [hp] at h

/-- Reaching an argument in option position does not depend on the arguments after it. -/
theorem optionLoopAfter_stable (b : Build) (arg : String) (rest rest2 : List String)
    (ARG1 : CArgs) :
    ∀ (n : Nat) (pre : List String) (ARG : CArgs),
      optionLoopAfter b n (pre ++ arg :: rest) ARG = some (arg :: rest, ARG1) →
      optionLoopAfter b n (pre ++ arg :: rest2) ARG = some (arg :: rest2, ARG1) := by
  intro n
  induction n with
  | zero =>
    intro pre ARG h
    simp [optionLoopAfter] at h
    have hpre : pre = [] := by simpa using congrArg List.length h.1
    subst hpre
    simp [optionLoopAfter, h.2]
  | succ n ih =>
    intro pre ARG h
    have hlen := optionLoopAfter_length b _ _ _ _ _ h
    cases pre with
    | nil => simp at hlen
    | cons a pre1 =>
      simp only [List.cons_append] at h ⊢
      rw [optionLoopAfter] at h ⊢
      rw [parseOption_congr b a (pre1 ++ arg :: rest2) (pre1 ++ arg :: rest) ARG
        (by cases pre1 <;> simp)]
      cases hp : parseOption b a (pre1 ++ arg :: rest) ARG with
      | error e => simp [hp] at h
      | ok st =>
        cases st with
        | next A =>
          simp only [hp] at h ⊢
          exact ih pre1 A h
        | nextParam A =>
          simp only [hp] at h ⊢
          cases pre1 with
          | nil =>
            simp at h
            have := optionLoopAfter_length b _ _ _ _ _ h
            simp at this
            omega
          | cons p pre2 =>
            simp only [List.cons_append, List.tail_cons] at h ⊢
            exact ih pre2 A h
        | stopHere A => simp [hp] at h
        | stopAfter A => simp [hp] at h

/-- The option loop started anew at a state it reaches gives the result of the whole loop. -/
theorem parseOptions_of_optionLoopAfter (b : Build) :
    ∀ (n : Nat) (l : List String) (ARG : CArgs) (l1 : List String) (ARG1 : CArgs),
      optionLoopAfter b n l ARG = some (l1, ARG1) →
      parseOptions b l ARG = parseOptions b l1 ARG1 := by
  intro n
  induction n with
  | zero =>
    intro l ARG l1 ARG1 h
    simp [optionLoopAfter] at h
    rw [h.1, h.2]
  | succ n ih =>
    intro l ARG l1 ARG1 h
    cases l with
    | nil => simp [optionLoopAfter] at h
    | cons a rest =>
      rw [optionLoopAfter] at h
      rw [parseOptions]
      cases hp : parseOption b a rest ARG with
      | error e => simp [hp] at h
      | ok st =>
        cases st with
        | next A =>
          simp only [hp] at h ⊢
          exact ih rest A l1 ARG1 h
        | nextParam A =>
          simp only [hp] at h ⊢
          cases rest with
          | nil =>
            have := ih [] A l1 ARG1 h
            simpa [parseOptions] using this
          | cons p r => exact ih r A l1 ARG1 h
        | stopHere A => simp [hp] at h
        | stopAfter A => simp [hp] at h

end synergyc

/-! ## Command line: the claims -/

theorem synergyc.parse_unrecognised (b : Build) (host : Host) (ARG : CArgs) (argv0 : String)
    (pre : List String) (arg : String) (rest later : List String) (n : Nat) (ARG1 : CArgs)
    (hreach : synergyc.optionLoopAfter b n (pre ++ arg :: rest)
      { ARG with m_name := host.getHostName } = some (arg :: rest, ARG1))
    (hdash : arg.toList.head? = some '-') (hrec : recognised b arg = false) :
    synergyc.parse b host (argv0 :: (pre ++ arg :: later)) ARG =
      .error ⟨kExitArgs, .unrecognizedOption arg⟩ := by
  have h2 := synergyc.optionLoopAfter_stable b arg rest later ARG1 n pre _ hreach
  have h3 := synergyc.parseOptions_of_optionLoopAfter b n _ _ _ _ h2
  simp only [synergyc.parse, List.tail_cons, h3]
  rw [synergyc.parseOptions, synergyc.parseOption_unrecognised b arg later ARG1 hdash hrec]

theorem synergyc.parse_missing (b : Build) (host : Host) (ARG : CArgs) (argv0 : String)
    (pre : List String) (arg : String) (n : Nat) (ARG1 : CArgs)
    (hreach : synergyc.optionLoopAfter b n (pre ++ [arg])
      { ARG with m_name := host.getHostName } = some ([arg], ARG1))
    (hpar : takesParameter arg = true) :
    synergyc.parse b host (argv0 :: (pre ++ [arg])) ARG =
      .error ⟨kExitArgs, .missingArguments arg⟩ := by
  have h3 := synergyc.parseOptions_of_optionLoopAfter b n _ _ _ _ hreach
  simp only [synergyc.parse, List.tail_cons, h3]
  rw [synergyc.parseOptions, synergyc.parseOption_missing b arg ARG1 hpar]

/-- C9: scanning from argv[1], when the option loop reaches (through passes that neither exit nor
break, so before any `--`, help or version argument) an argument that begins with `-` and is not
a recognised option, parse exits with the bad-arguments code whatever the later arguments are;
and when it reaches a parameter-taking option that is the last argument, parse exits with the
bad-arguments code. Both for `parse` of synergyc.cpp and for `CClientApp::parse`. -/
theorem C9_bad_option_exits_with_kExitArgs (b : Build) (host : Host) (ARG : CArgs)
    (argv0 : String) (pre : List String) (arg : String) (rest : List String) :
    (∀ (n : Nat) (ARG1 : CArgs),
      synergyc.optionLoopAfter b n (pre ++ arg :: rest)
        { ARG with m_name := host.getHostName } = some (arg :: rest, ARG1) →
      (arg.toList.head? = some '-' → recognised b arg = false →
        ∀ later : List String,
          synergyc.parse b host (argv0 :: (pre ++ arg :: later)) ARG =
            .error ⟨kExitArgs, .unrecognizedOption arg⟩) ∧
      (takesParameter arg = true → rest = [] →
        synergyc.parse b host (argv0 :: (pre ++ [arg])) ARG =
          .error ⟨kExitArgs, .missingArguments arg⟩)) ∧
    (∀ (n : Nat) (ARG1 : CArgs),
      CClientApp.optionLoopAfter b n (pre ++ arg :: rest)
        { ARG with m_name := host.getHostName } = some (arg :: rest, ARG1) →
      (arg.toList.head? = some '-' → recognised b arg = false →
        ∀ later : List String,
          CClientApp.parse b host (argv0 :: (pre ++ arg :: later)) ARG =
            .error ⟨kExitArgs, .unrecognizedOption arg⟩) ∧
      (takesParameter arg = true → rest = [] →
        CClientApp.parse b host (argv0 :: (pre ++ [arg])) ARG =
          .error ⟨kExitArgs, .missingArguments arg⟩)) := by
  rw [CClientApp.optionLoopAfter_eq, CClientApp.parse_eq]
  have key : ∀ (n : Nat) (ARG1 : CArgs),
      synergyc.optionLoopAfter b n (pre ++ arg :: rest)
        { ARG with m_name := host.getHostName } = some (arg :: rest, ARG1) →
      (arg.toList.head? = some '-' → recognised b arg = false →
        ∀ later : List String,
          synergyc.parse b host (argv0 :: (pre ++ arg :: later)) ARG =
            .error ⟨kExitArgs, .unrecognizedOption arg⟩) ∧
      (takesParameter arg = true → rest = [] →
        synergyc.parse b host (argv0 :: (pre ++ [arg])) ARG =
          .error ⟨kExitArgs, .missingArguments arg⟩) := by
    intro n ARG1 hreach
    refine ⟨fun hdash hrec later =>
      synergyc.parse_unrecognised b host ARG argv0 pre arg rest later n ARG1 hreach hdash hrec,
      fun hpar hrest => ?_⟩
    subst hrest
    exact synergyc.parse_missing b host ARG argv0 pre arg n ARG1 hreach hpar
  exact ⟨key, key⟩

theorem C9_bad_option_exits_with_kExitArgs_witness :
    (synergyc.optionLoopAfter ⟨false⟩ 2 (["-f", "-n", "a"] ++ "-x" :: ["srv"])
        { CClientApp.CArgs.CArgs with m_name := exampleHost.getHostName } =
      some ("-x" :: ["srv"], { CClientApp.CArgs.CArgs with m_name := "a", m_daemon := false }) ∧
    "-x".toList.head? = some '-' ∧ recognised ⟨false⟩ "-x" = false ∧
    synergyc.parse ⟨false⟩ exampleHost ("synergyc" :: (["-f", "-n", "a"] ++ "-x" :: ["y", "z"]))
        CClientApp.CArgs.CArgs = .error ⟨kExitArgs, .unrecognizedOption "-x"⟩) ∧
    (CClientApp.optionLoopAfter ⟨true⟩ 1 (["-1"] ++ "--log" :: [])
        { CClientApp.CArgs.CArgs with m_name := exampleHost.getHostName } =
      some ("--log" :: [], { CClientApp.CArgs.CArgs with m_name := "me", m_restartable := false }) ∧
    takesParameter "--log" = true ∧
    CClientApp.parse ⟨true⟩ exampleHost ("synergyc" :: (["-1"] ++ ["--log"]))
        CClientApp.CArgs.CArgs = .error ⟨kExitArgs, .missingArguments "--log"⟩) :=
  ⟨⟨by rfl, by rfl, by rfl,
    ((C9_bad_option_exits_with_kExitArgs ⟨false⟩ exampleHost CClientApp.CArgs.CArgs "synergyc"
      ["-f", "-n", "a"] "-x" ["srv"]).1 2 _ (by rfl)).1 (by rfl) (by rfl) ["y", "z"]⟩,
   ⟨by rfl, by rfl,
    ((C9_bad_option_exits_with_kExitArgs ⟨true⟩ exampleHost CClientApp.CArgs.CArgs "synergyc"
      ["-1"] "--log" []).2 1 _ (by rfl)).2 (by rfl) rfl⟩⟩

theorem synergyc.setLogFilter_not_kExitFailed (host : Host) (ARG : CArgs) (p : Printed) :
    synergyc.setLogFilter host ARG ≠ .error ⟨kExitFailed, p⟩ := by
  simp only [synergyc.setLogFilter]
  intro h
  split_ifs at h <;> simp [kExitArgs, kExitFailed] at h

theorem synergyc.setLogFilter_serverAddress (host : Host) (ARG ARG2 : CArgs)
    (h : synergyc.setLogFilter host ARG = .ok ARG2) :
    ARG2.m_serverAddress = ARG.m_serverAddress := by
  simp only [synergyc.setLogFilter] at h
  split_ifs at h <;> simp at h <;> (subst h; rfl)

theorem synergyc.parse_one_unread (b : Build) (host : Host) (argv : List String) (ARG : CArgs)
    (server : String) (ARG1 : CArgs)
    (hopts : synergyc.parseOptions b argv.tail { ARG with m_name := host.getHostName } =
      .ok ([server], ARG1)) :
    synergyc.parse b host argv ARG =
      match synergyc.saveServerAddress host server ARG1 with
      | .error e => .error e
      | .ok ARG2 => synergyc.setLogFilter host ARG2 := by
  simp [synergyc.parse, hopts]

theorem synergyc.parse_address_error (b : Build) (host : Host) (argv : List String) (ARG : CArgs)
    (server : String) (ARG1 : CArgs) (e : XSocketAddress)
    (hopts : synergyc.parseOptions b argv.tail { ARG with m_name := host.getHostName } =
      .ok ([server], ARG1))
    (herr : addressError host server = some e) :
    ((∃ p, synergyc.parse b host argv ARG = .error ⟨kExitFailed, p⟩) ↔
        (ARG1.m_restartable = false ∨ e.getError = EError.kBadPort)) ∧
    (ARG1.m_restartable = true → e.getError ≠ EError.kBadPort →
        synergyc.parse b host argv ARG =
          synergyc.setLogFilter host (withAddressBuilt host server ARG1)) := by
  rw [synergyc.parse_one_unread b host argv ARG server ARG1 hopts]
  have hfatal : (ARG1.m_restartable = false ∨ e.getError = EError.kBadPort) →
      synergyc.saveServerAddress host server ARG1 =
        .error ⟨kExitFailed, .addressError e.what⟩ := by
    intro hc
    unfold addressError at herr
    unfold synergyc.saveServerAddress
    cases hn : host.newAddress server kDefaultPort with
    | error e1 =>
      simp only [hn] at herr
      injection herr with herr
      subst herr
      rcases hc with hc | hc <;> simp [hc]
    | ok a =>
      simp only [hn] at herr
      cases hr : host.resolve a with
      | error e1 =>
        simp only [hr] at herr
        injection herr with herr
        subst herr
        rcases hc with hc | hc <;> simp [hc, hr]
      | ok r => simp [hr] at herr
  have hretry : ARG1.m_restartable = true → e.getError ≠ EError.kBadPort →
      synergyc.saveServerAddress host server ARG1 = .ok (withAddressBuilt host server ARG1) := by
    intro h1 h2
    unfold addressError at herr
    unfold synergyc.saveServerAddress withAddressBuilt
    cases hn : host.newAddress server kDefaultPort with
    | error e1 =>
      simp only [hn] at herr
      injection herr with herr
      subst herr
      simp [h1, h2]
    | ok a =>
      simp only [hn] at herr
      cases hr : host.resolve a with
      | error e1 =>
        simp only [hr] at herr
        injection herr with herr
        subst herr
        simp [h1, h2, hr]
      | ok r => simp [hr] at herr
  refine ⟨⟨?_, ?_⟩, ?_⟩
  · rintro ⟨p, hp⟩
    by_contra hc
    push_neg at hc
    have h1 : ARG1.m_restartable = true := by simpa using hc.1
    rw [hretry h1 hc.2] at hp
    exact synergyc.setLogFilter_not_kExitFailed host _ p hp
  · intro hc
    exact ⟨.addressError e.what, by rw [hfatal hc]⟩
  · intro h1 h2
    rw [hretry h1 h2]

/-- C1: for a command line whose options are well formed and that has exactly one server-address
argument (the option loop ends with exactly that argument unread), when building or resolving the
address raises the address error `e`: parse exits with the failure exit code if and only if
restart is disabled or `e` is BadPort; and when restart is enabled and `e` is not BadPort, parse
does not exit there: its result is that of the log-filter step, run on the argument record with
the address kept as far as it was built. Both for `parse` of synergyc.cpp and for
`CClientApp::parse`. -/
theorem C1_address_error_fatal_iff_no_restart_or_BadPort (b : Build) (host : Host)
    (argv : List String) (ARG : CArgs) (server : String) (e : XSocketAddress)
    (herr : addressError host server = some e) :
    (∀ ARG1 : CArgs,
      synergyc.parseOptions b argv.tail { ARG with m_name := host.getHostName } =
        .ok ([server], ARG1) →
      ((∃ p, synergyc.parse b host argv ARG = .error ⟨kExitFailed, p⟩) ↔
          (ARG1.m_restartable = false ∨ e.getError = EError.kBadPort)) ∧
      (ARG1.m_restartable = true → e.getError ≠ EError.kBadPort →
          synergyc.parse b host argv ARG =
            synergyc.setLogFilter host (withAddressBuilt host server ARG1))) ∧
    (∀ ARG1 : CArgs,
      CClientApp.parseOptions b argv.tail { ARG with m_name := host.getHostName } =
        .ok ([server], ARG1) →
      ((∃ p, CClientApp.parse b host argv ARG = .error ⟨kExitFailed, p⟩) ↔
          (ARG1.m_restartable = false ∨ e.getError = EError.kBadPort)) ∧
      (ARG1.m_restartable = true → e.getError ≠ EError.kBadPort →
          CClientApp.parse b host argv ARG =
            CClientApp.setLogFilter host (withAddressBuilt host server ARG1))) := by
  rw [CClientApp.parseOptions_eq, CClientApp.parse_eq, CClientApp.setLogFilter_eq]
  exact ⟨fun ARG1 hopts => synergyc.parse_address_error b host argv ARG server ARG1 e hopts herr,
    fun ARG1 hopts => synergyc.parse_address_error b host argv ARG server ARG1 e hopts herr⟩

theorem C1_address_error_fatal_iff_no_restart_or_BadPort_witness :
    addressError unresolvedHost "srv" = some ⟨.kBadHost, "unknown host"⟩ ∧
    synergyc.parseOptions ⟨false⟩ ["synergyc", "-f", "srv"].tail
        { CClientApp.CArgs.CArgs with m_name := unresolvedHost.getHostName } =
      .ok (["srv"], { CClientApp.CArgs.CArgs with m_name := "me", m_daemon := false }) ∧
    synergyc.parse ⟨false⟩ unresolvedHost ["synergyc", "-f", "srv"] CClientApp.CArgs.CArgs =
      synergyc.setLogFilter unresolvedHost (withAddressBuilt unresolvedHost "srv"
        { CClientApp.CArgs.CArgs with m_name := "me", m_daemon := false }) :=
  ⟨by rfl, by rfl,
    ((C1_address_error_fatal_iff_no_restart_or_BadPort ⟨false⟩ unresolvedHost
      ["synergyc", "-f", "srv"] CClientApp.CArgs.CArgs "srv" ⟨.kBadHost, "unknown host"⟩
      (by rfl)).1 _ (by rfl)).2 (by rfl) (by decide)⟩

theorem synergyc.parse_counts_unread (b : Build) (host : Host) (argv : List String) (ARG : CArgs)
    (unread : List String) (ARG1 : CArgs)
    (hopts : synergyc.parseOptions b argv.tail { ARG with m_name := host.getHostName } =
      .ok (unread, ARG1)) :
    (unread = [] →
      synergyc.parse b host argv ARG = .error ⟨kExitArgs, .serverAddressRequired⟩) ∧
    (∀ (first second : String) (more : List String), unread = first :: second :: more →
      synergyc.parse b host argv ARG = .error ⟨kExitArgs, .unrecognizedOption first⟩) ∧
    (∀ server : String, unread = [server] →
      ∀ address resolved : CNetworkAddress,
        host.newAddress server kDefaultPort = .ok address →
        host.resolve address = .ok resolved →
        synergyc.parse b host argv ARG =
            synergyc.setLogFilter host { ARG1 with m_serverAddress := some resolved } ∧
          ∀ ARG2 : CArgs, synergyc.parse b host argv ARG = .ok ARG2 →
            ARG2.m_serverAddress = some resolved) := by
  refine ⟨?_, ?_, ?_⟩
  · intro h
    subst h
    simp [synergyc.parse, hopts]
  · intro first second more h
    subst h
    simp [synergyc.parse, hopts]
  · intro server h address resolved hn hr
    subst h
    have hp : synergyc.parse b host argv ARG =
        synergyc.setLogFilter host { ARG1 with m_serverAddress := some resolved } := by
      rw [synergyc.parse_one_unread b host argv ARG server ARG1 hopts]
      simp [synergyc.saveServerAddress, hn, hr]
    refine ⟨hp, fun ARG2 h2 => ?_⟩
    rw [hp] at h2
    exact synergyc.setLogFilter_serverAddress host _ ARG2 h2

/-- C10: parse requires exactly one non-option argument. For every argument vector whose options
are all valid (the option loop ends without exit, leaving the arguments `unread`): if none is
left, or two or more are left, parse exits with the bad-arguments code; if exactly one is left,
the address built from that argument and the default port 24800, then resolved, is the server
address parse goes on with and returns. Both for `parse` of synergyc.cpp and for
`CClientApp::parse`. -/
theorem C10_exactly_one_server_address (b : Build) (host : Host) (argv : List String)
    (ARG : CArgs) (unread : List String) :
    kDefaultPort = 24800 ∧
    (∀ ARG1 : CArgs,
      synergyc.parseOptions b argv.tail { ARG with m_name := host.getHostName } =
        .ok (unread, ARG1) →
      (unread = [] →
        synergyc.parse b host argv ARG = .error ⟨kExitArgs, .serverAddressRequired⟩) ∧
      (∀ (first second : String) (more : List String), unread = first :: second :: more →
        synergyc.parse b host argv ARG = .error ⟨kExitArgs, .unrecognizedOption first⟩) ∧
      (∀ server : String, unread = [server] →
        ∀ address resolved : CNetworkAddress,
          host.newAddress server kDefaultPort = .ok address →
          host.resolve address = .ok resolved →
          synergyc.parse b host argv ARG =
              synergyc.setLogFilter host { ARG1 with m_serverAddress := some resolved } ∧
            ∀ ARG2 : CArgs, synergyc.parse b host argv ARG = .ok ARG2 →
              ARG2.m_serverAddress = some resolved)) ∧
    (∀ ARG1 : CArgs,
      CClientApp.parseOptions b argv.tail { ARG with m_name := host.getHostName } =
        .ok (unread, ARG1) →
      (unread = [] →
        CClientApp.parse b host argv ARG = .error ⟨kExitArgs, .serverAddressRequired⟩) ∧
      (∀ (first second : String) (more : List String), unread = first :: second :: more →
        CClientApp.parse b host argv ARG = .error ⟨kExitArgs, .unrecognizedOption first⟩) ∧
      (∀ server : String, unread = [server] →
        ∀ address resolved : CNetworkAddress,
          host.newAddress server kDefaultPort = .ok address →
          host.resolve address = .ok resolved →
          CClientApp.parse b host argv ARG =
              CClientApp.setLogFilter host { ARG1 with m_serverAddress := some resolved } ∧
            ∀ ARG2 : CArgs, CClientApp.parse b host argv ARG = .ok ARG2 →
              ARG2.m_serverAddress = some resolved)) := by
  rw [CClientApp.parseOptions_eq, CClientApp.parse_eq, CClientApp.setLogFilter_eq]
  exact ⟨rfl,
    fun ARG1 hopts => synergyc.parse_counts_unread b host argv ARG unread ARG1 hopts,
    fun ARG1 hopts => synergyc.parse_counts_unread b host argv ARG unread ARG1 hopts⟩

theorem C10_exactly_one_server_address_witness :
    (synergyc.parseOptions ⟨false⟩ ["synergyc", "-f", "a", "b"].tail
        { CClientApp.CArgs.CArgs with m_name := exampleHost.getHostName } =
      .ok (["a", "b"], { CClientApp.CArgs.CArgs with m_name := "me", m_daemon := false }) ∧
    synergyc.parse ⟨false⟩ exampleHost ["synergyc", "-f", "a", "b"] CClientApp.CArgs.CArgs =
      .error ⟨kExitArgs, .unrecognizedOption "a"⟩) ∧
    (CClientApp.parseOptions ⟨false⟩ ["synergyc", "-f", "srv:1"].tail
        { CClientApp.CArgs.CArgs with m_name := exampleHost.getHostName } =
      .ok (["srv:1"], { CClientApp.CArgs.CArgs with m_name := "me", m_daemon := false }) ∧
    exampleHost.newAddress "srv:1" kDefaultPort = .ok ⟨"srv:1", 24800, false⟩ ∧
    exampleHost.resolve ⟨"srv:1", 24800, false⟩ = .ok ⟨"srv:1", 24800, true⟩ ∧
    ∀ ARG2 : CArgs,
      CClientApp.parse ⟨false⟩ exampleHost ["synergyc", "-f", "srv:1"] CClientApp.CArgs.CArgs =
        .ok ARG2 → ARG2.m_serverAddress = some ⟨"srv:1", 24800, true⟩) :=
  ⟨⟨by rfl,
    ((C10_exactly_one_server_address ⟨false⟩ exampleHost ["synergyc", "-f", "a", "b"]
      CClientApp.CArgs.CArgs ["a", "b"]).2.1 _ (by rfl)).2.1 "a" "b" [] rfl⟩,
   ⟨by rfl, by rfl, by rfl,
    (((C10_exactly_one_server_address ⟨false⟩ exampleHost ["synergyc", "-f", "srv:1"]
      CClientApp.CArgs.CArgs ["srv:1"]).2.2 _ (by rfl)).2.2 "srv:1" rfl _ _ (by rfl)
        (by rfl)).2⟩⟩

/-! ## The supervisor: the claims -/

theorem getHandler_adoptHandler (type : EventType) (target : Target) (job : Job)
    (q : Synergy.CEventQueue) (data : Option CFailInfo) :
    (q.adoptHandler type target job).getHandler ⟨type, target, data⟩ = some job := by
  simp only [CEventQueue.adoptHandler, CEventQueue.getHandler, List.find?_append]
  have hnone : List.find? (fun h => decide (h.1 = (type, target)))
      (List.filter (fun h => decide (h.1 ≠ (type, target))) q.m_handlers) = none := by
    rw [List.find?_eq_none]
    intro x hx
    simp at hx
    simpa using hx.2
  simp [hnone]

@[simp]
theorem adoptHandler_m_events (type : EventType) (target : Target) (job : Job)
    (q : Synergy.CEventQueue) : (q.adoptHandler type target job).m_events = q.m_events := rfl

@[simp]
theorem adoptHandler_m_timers (type : EventType) (target : Target) (job : Job)
    (q : Synergy.CEventQueue) : (q.adoptHandler type target job).m_timers = q.m_timers := rfl

@[simp]
theorem removeHandler_m_events (type : EventType) (target : Target)
    (q : Synergy.CEventQueue) : (q.removeHandler type target).m_events = q.m_events := rfl

@[simp]
theorem removeHandler_m_timers (type : EventType) (target : Target)
    (q : Synergy.CEventQueue) : (q.removeHandler type target).m_timers = q.m_timers := rfl

theorem RETRY_TIME_eq_one : synergyc.RETRY_TIME = 1 := by
  norm_num [synergyc.RETRY_TIME]

/-- C2: for every connection-failed event carrying fail info, `handleClientFailed` enqueues
exactly one quit event and schedules no timer if and only if restart is disabled or retry is
false; otherwise it enqueues nothing and, when the client is not suspended, schedules exactly one
one-shot timer with delay 1.0 s, bound to `handleClientRestart`, and no timer when suspended. -/
theorem C2_handleClientFailed_quit_or_restart_timer (ARG : CArgs) (e : CEvent) (info : CFailInfo)
    (s : synergyc.Statics) (hinfo : e.getData = some info) :
    ∃ s1 : synergyc.Statics, synergyc.handleClientFailed ARG e s = some s1 ∧
      ((s1.EVENTQUEUE.m_events = s.EVENTQUEUE.m_events ++ [CEvent.quit] ∧
          s1.EVENTQUEUE.m_timers = s.EVENTQUEUE.m_timers) ↔
        (ARG.m_restartable = false ∨ info.m_retry = false)) ∧
      (ARG.m_restartable = true → info.m_retry = true →
        s1.EVENTQUEUE.m_events = s.EVENTQUEUE.m_events ∧
        (s.s_suspened = false →
          s1.EVENTQUEUE.m_timers =
            s.EVENTQUEUE.m_timers ++ [⟨s.EVENTQUEUE.m_timerCount, 1, true⟩] ∧
          s1.EVENTQUEUE.getHandler ⟨.kTimer, .timer s.EVENTQUEUE.m_timerCount, none⟩ =
            some (.handleClientRestart s.EVENTQUEUE.m_timerCount)) ∧
        (s.s_suspened = true → s1.EVENTQUEUE.m_timers = s.EVENTQUEUE.m_timers)) := by
  unfold synergyc.handleClientFailed
  rw [hinfo]
  rcases hr : ARG.m_restartable with _ | _ <;> rcases ht : info.m_retry with _ | _ <;>
    rcases hs : s.s_suspened with _ | _ <;>
    simp [hr, ht, hs, synergyc.updateStatus, synergyc.scheduleClientRestart,
      synergyc.nextRestartTimeout, CEventQueue.addEvent, CEventQueue.newOneShotTimer,
      getHandler_adoptHandler, RETRY_TIME_eq_one]

theorem C2_handleClientFailed_quit_or_restart_timer_witness :
    (⟨.clientConnectionFailed, .client 0, some ⟨"refused", true⟩⟩ : CEvent).getData =
      some ⟨"refused", true⟩ ∧
    ∃ s1 : synergyc.Statics,
      synergyc.handleClientFailed CClientApp.CArgs.CArgs
        ⟨.clientConnectionFailed, .client 0, some ⟨"refused", true⟩⟩ synergyc.Statics.initial =
          some s1 ∧
      s1.EVENTQUEUE.m_events = [] ∧ s1.EVENTQUEUE.m_timers = [⟨0, 1, true⟩] := by
  refine ⟨rfl, ?_⟩
  obtain ⟨s1, h1, _, h3⟩ := C2_handleClientFailed_quit_or_restart_timer CClientApp.CArgs.CArgs
    ⟨.clientConnectionFailed, .client 0, some ⟨"refused", true⟩⟩ ⟨"refused", true⟩
    synergyc.Statics.initial rfl
  exact ⟨s1, h1, (h3 rfl rfl).1, ((h3 rfl rfl).2.1 rfl).1⟩

/-- C3: `nextRestartTimeout` returns exactly 1.0 on every call: after every sequence of calls of
`nextRestartTimeout`, `resetRestartTimeout` and `handleClientConnected`, from every state, the
delay returned is 1.0 s, and so is never the 3 s or the 5 s that the old back-off schedule gives
from its second consecutive call on. -/
theorem C3_nextRestartTimeout_constant (calls : List RetryCall) (s : synergyc.Statics) :
    (synergyc.nextRestartTimeout (runRetryCalls calls s)).1 = 1 ∧
    synergyc.deprecatedRestartTimeout 0 = 1 ∧
    synergyc.deprecatedRestartTimeout 1 = 3 ∧
    synergyc.deprecatedRestartTimeout 3 = 5 ∧
    (synergyc.nextRestartTimeout (runRetryCalls calls s)).1 ≠
      synergyc.deprecatedRestartTimeout 1 ∧
    (synergyc.nextRestartTimeout (runRetryCalls calls s)).1 ≠
      synergyc.deprecatedRestartTimeout 3 := by
  have h1 : (synergyc.nextRestartTimeout (runRetryCalls calls s)).1 = 1 := RETRY_TIME_eq_one
  have h2 : synergyc.deprecatedRestartTimeout 1 = 3 := by
    norm_num [synergyc.deprecatedRestartTimeout]
  have h3 : synergyc.deprecatedRestartTimeout 3 = 5 := by
    norm_num [synergyc.deprecatedRestartTimeout]
  refine ⟨h1, by norm_num [synergyc.deprecatedRestartTimeout], h2, h3, ?_, ?_⟩
  · rw [h1, h2]; norm_num
  · rw [h1, h3]; norm_num

/-- C5: for every disconnected event, `handleClientDisconnected` enqueues exactly one quit event
and calls no `connect()` when restart is disabled; when restart is enabled and the client is not
suspended it calls `connect()` on the existing client, exactly once, schedules no timer and
enqueues nothing; when restart is enabled and the client is suspended it does neither; and in
each of the three cases it performs exactly one status update. -/
theorem C5_handleClientDisconnected_quit_or_connect (ARG : CArgs) (e : CEvent)
    (s : synergyc.Statics) :
    (ARG.m_restartable = false →
      ∃ s1 : synergyc.Statics, synergyc.handleClientDisconnected ARG e s = some s1 ∧
        s1.EVENTQUEUE.m_events = s.EVENTQUEUE.m_events ++ [CEvent.quit] ∧
        s1.connects = s.connects ∧
        s1.EVENTQUEUE.m_timers = s.EVENTQUEUE.m_timers ∧
        s1.statusUpdates = s.statusUpdates ++ [(s.s_client, "")]) ∧
    (ARG.m_restartable = true → s.s_suspened = false →
      ∀ client : Nat, s.s_client = some client →
      ∃ s1 : synergyc.Statics, synergyc.handleClientDisconnected ARG e s = some s1 ∧
        s1.connects = s.connects ++ [client] ∧
        s1.EVENTQUEUE = s.EVENTQUEUE ∧
        s1.s_client = s.s_client ∧
        s1.statusUpdates = s.statusUpdates ++ [(s.s_client, "")]) ∧
    (ARG.m_restartable = true → s.s_suspened = true →
      ∃ s1 : synergyc.Statics, synergyc.handleClientDisconnected ARG e s = some s1 ∧
        s1.connects = s.connects ∧
        s1.EVENTQUEUE = s.EVENTQUEUE ∧
        s1.statusUpdates = s.statusUpdates ++ [(s.s_client, "")]) := by
  refine ⟨fun hr => ?_, fun hr hs client hc => ?_, fun hr hs => ?_⟩
  · simp [synergyc.handleClientDisconnected, hr, synergyc.updateStatus, CEventQueue.addEvent]
  · simp [synergyc.handleClientDisconnected, hr, hs, hc, synergyc.updateStatus,
      synergyc.connect]
  · simp [synergyc.handleClientDisconnected, hr, hs, synergyc.updateStatus]

theorem C5_handleClientDisconnected_quit_or_connect_witness :
    CClientApp.CArgs.CArgs.m_restartable = true ∧ startedStatics.s_suspened = false ∧
    startedStatics.s_client = some 0 ∧
    ∃ s1 : synergyc.Statics,
      synergyc.handleClientDisconnected CClientApp.CArgs.CArgs
        ⟨.clientDisconnected, .client 0, none⟩ startedStatics = some s1 ∧
      s1.connects = startedStatics.connects ++ [0] ∧
      s1.EVENTQUEUE = startedStatics.EVENTQUEUE ∧
      s1.s_client = startedStatics.s_client ∧
      s1.statusUpdates = startedStatics.statusUpdates ++ [(startedStatics.s_client, "")] :=
  ⟨rfl, rfl, rfl,
    (C5_handleClientDisconnected_quit_or_connect CClientApp.CArgs.CArgs
      ⟨.clientDisconnected, .client 0, none⟩ startedStatics).2.1 rfl rfl 0 rfl⟩

/-- C6, refuted as stated: with restart enabled and client 0 running, the disconnect handler
schedules no timer and itself makes the next connect attempt. -/
theorem C6_disconnect_schedules_no_timer_counterexample :
    CClientApp.CArgs.CArgs.m_restartable = true ∧
    startedStatics.connects = [0] ∧
    ∃ s1 : synergyc.Statics,
      synergyc.handleClientDisconnected CClientApp.CArgs.CArgs
        ⟨.clientDisconnected, .client 0, none⟩ startedStatics = some s1 ∧
      s1.EVENTQUEUE.m_timers = [] ∧ s1.connects = [0, 0] :=
  ⟨rfl, rfl, _, rfl, rfl, rfl⟩

/-- C6, amended: when a disconnected event is dispatched to the supervisor while restart is
enabled and the client is not suspended, no retry timer is scheduled and no handler is registered;
the next connect attempt is made on the existing client within the disconnect handler itself,
exactly once. -/
theorem C6_disconnect_reconnects_within_handler (pf : Platform) (ARG : CArgs) (e : CEvent)
    (s : synergyc.Statics) (client : Nat)
    (hr : ARG.m_restartable = true) (hs : s.s_suspened = false)
    (hc : s.s_client = some client)
    (hh : s.EVENTQUEUE.getHandler e = some .handleClientDisconnected) :
    ∃ s1 : synergyc.Statics, synergyc.dispatchEvent pf ARG e s = some s1 ∧
      s1.EVENTQUEUE.m_timers = s.EVENTQUEUE.m_timers ∧
      s1.EVENTQUEUE.m_handlers = s.EVENTQUEUE.m_handlers ∧
      s1.EVENTQUEUE.m_events = s.EVENTQUEUE.m_events ∧
      s1.connects = s.connects ++ [client] := by
  simp [synergyc.dispatchEvent, hh, synergyc.handleClientDisconnected, hr, hs, hc,
    synergyc.updateStatus, synergyc.connect]

theorem C6_disconnect_reconnects_within_handler_witness :
    CClientApp.CArgs.CArgs.m_restartable = true ∧ startedStatics.s_suspened = false ∧
    startedStatics.s_client = some 0 ∧
    startedStatics.EVENTQUEUE.getHandler ⟨.clientDisconnected, .client 0, none⟩ =
      some .handleClientDisconnected ∧
    ∃ s1 : synergyc.Statics,
      synergyc.dispatchEvent okPlatform CClientApp.CArgs.CArgs
        ⟨.clientDisconnected, .client 0, none⟩ startedStatics = some s1 ∧
      s1.EVENTQUEUE.m_timers = startedStatics.EVENTQUEUE.m_timers ∧
      s1.EVENTQUEUE.m_handlers = startedStatics.EVENTQUEUE.m_handlers ∧
      s1.EVENTQUEUE.m_events = startedStatics.EVENTQUEUE.m_events ∧
      s1.connects = startedStatics.connects ++ [0] :=
  ⟨rfl, rfl, rfl, by rfl,
    C6_disconnect_reconnects_within_handler okPlatform CClientApp.CArgs.CArgs
      ⟨.clientDisconnected, .client 0, none⟩ startedStatics 0 rfl rfl rfl (by rfl)⟩

/-- C7: for every call of `startClient` in which opening the screen fails (no screen is recorded
and `createScreen()` throws): on `XScreenUnavailable` with retry time `t`, with restart enabled
exactly one one-shot timer with delay `t` is scheduled, bound to `handleClientRestart`, and
`startClient` returns true, and with restart disabled no timer is scheduled and it returns false;
on `XScreenOpenFailure` it returns false and schedules no timer, restart enabled or not. -/
theorem C7_startClient_screen_failure (pf : Platform) (ARG : CArgs) (s : synergyc.Statics)
    (hnone : s.s_clientScreen = none) :
    (∀ (what : String) (t : ℚ),
      pf.createScreen s.screenCount = some (.XScreenUnavailable what t) →
      (ARG.m_restartable = true →
        ∃ s1 : synergyc.Statics, synergyc.startClient pf ARG s = some (true, s1) ∧
          s1.EVENTQUEUE.m_timers = s.EVENTQUEUE.m_timers ++ [⟨s.EVENTQUEUE.m_timerCount, t, true⟩] ∧
          s1.EVENTQUEUE.getHandler ⟨.kTimer, .timer s.EVENTQUEUE.m_timerCount, none⟩ =
            some (.handleClientRestart s.EVENTQUEUE.m_timerCount)) ∧
      (ARG.m_restartable = false →
        ∃ s1 : synergyc.Statics, synergyc.startClient pf ARG s = some (false, s1) ∧
          s1.EVENTQUEUE.m_timers = s.EVENTQUEUE.m_timers)) ∧
    (∀ what : String,
      pf.createScreen s.screenCount = some (.XScreenOpenFailure what) →
      ∃ s1 : synergyc.Statics, synergyc.startClient pf ARG s = some (false, s1) ∧
        s1.EVENTQUEUE.m_timers = s.EVENTQUEUE.m_timers) := by
  refine ⟨fun what t hthrow => ⟨fun hr => ?_, fun hr => ?_⟩, fun what hthrow => ?_⟩
  · simp [synergyc.startClient, synergyc.startClientTry, synergyc.openClientScreen, hnone,
      hthrow, hr, synergyc.closeClientScreen, synergyc.updateStatus,
      synergyc.scheduleClientRestart, CEventQueue.newOneShotTimer, getHandler_adoptHandler]
  · simp [synergyc.startClient, synergyc.startClientTry, synergyc.openClientScreen, hnone,
      hthrow, hr, synergyc.closeClientScreen, synergyc.updateStatus]
  · simp [synergyc.startClient, synergyc.startClientTry, synergyc.openClientScreen, hnone,
      hthrow, synergyc.closeClientScreen]

theorem C7_startClient_screen_failure_witness :
    synergyc.Statics.initial.s_clientScreen = none ∧
    unavailablePlatform.createScreen synergyc.Statics.initial.screenCount =
      some (.XScreenUnavailable "screen saver running" 7.5) ∧
    CClientApp.CArgs.CArgs.m_restartable = true ∧
    ∃ s1 : synergyc.Statics,
      synergyc.startClient unavailablePlatform CClientApp.CArgs.CArgs synergyc.Statics.initial =
        some (true, s1) ∧
      s1.EVENTQUEUE.m_timers = synergyc.Statics.initial.EVENTQUEUE.m_timers ++
        [⟨synergyc.Statics.initial.EVENTQUEUE.m_timerCount, 7.5, true⟩] ∧
      s1.EVENTQUEUE.getHandler
          ⟨.kTimer, .timer synergyc.Statics.initial.EVENTQUEUE.m_timerCount, none⟩ =
        some (.handleClientRestart synergyc.Statics.initial.EVENTQUEUE.m_timerCount) :=
  ⟨rfl, rfl, rfl,
    ((C7_startClient_screen_failure unavailablePlatform CClientApp.CArgs.CArgs
      synergyc.Statics.initial rfl).1 "screen saver running" 7.5 rfl).1 rfl⟩

theorem getEvent_quit_first (later : List (List CEvent)) (pending : List CEvent) :
    ∃ (later1 : List (List CEvent)) (pending1 : List CEvent),
      CEventQueue.getEvent later (CEvent.quit :: pending) = some (CEvent.quit, later1, pending1) := by
  cases later with
  | nil => exact ⟨_, _, rfl⟩
  | cons batch later1 => exact ⟨_, _, rfl⟩

/-- C4: with restart enabled, when `startClient` succeeds in starting the client and the first
event delivered is a connection-failed event for that client with retry = false (the fatal
class), no reconnect is scheduled (no timer is made and `connect()` is called only the once, by
`startClient`), the event loop terminates (two events taken from the queue suffice) and
`mainLoop` returns the success exit code 0, the client being stopped. -/
theorem C4_fatal_failure_quits_with_success (pf : Platform) (ARG : CArgs) (s : synergyc.Statics)
    (what : String) (later : List (List CEvent)) (steps : Nat)
    (hr : ARG.m_restartable = true) (hnone : s.s_clientScreen = none)
    (hscreen : pf.createScreen s.screenCount = none)
    (hclient : pf.newClient s.clientCount = none) :
    kExitSuccess = 0 ∧
    ∃ s1 : synergyc.Statics,
      synergyc.mainLoop pf ARG (steps + 2)
          ([⟨.clientConnectionFailed, .client s.clientCount, some ⟨what, false⟩⟩] :: later) s =
        .returned kExitSuccess s1 ∧
      s1.EVENTQUEUE.m_timers = [] ∧
      s1.connects = s.connects ++ [s.clientCount] ∧
      s1.s_client = none ∧ s1.s_clientScreen = none := by
  refine ⟨rfl, ?_⟩
  obtain ⟨later1, pending1, hq⟩ := getEvent_quit_first later []
  simp only [CEvent.quit] at hq
  simp [synergyc.mainLoop, synergyc.startClient, synergyc.startClientTry,
    synergyc.openClientScreen, synergyc.openClient, hnone, hscreen, hclient,
    synergyc.updateStatus, synergyc.connect, synergyc.eventLoop, CEventQueue.getEvent,
    synergyc.dispatchEvent, synergyc.handleClientFailed, hr, CEventQueue.addEvent,
    CEventQueue.CEventQueue, CEventQueue.adoptHandler, CEventQueue.getHandler, hq,
    synergyc.stopClient, synergyc.closeClient, synergyc.closeClientScreen, CEvent.quit,
    CEventQueue.removeHandler]

theorem C4_fatal_failure_quits_with_success_witness :
    CClientApp.CArgs.CArgs.m_restartable = true ∧
    synergyc.Statics.initial.s_clientScreen = none ∧
    okPlatform.createScreen synergyc.Statics.initial.screenCount = none ∧
    okPlatform.newClient synergyc.Statics.initial.clientCount = none ∧
    ∃ s1 : synergyc.Statics,
      synergyc.mainLoop okPlatform CClientApp.CArgs.CArgs (0 + 2)
          ([⟨.clientConnectionFailed, .client synergyc.Statics.initial.clientCount,
              some ⟨"incompatible version", false⟩⟩] :: []) synergyc.Statics.initial =
        .returned kExitSuccess s1 ∧
      s1.EVENTQUEUE.m_timers = [] ∧
      s1.connects = synergyc.Statics.initial.connects ++ [synergyc.Statics.initial.clientCount] ∧
      s1.s_client = none ∧ s1.s_clientScreen = none :=
  ⟨rfl, rfl, rfl, rfl,
    (C4_fatal_failure_quits_with_success okPlatform CClientApp.CArgs.CArgs
      synergyc.Statics.initial "incompatible version" [] 0 rfl rfl rfl rfl).2⟩

/-- C8, refuted as stated: when the screen cannot be opened at startup with a screen-open failure,
`mainLoop` returns `kExitFailed`, the very code it returns when startup fails for another reason,
and not the code 4. -/
theorem C8_screen_open_failure_code_counterexample :
    (∃ s1 : synergyc.Statics,
      synergyc.mainLoop openFailurePlatform CClientApp.CArgs.CArgs 5 [] synergyc.Statics.initial =
        .returned kExitFailed s1) ∧
    (∃ s1 : synergyc.Statics,
      synergyc.mainLoop brokenPlatform CClientApp.CArgs.CArgs 5 [] synergyc.Statics.initial =
        .returned kExitFailed s1) ∧
    kExitFailed ≠ 4 :=
  ⟨⟨_, rfl⟩, ⟨_, rfl⟩, by decide⟩

/-- C8, amended: when the screen cannot be opened at startup with a screen-open failure,
`mainLoop` returns the generic failure code `kExitFailed`; it is the code `mainLoop` returns
whenever `startClient` returns false, whatever the startup failure. -/
theorem C8_screen_open_failure_returns_kExitFailed (pf : Platform) (ARG : CArgs) (steps : Nat)
    (arrivals : List (List CEvent)) (s : synergyc.Statics) :
    (∀ what : String, s.s_clientScreen = none →
      pf.createScreen s.screenCount = some (.XScreenOpenFailure what) →
      ∃ s1 : synergyc.Statics,
        synergyc.mainLoop pf ARG steps arrivals s = .returned kExitFailed s1) ∧
    (∀ s1 : synergyc.Statics,
      synergyc.startClient pf ARG { s with EVENTQUEUE := CEventQueue.CEventQueue } =
        some (false, s1) →
      synergyc.mainLoop pf ARG steps arrivals s = .returned kExitFailed s1) := by
  refine ⟨fun what hnone hthrow => ?_, fun s1 hstart => ?_⟩
  · simp [synergyc.mainLoop, synergyc.startClient, synergyc.startClientTry,
      synergyc.openClientScreen, hnone, hthrow, synergyc.closeClientScreen]
  · simp [synergyc.mainLoop, hstart]

theorem C8_screen_open_failure_returns_kExitFailed_witness :
    synergyc.Statics.initial.s_clientScreen = none ∧
    openFailurePlatform.createScreen synergyc.Statics.initial.screenCount =
      some (.XScreenOpenFailure "unable to open screen") ∧
    ∃ s1 : synergyc.Statics,
      synergyc.mainLoop openFailurePlatform CClientApp.CArgs.CArgs 5 []
        synergyc.Statics.initial = .returned kExitFailed s1 :=
  ⟨rfl, rfl,
    (C8_screen_open_failure_returns_kExitFailed openFailurePlatform CClientApp.CArgs.CArgs 5 []
      synergyc.Statics.initial).1 "unable to open screen" rfl rfl⟩

/-! ## The option loop against the reading of the usage text -/

theorem synergyc.parseOption_parameter (b : Build) (arg p : String) (rest : List String)
    (ARG : CArgs) (h : takesParameterOn b arg = true) :
    synergyc.parseOption b arg (p :: rest) ARG =
      .ok (.nextParam (applyOption ARG (arg, some p))) := by
  simp [takesParameterOn, takesParameter] at h
  rcases h with h | ⟨hx, h⟩
  · rcases h with h | h | h | h | h | h | h <;> subst h <;>
      simp [synergyc.parseOption, synergyc.isArg, bind, Except.bind, pure, Except.pure,
        applyOption, nameSetting, yscrollSetting, daemonSetting, restartSetting, param]
  · rcases h with h | h <;> subst h <;>
      simp [synergyc.parseOption, synergyc.isArg, bind, Except.bind, pure, Except.pure,
        applyOption, nameSetting, yscrollSetting, daemonSetting, restartSetting, param, hx]

theorem synergyc.parseOption_parameter_missing (b : Build) (arg : String) (ARG : CArgs)
    (h : takesParameterOn b arg = true) :
    synergyc.parseOption b arg [] ARG = .error ⟨kExitArgs, .missingArguments arg⟩ := by
  simp [takesParameterOn, takesParameter] at h
  rcases h with h | ⟨hx, h⟩
  · rcases h with h | h | h | h | h | h | h <;> subst h <;>
      simp [synergyc.parseOption, synergyc.isArg, bind, Except.bind, pure, Except.pure]
  · rcases h with h | h <;> subst h <;>
      simp [synergyc.parseOption, synergyc.isArg, bind, Except.bind, pure, Except.pure, hx]

theorem synergyc.parseOption_flag (b : Build) (arg : String) (rest : List String)
    (ARG : CArgs) (h : isFlag arg = true) :
    synergyc.parseOption b arg rest ARG = .ok (.next (applyOption ARG (arg, none))) := by
  simp [isFlag] at h
  rcases h with h | h | h | h | h | h | h | h | h <;> subst h <;>
    rcases hb : b.WINAPI_XWINDOWS with _ | _ <;>
    simp [synergyc.parseOption, synergyc.isArg, bind, Except.bind, pure, Except.pure,
      applyOption, nameSetting, yscrollSetting, daemonSetting, restartSetting, hb]

/-- An argument that is neither a parameter-taking option nor a flag ends the loop: by an exit,
or by a break that leaves the argument record as it is. -/
theorem synergyc.parseOption_other (b : Build) (arg : String) (rest : List String)
    (ARG : CArgs) (hp : takesParameterOn b arg = false) (hf : isFlag arg = false) :
    (∃ e, synergyc.parseOption b arg rest ARG = .error e) ∨
    synergyc.parseOption b arg rest ARG = .ok (.stopAfter ARG) ∨
    synergyc.parseOption b arg rest ARG = .ok (.stopHere ARG) := by
  simp [takesParameterOn, takesParameter] at hp
  simp [isFlag] at hf
  obtain ⟨hp1, hp2⟩ := hp
  have hx : ∀ (α : Type) (x y : α), (if b.WINAPI_XWINDOWS = true then
      if arg = "-display" ∨ arg = "--display" then x else y else y) = y := by
    intro α x y
    rcases hb : b.WINAPI_XWINDOWS with _ | _
    · simp
    · have := hp2 hb
      simp [this]
  by_cases h1 : arg = "-h" ∨ arg = "--help"
  · left
    refine ⟨⟨kExitSuccess, .help⟩, ?_⟩
    simp [synergyc.parseOption, synergyc.isArg, bind, Except.bind, pure, Except.pure, hp1, hf, hx,
      h1, throw, throwThe, MonadExceptOf.throw]
  by_cases h2 : arg = "--version"
  · left
    refine ⟨⟨kExitSuccess, .version⟩, ?_⟩
    simp [synergyc.parseOption, synergyc.isArg, bind, Except.bind, pure, Except.pure, hp1, hf, hx,
      h1, h2, throw, throwThe, MonadExceptOf.throw]
  by_cases h3 : arg = "--"
  · right; left
    simp [synergyc.parseOption, synergyc.isArg, bind, Except.bind, pure, Except.pure, hp1, hf, hx,
      h1, h2, h3]
  by_cases h4 : arg.data.head? = some '-'
  · left
    refine ⟨⟨kExitArgs, .unrecognizedOption arg⟩, ?_⟩
    simp [synergyc.parseOption, synergyc.isArg, bind, Except.bind, pure, Except.pure, hp1, hf, hx,
      h1, h2, h3, h4, throw, throwThe, MonadExceptOf.throw]
  · right; right
    simp [synergyc.parseOption, synergyc.isArg, bind, Except.bind, pure, Except.pure, hp1, hf, hx,
      h1, h2, h3, h4]

theorem optionsOf_cons_flag (b : Build) (arg : String) (rest : List String)
    (hp : takesParameterOn b arg = false) (hf : isFlag arg = true) :
    optionsOf b (arg :: rest) = (arg, none) :: optionsOf b rest := by
  cases rest <;> simp [optionsOf, hp, hf]

theorem optionsOf_cons_other (b : Build) (arg : String) (rest : List String)
    (hp : takesParameterOn b arg = false) (hf : isFlag arg = false) :
    optionsOf b (arg :: rest) = [] := by
  cases rest <;> simp [optionsOf, hp, hf]

theorem synergyc.parseOptions_applies (b : Build) :
    ∀ (n : Nat) (l : List String) (ARG : CArgs) (unread : List String) (ARG1 : CArgs),
      l.length ≤ n → synergyc.parseOptions b l ARG = .ok (unread, ARG1) →
      ARG1 = (optionsOf b l).foldl applyOption ARG := by
  intro n
  induction n with
  | zero =>
    intro l ARG unread ARG1 hlen h
    cases l with
    | nil =>
      simp [synergyc.parseOptions] at h
      simp [optionsOf, h.2]
    | cons a rest => simp at hlen
  | succ n ih =>
    intro l ARG unread ARG1 hlen h
    cases l with
    | nil =>
      simp [synergyc.parseOptions] at h
      simp [optionsOf, h.2]
    | cons arg rest =>
      have hrest : rest.length ≤ n := by simpa using hlen
      rw [synergyc.parseOptions] at h
      by_cases hp : takesParameterOn b arg = true
      · cases rest with
        | nil =>
          rw [synergyc.parseOption_parameter_missing b arg ARG hp] at h
          simp at h
        | cons p rest1 =>
          rw [synergyc.parseOption_parameter b arg p rest1 ARG hp] at h
          simp only at h
          have := ih rest1 _ unread ARG1 (by simp at hrest; omega) h
          simp [optionsOf, hp, this]
      · have hp : takesParameterOn b arg = false := by simpa using hp
        by_cases hf : isFlag arg = true
        · rw [synergyc.parseOption_flag b arg rest ARG hf] at h
          simp only at h
          have := ih rest _ unread ARG1 hrest h
          simp [optionsOf_cons_flag b arg rest hp hf, this]
        · have hf : isFlag arg = false := by simpa using hf
          rcases synergyc.parseOption_other b arg rest ARG hp hf with ⟨e, he⟩ | he | he
          · rw [he] at h
            simp at h
          · rw [he] at h
            simp at h
            simp [optionsOf_cons_other b arg rest hp hf, h.2]
          · rw [he] at h
            simp at h
            simp [optionsOf_cons_other b arg rest hp hf, h.2]

theorem lastSetting_foldl {α : Type} (field : CArgs → α) (f : String × Option String → Option α)
    (h : ∀ (ARG : CArgs) (o : String × Option String),
      field (applyOption ARG o) = (f o).getD (field ARG)) :
    ∀ (opts : List (String × Option String)) (ARG : CArgs),
      field (opts.foldl applyOption ARG) = (lastSetting f opts).getD (field ARG) := by
  intro opts
  induction opts with
  | nil => intro ARG; rfl
  | cons o opts ih =>
    intro ARG
    rw [List.foldl_cons, ih, h, lastSetting]
    cases lastSetting f opts <;> simp

theorem synergyc.saveServerAddress_frame (host : Host) (server : String) (ARG ARG2 : CArgs)
    (h : synergyc.saveServerAddress host server ARG = .ok ARG2) :
    ARG2.m_name = ARG.m_name ∧ ARG2.m_yscroll = ARG.m_yscroll ∧
    ARG2.m_restartable = ARG.m_restartable ∧ ARG2.m_daemon = ARG.m_daemon ∧
    ARG2.m_logFilter = ARG.m_logFilter := by
  unfold synergyc.saveServerAddress at h
  split at h
  · split_ifs at h
    simp at h
    subst h
    simp
  · split at h
    · split_ifs at h
      simp at h
      subst h
      simp
    · simp at h
      subst h
      simp

theorem synergyc.setLogFilter_frame (host : Host) (ARG ARG2 : CArgs)
    (h : synergyc.setLogFilter host ARG = .ok ARG2) :
    ARG2.m_name = ARG.m_name ∧ ARG2.m_yscroll = ARG.m_yscroll ∧
    ARG2.m_restartable = ARG.m_restartable ∧ ARG2.m_daemon = ARG.m_daemon := by
  simp only [synergyc.setLogFilter] at h
  split_ifs at h <;> simp at h <;> subst h <;> simp

/-- What an accepted command line returns: the record of the option loop, up to the server
address and the log filter. -/
theorem synergyc.parse_ok (b : Build) (host : Host) (argv : List String) (ARG ARG2 : CArgs)
    (h : synergyc.parse b host argv ARG = .ok ARG2) :
    ∃ (server : String) (ARG1 : CArgs),
      synergyc.parseOptions b argv.tail { ARG with m_name := host.getHostName } =
        .ok ([server], ARG1) ∧
      ARG2.m_name = ARG1.m_name ∧ ARG2.m_yscroll = ARG1.m_yscroll ∧
      ARG2.m_restartable = ARG1.m_restartable ∧ ARG2.m_daemon = ARG1.m_daemon := by
  simp only [synergyc.parse] at h
  split at h
  · simp at h
  · rename_i unread ARG1 hopts
    split at h
    · simp at h
    · rename_i server more
      split_ifs at h with hmore
      have hm : more = [] := by simpa using hmore
      subst hm
      split at h
      · simp at h
      · rename_i ARG3 hsave
        refine ⟨server, ARG1, hopts, ?_⟩
        have h1 := synergyc.saveServerAddress_frame host server ARG1 ARG3 hsave
        have h2 := synergyc.setLogFilter_frame host ARG3 ARG2 h
        refine ⟨h2.1.trans h1.1, h2.2.1.trans h1.2.1, h2.2.2.1.trans h1.2.2.1,
          h2.2.2.2.trans h1.2.2.2.1⟩

theorem optionsOf_mem (b : Build) :
    ∀ (n : Nat) (l : List String), l.length ≤ n →
      ∀ o ∈ optionsOf b l, o.1 ∈ l := by
  intro n
  induction n with
  | zero =>
    intro l hlen o ho
    cases l with
    | nil => simp [optionsOf] at ho
    | cons a rest => simp at hlen
  | succ n ih =>
    intro l hlen o ho
    cases l with
    | nil => simp [optionsOf] at ho
    | cons arg rest =>
      have hrest : rest.length ≤ n := by simpa using hlen
      by_cases hp : takesParameterOn b arg = true
      · cases rest with
        | nil => simp [optionsOf, hp] at ho
        | cons p rest1 =>
          simp only [optionsOf, hp, if_true, List.mem_cons] at ho
          rcases ho with ho | ho
          · simp [ho]
          · have := ih rest1 (by simp at hrest; omega) o ho
            simp [this]
      · have hp : takesParameterOn b arg = false := by simpa using hp
        by_cases hf : isFlag arg = true
        · rw [optionsOf_cons_flag b arg rest hp hf, List.mem_cons] at ho
          rcases ho with ho | ho
          · simp [ho]
          · have := ih rest hrest o ho
            simp [this]
        · have hf : isFlag arg = false := by simpa using hf
          rw [optionsOf_cons_other b arg rest hp hf] at ho
          simp at ho

theorem lastSetting_eq_none {α : Type} (f : String × Option String → Option α) :
    ∀ opts : List (String × Option String), (∀ o ∈ opts, f o = none) →
      lastSetting f opts = none := by
  intro opts
  induction opts with
  | nil => intro _; rfl
  | cons o opts ih =>
    intro h
    rw [lastSetting, ih (fun x hx => h x (List.mem_cons_of_mem _ hx))]
    exact h o (List.mem_cons_self _ _)

/-- The record returned for an accepted command line, field by field, from the options in option
position. -/
theorem synergyc.parse_fields (b : Build) (host : Host) (argv : List String) (ARG ARG2 : CArgs)
    (h : synergyc.parse b host argv ARG = .ok ARG2) :
    ARG2.m_name = (lastSetting nameSetting (optionsOf b argv.tail)).getD host.getHostName ∧
    ARG2.m_yscroll = (lastSetting yscrollSetting (optionsOf b argv.tail)).getD ARG.m_yscroll ∧
    ARG2.m_restartable =
      (lastSetting restartSetting (optionsOf b argv.tail)).getD ARG.m_restartable ∧
    ARG2.m_daemon = (lastSetting daemonSetting (optionsOf b argv.tail)).getD ARG.m_daemon := by
  obtain ⟨server, ARG1, hopts, h1, h2, h3, h4⟩ := synergyc.parse_ok b host argv ARG ARG2 h
  have happ := synergyc.parseOptions_applies b argv.tail.length argv.tail _ _ ARG1 le_rfl hopts
  rw [h1, h2, h3, h4, happ]
  exact ⟨lastSetting_foldl (fun A => A.m_name) nameSetting (fun _ _ => rfl) _ _,
    lastSetting_foldl (fun A => A.m_yscroll) yscrollSetting (fun _ _ => rfl) _ _,
    lastSetting_foldl (fun A => A.m_restartable) restartSetting (fun _ _ => rfl) _ _,
    lastSetting_foldl (fun A => A.m_daemon) daemonSetting (fun _ _ => rfl) _ _⟩

/-- C11: for every argument vector that parse accepts, the resulting screen name is the host name
when no `-n` or `--name` occurs in option position, and otherwise is, verbatim, the argument that
follows the last `-n` or `--name` in option position (an argument read as a parameter is never
read as an option, whatever it begins with). Both for `parse` of synergyc.cpp and for
`CClientApp::parse`. -/
theorem C11_screen_name_is_last_name_option (b : Build) (host : Host) (argv : List String)
    (ARG : CArgs) :
    (∀ ARG2 : CArgs, synergyc.parse b host argv ARG = .ok ARG2 →
      ARG2.m_name = (lastSetting nameSetting (optionsOf b argv.tail)).getD host.getHostName) ∧
    (∀ ARG2 : CArgs, CClientApp.parse b host argv ARG = .ok ARG2 →
      ARG2.m_name = (lastSetting nameSetting (optionsOf b argv.tail)).getD host.getHostName) := by
  rw [CClientApp.parse_eq]
  exact ⟨fun ARG2 h => (synergyc.parse_fields b host argv ARG ARG2 h).1,
    fun ARG2 h => (synergyc.parse_fields b host argv ARG ARG2 h).1⟩

theorem C11_screen_name_is_last_name_option_witness :
    (∃ ARG2 : CArgs,
      synergyc.parse ⟨false⟩ exampleHost ["synergyc", "-n", "a", "--name", "-f", "srv"]
        CClientApp.CArgs.CArgs = .ok ARG2 ∧
      ARG2.m_name = (lastSetting nameSetting
        (optionsOf ⟨false⟩ ["synergyc", "-n", "a", "--name", "-f", "srv"].tail)).getD
          exampleHost.getHostName ∧
      ARG2.m_name = "-f" ∧ ARG2.m_daemon = true) ∧
    (∃ ARG2 : CArgs,
      CClientApp.parse ⟨false⟩ exampleHost ["synergyc", "-f", "srv"] CClientApp.CArgs.CArgs =
        .ok ARG2 ∧
      ARG2.m_name = (lastSetting nameSetting
        (optionsOf ⟨false⟩ ["synergyc", "-f", "srv"].tail)).getD exampleHost.getHostName ∧
      ARG2.m_name = "me") :=
  ⟨⟨_, rfl, (C11_screen_name_is_last_name_option ⟨false⟩ exampleHost
      ["synergyc", "-n", "a", "--name", "-f", "srv"] CClientApp.CArgs.CArgs).1 _ rfl, rfl, rfl⟩,
   ⟨_, rfl, (C11_screen_name_is_last_name_option ⟨false⟩ exampleHost
      ["synergyc", "-f", "srv"] CClientApp.CArgs.CArgs).2 _ rfl, rfl⟩⟩

theorem intOfLong_range (value : Int) :
    -(2 ^ 31) ≤ intOfLong value ∧ intOfLong value < 2 ^ 31 := by
  have h1 := Int.emod_nonneg (value + 2 ^ 31) (by norm_num : (2 : Int) ^ 32 ≠ 0)
  have h2 := Int.emod_lt_of_pos (value + 2 ^ 31) (by norm_num : (0 : Int) < 2 ^ 32)
  simp only [intOfLong]
  constructor <;> omega

theorem atoi_range (p : String) : -(2 ^ 31) ≤ atoi p ∧ atoi p < 2 ^ 31 :=
  intOfLong_range (strtol p)

theorem atoi_of_int (p : String) (hlow : -(2 ^ 31) ≤ decimalValue p)
    (hhigh : decimalValue p < 2 ^ 31) : atoi p = decimalValue p := by
  have hs : strtol p = decimalValue p := by
    simp only [strtol]
    rw [min_eq_left (by omega), max_eq_right (by omega)]
  simp only [atoi, intOfLong, hs]
  omega

theorem lastSetting_mem {α : Type} (f : String × Option String → Option α) :
    ∀ (opts : List (String × Option String)) (v : α), lastSetting f opts = some v →
      ∃ o ∈ opts, f o = some v := by
  intro opts
  induction opts with
  | nil => intro v h; simp [lastSetting] at h
  | cons o opts ih =>
    intro v h
    simp only [lastSetting] at h
    rcases hl : lastSetting f opts with _ | w
    · simp only [hl] at h
      exact ⟨o, List.mem_cons_self _ _, h⟩
    · simp only [hl, Option.some.injEq] at h
      obtain ⟨o1, hmem, ho1⟩ := ih w hl
      exact ⟨o1, List.mem_cons_of_mem _ hmem, h ▸ ho1⟩

/-- C12, refuted as stated: the command line `synergyc srv` is accepted and has no `--yscroll`,
and the scroll delta it configures is the 0 of the `CArgs` constructor, not 120. -/
theorem C12_default_yscroll_counterexample :
    "--yscroll" ∉ ["synergyc", "srv"] ∧
    ∃ ARG2 : CArgs,
      synergyc.parse ⟨true⟩ exampleHost ["synergyc", "srv"] CClientApp.CArgs.CArgs = .ok ARG2 ∧
      ARG2.m_yscroll = 0 ∧ ARG2.m_yscroll ≠ 120 :=
  ⟨by decide, _, rfl, rfl, by decide⟩

/-- C12, amended: for every argument vector that parse accepts and that has no `--yscroll` in
option position, the scroll delta is the one of the argument record on entry, which is 0 after
the `CArgs` constructor; when `--yscroll` is given it is the integer value (`atoi`, an `int` of
32 bits) of the parameter of the last `--yscroll` in option position: the number the parameter starts with when
that is an `int`, 120 for "120", and for a number that is no `int` the low 32 bits of it, 0 for
"4294967296". The scroll delta returned is an `int` whenever the one on entry is. -/
theorem C12_yscroll_is_last_yscroll_option (b : Build) (host : Host) (argv : List String)
    (ARG ARG2 : CArgs) (h : synergyc.parse b host argv ARG = .ok ARG2) :
    CClientApp.CArgs.CArgs.m_yscroll = 0 ∧
    ARG2.m_yscroll = (lastSetting yscrollSetting (optionsOf b argv.tail)).getD ARG.m_yscroll ∧
    ((∀ a ∈ argv.tail, a ≠ "--yscroll") → ARG2.m_yscroll = ARG.m_yscroll) ∧
    (∀ p : String, -(2 ^ 31) ≤ atoi p ∧ atoi p < 2 ^ 31) ∧
    (∀ p : String, -(2 ^ 31) ≤ decimalValue p → decimalValue p < 2 ^ 31 →
      atoi p = decimalValue p) ∧
    (-(2 ^ 31) ≤ ARG.m_yscroll ∧ ARG.m_yscroll < 2 ^ 31 →
      -(2 ^ 31) ≤ ARG2.m_yscroll ∧ ARG2.m_yscroll < 2 ^ 31) ∧
    atoi "120" = 120 ∧ atoi "4294967296" = 0 ∧ atoi "2147483648" = -2147483648 ∧
    atoi "-2147483649" = 2147483647 := by
  have hf := (synergyc.parse_fields b host argv ARG ARG2 h).2.1
  refine ⟨rfl, hf, fun hno => ?_, atoi_range, atoi_of_int, fun hentry => ?_, by decide,
    by decide, by decide, by decide⟩
  · rw [hf, lastSetting_eq_none yscrollSetting _ (fun o ho => ?_)]
    · rfl
    · have hmem := optionsOf_mem b argv.tail.length argv.tail le_rfl o ho
      simp [yscrollSetting, hno _ hmem]
  · rw [hf]
    rcases hl : lastSetting yscrollSetting (optionsOf b argv.tail) with _ | v
    · exact hentry
    · obtain ⟨o, _, ho⟩ := lastSetting_mem yscrollSetting _ v hl
      simp only [yscrollSetting] at ho
      split_ifs at ho
      rcases hp : o.2 with _ | p
      · simp [hp] at ho
      · simp only [hp, Option.map_some', Option.some.injEq] at ho
        rw [Option.getD_some, ← ho]
        exact atoi_range p

theorem C12_yscroll_is_last_yscroll_option_witness :
    ∃ ARG2 : CArgs,
      synergyc.parse ⟨true⟩ exampleHost ["synergyc", "--yscroll", "7", "--yscroll", " -240x", "srv"]
        CClientApp.CArgs.CArgs = .ok ARG2 ∧
      ARG2.m_yscroll = (lastSetting yscrollSetting
        (optionsOf ⟨true⟩ ["synergyc", "--yscroll", "7", "--yscroll", " -240x", "srv"].tail)).getD
          CClientApp.CArgs.CArgs.m_yscroll ∧
      ARG2.m_yscroll = -240 ∧
      ∃ ARG3 : CArgs,
        synergyc.parse ⟨true⟩ exampleHost ["synergyc", "--yscroll", "4294967296", "srv"]
          CClientApp.CArgs.CArgs = .ok ARG3 ∧
        ARG3.m_yscroll = 0 :=
  ⟨_, rfl, (C12_yscroll_is_last_yscroll_option ⟨true⟩ exampleHost
    ["synergyc", "--yscroll", "7", "--yscroll", " -240x", "srv"] CClientApp.CArgs.CArgs _ rfl).2.1,
    by rfl, _, rfl, by rfl⟩

/-- C13: for every argument vector that parse accepts, entered with the restartable flag of the
`CArgs` constructor, which is true, the restartable flag is true when none of `--restart`,
`--no-restart`, `-1` occurs, and otherwise is the one given by the last of these options in
option position: true for `--restart`, false for `--no-restart` or `-1`. -/
theorem C13_restartable_is_last_restart_option (b : Build) (host : Host) (argv : List String)
    (ARG ARG2 : CArgs) (h : synergyc.parse b host argv ARG = .ok ARG2)
    (hentry : ARG.m_restartable = CClientApp.CArgs.CArgs.m_restartable) :
    CClientApp.CArgs.CArgs.m_restartable = true ∧
    ARG2.m_restartable = (lastSetting restartSetting (optionsOf b argv.tail)).getD true ∧
    ((∀ a ∈ argv.tail, a ≠ "--restart" ∧ a ≠ "--no-restart" ∧ a ≠ "-1") →
      ARG2.m_restartable = true) := by
  have hf := (synergyc.parse_fields b host argv ARG ARG2 h).2.2.1
  have he : ARG.m_restartable = true := hentry
  rw [he] at hf
  refine ⟨rfl, hf, fun hno => ?_⟩
  rw [hf, lastSetting_eq_none restartSetting _ (fun o ho => ?_)]
  · rfl
  · have hmem := optionsOf_mem b argv.tail.length argv.tail le_rfl o ho
    simp [restartSetting, hno _ hmem]

theorem C13_restartable_is_last_restart_option_witness :
    ∃ ARG2 : CArgs,
      synergyc.parse ⟨false⟩ exampleHost ["synergyc", "--restart", "-1", "-n", "--restart", "srv"]
        CClientApp.CArgs.CArgs = .ok ARG2 ∧
      ARG2.m_restartable = (lastSetting restartSetting
        (optionsOf ⟨false⟩ ["synergyc", "--restart", "-1", "-n", "--restart", "srv"].tail)).getD
          true ∧
      ARG2.m_restartable = false :=
  ⟨_, rfl, (C13_restartable_is_last_restart_option ⟨false⟩ exampleHost
    ["synergyc", "--restart", "-1", "-n", "--restart", "srv"] CClientApp.CArgs.CArgs _ rfl rfl).2.1,
    by rfl⟩

/-- C14: for every argument vector that parse accepts, entered with the daemon flag of the
`CArgs` constructor, which is true, the daemon flag is true when none of `--daemon`,
`--no-daemon`, `-f` occurs, and otherwise is the one given by the last of these options in
option position: true for `--daemon`, false for `--no-daemon` or `-f`; and `standardStartup`
hands the process to `ARCH->daemonize` if and only if the parsed daemon flag is true, and runs
`mainLoop` in the foreground if and only if it is false. -/
theorem C14_daemon_is_last_daemon_option (b : Build) (host : Host) (argv : List String)
    (ARG ARG2 : CArgs) (h : synergyc.parse b host argv ARG = .ok ARG2)
    (hentry : ARG.m_daemon = CClientApp.CArgs.CArgs.m_daemon) :
    CClientApp.CArgs.CArgs.m_daemon = true ∧
    ARG2.m_daemon = (lastSetting daemonSetting (optionsOf b argv.tail)).getD true ∧
    ((∀ a ∈ argv.tail, a ≠ "--daemon" ∧ a ≠ "--no-daemon" ∧ a ≠ "-f") →
      ARG2.m_daemon = true) ∧
    ((synergyc.standardStartup b host argv ARG).2 =
        .daemonize synergyc.DAEMON_NAME ARG2 ↔ ARG2.m_daemon = true) ∧
    ((synergyc.standardStartup b host argv ARG).2 = .mainLoop ARG2 ↔
      ARG2.m_daemon = false) := by
  have hf := (synergyc.parse_fields b host argv ARG ARG2 h).2.2.2
  have he : ARG.m_daemon = true := hentry
  rw [he] at hf
  refine ⟨rfl, hf, fun hno => ?_, ?_, ?_⟩
  · rw [hf, lastSetting_eq_none daemonSetting _ (fun o ho => ?_)]
    · rfl
    · have hmem := optionsOf_mem b argv.tail.length argv.tail le_rfl o ho
      simp [daemonSetting, hno _ hmem]
  · rcases hd : ARG2.m_daemon with _ | _ <;> simp [synergyc.standardStartup, h, hd]
  · rcases hd : ARG2.m_daemon with _ | _ <;> simp [synergyc.standardStartup, h, hd]

theorem C14_daemon_is_last_daemon_option_witness :
    ∃ ARG2 : CArgs,
      synergyc.parse ⟨false⟩ exampleHost ["synergyc", "-f", "--daemon", "--", "-f"]
        CClientApp.CArgs.CArgs = .ok ARG2 ∧
      ARG2.m_daemon = true ∧
      ((synergyc.standardStartup ⟨false⟩ exampleHost ["synergyc", "-f", "--daemon", "--", "-f"]
          CClientApp.CArgs.CArgs).2 = .daemonize synergyc.DAEMON_NAME ARG2 ↔
        ARG2.m_daemon = true) :=
  ⟨_, rfl, by rfl, (C14_daemon_is_last_daemon_option ⟨false⟩ exampleHost
    ["synergyc", "-f", "--daemon", "--", "-f"] CClientApp.CArgs.CArgs _ rfl rfl).2.2.2.1⟩

theorem synergyc.parseOption_help (b : Build) (arg : String) (rest : List String) (ARG : CArgs)
    (h : arg = "-h" ∨ arg = "--help") :
    synergyc.parseOption b arg rest ARG = .error ⟨kExitSuccess, .help⟩ := by
  rcases h with h | h <;> subst h <;> rcases hb : b.WINAPI_XWINDOWS with _ | _ <;>
    simp [synergyc.parseOption, synergyc.isArg, bind, Except.bind, pure, Except.pure, hb,
      throw, throwThe, MonadExceptOf.throw]

theorem synergyc.parseOption_version (b : Build) (rest : List String) (ARG : CArgs) :
    synergyc.parseOption b "--version" rest ARG = .error ⟨kExitSuccess, .version⟩ := by
  rcases hb : b.WINAPI_XWINDOWS with _ | _ <;>
    simp [synergyc.parseOption, synergyc.isArg, bind, Except.bind, pure, Except.pure, hb,
      throw, throwThe, MonadExceptOf.throw]

theorem synergyc.parse_help_or_version (b : Build) (host : Host) (ARG : CArgs) (argv0 : String)
    (pre : List String) (arg : String) (rest : List String) (n : Nat) (ARG1 : CArgs)
    (hreach : synergyc.optionLoopAfter b n (pre ++ arg :: rest)
      { ARG with m_name := host.getHostName } = some (arg :: rest, ARG1)) :
    ((arg = "-h" ∨ arg = "--help") → ∀ later : List String,
      synergyc.parse b host (argv0 :: (pre ++ arg :: later)) ARG =
        .error ⟨kExitSuccess, .help⟩) ∧
    (arg = "--version" → ∀ later : List String,
      synergyc.parse b host (argv0 :: (pre ++ arg :: later)) ARG =
        .error ⟨kExitSuccess, .version⟩) := by
  have hloop : ∀ later : List String,
      synergyc.parseOptions b (pre ++ arg :: later) { ARG with m_name := host.getHostName } =
        synergyc.parseOptions b (arg :: later) ARG1 := fun later =>
    synergyc.parseOptions_of_optionLoopAfter b n _ _ _ _
      (synergyc.optionLoopAfter_stable b arg rest later ARG1 n pre _ hreach)
  refine ⟨fun h later => ?_, fun h later => ?_⟩
  · simp only [synergyc.parse, List.tail_cons, hloop later]
    rw [synergyc.parseOptions, synergyc.parseOption_help b arg later ARG1 h]
  · subst h
    simp only [synergyc.parse, List.tail_cons, hloop later]
    rw [synergyc.parseOptions, synergyc.parseOption_version b later ARG1]

/-- C15: when the option loop, scanning from argv[1], reaches `-h`, `--help` or `--version`
(through passes that neither exit nor break, so before any argument error), parse exits with the
success exit code after printing the help or the version, whatever the arguments after it are,
none included, and so also when no server address is given. Both for `parse` of synergyc.cpp and
for `CClientApp::parse`. -/
theorem C15_help_and_version_exit_with_success (b : Build) (host : Host) (ARG : CArgs)
    (argv0 : String) (pre : List String) (arg : String) (rest : List String) :
    kExitSuccess = 0 ∧
    (∀ (n : Nat) (ARG1 : CArgs),
      synergyc.optionLoopAfter b n (pre ++ arg :: rest)
        { ARG with m_name := host.getHostName } = some (arg :: rest, ARG1) →
      ((arg = "-h" ∨ arg = "--help") → ∀ later : List String,
        synergyc.parse b host (argv0 :: (pre ++ arg :: later)) ARG =
          .error ⟨kExitSuccess, .help⟩) ∧
      (arg = "--version" → ∀ later : List String,
        synergyc.parse b host (argv0 :: (pre ++ arg :: later)) ARG =
          .error ⟨kExitSuccess, .version⟩)) ∧
    (∀ (n : Nat) (ARG1 : CArgs),
      CClientApp.optionLoopAfter b n (pre ++ arg :: rest)
        { ARG with m_name := host.getHostName } = some (arg :: rest, ARG1) →
      ((arg = "-h" ∨ arg = "--help") → ∀ later : List String,
        CClientApp.parse b host (argv0 :: (pre ++ arg :: later)) ARG =
          .error ⟨kExitSuccess, .help⟩) ∧
      (arg = "--version" → ∀ later : List String,
        CClientApp.parse b host (argv0 :: (pre ++ arg :: later)) ARG =
          .error ⟨kExitSuccess, .version⟩)) := by
  rw [CClientApp.optionLoopAfter_eq, CClientApp.parse_eq]
  exact ⟨rfl,
    fun n ARG1 hreach => synergyc.parse_help_or_version b host ARG argv0 pre arg rest n ARG1 hreach,
    fun n ARG1 hreach => synergyc.parse_help_or_version b host ARG argv0 pre arg rest n ARG1 hreach⟩

theorem C15_help_and_version_exit_with_success_witness :
    (synergyc.optionLoopAfter ⟨false⟩ 2 (["-f", "-n", "a"] ++ "--help" :: ["x"])
        { CClientApp.CArgs.CArgs with m_name := exampleHost.getHostName } =
      some ("--help" :: ["x"], { CClientApp.CArgs.CArgs with m_name := "a", m_daemon := false }) ∧
    synergyc.parse ⟨false⟩ exampleHost ("synergyc" :: (["-f", "-n", "a"] ++ "--help" :: []))
        CClientApp.CArgs.CArgs = .error ⟨kExitSuccess, .help⟩) ∧
    (CClientApp.optionLoopAfter ⟨true⟩ 0 ([] ++ "--version" :: [])
        { CClientApp.CArgs.CArgs with m_name := exampleHost.getHostName } =
      some ("--version" :: [], { CClientApp.CArgs.CArgs with m_name := "me" }) ∧
    CClientApp.parse ⟨true⟩ exampleHost ("synergyc" :: ([] ++ "--version" :: ["--bogus", "a", "b"]))
        CClientApp.CArgs.CArgs = .error ⟨kExitSuccess, .version⟩) :=
  ⟨⟨by rfl,
    ((C15_help_and_version_exit_with_success ⟨false⟩ exampleHost CClientApp.CArgs.CArgs "synergyc"
      ["-f", "-n", "a"] "--help" ["x"]).2.1 2 _ (by rfl)).1 (Or.inr rfl) []⟩,
   ⟨by rfl,
    ((C15_help_and_version_exit_with_success ⟨true⟩ exampleHost CClientApp.CArgs.CArgs "synergyc"
      [] "--version" []).2.2 0 _ (by rfl)).2 rfl ["--bogus", "a", "b"]⟩⟩

/-! ## Key buttons of OS X -/

theorem CPrimaryClient.call_effect (s : CPrimaryClient.State) (x : CPrimaryClient.Call)
    (d : Nat) (hd : s.m_fakeInputCount = d) (hx : x = .fakeInputEnd → 0 < d) :
    0 ≤ s.m_fakeInputCount ∧ 0 ≤ (CPrimaryClient.call x s).m_fakeInputCount ∧
    ((CPrimaryClient.call x s).m_screen = s.m_screen ++ [.fakeInputBegin] ↔
      (x = .fakeInputBegin ∧ s.m_fakeInputCount = 0 ∧
        (CPrimaryClient.call x s).m_fakeInputCount = 1)) ∧
    ((CPrimaryClient.call x s).m_screen = s.m_screen ++ [.fakeInputEnd] ↔
      (x = .fakeInputEnd ∧ s.m_fakeInputCount = 1 ∧
        (CPrimaryClient.call x s).m_fakeInputCount = 0)) ∧
    ((CPrimaryClient.call x s).m_screen = s.m_screen ∨
      (CPrimaryClient.call x s).m_screen = s.m_screen ++ [.fakeInputBegin] ∨
      (CPrimaryClient.call x s).m_screen = s.m_screen ++ [.fakeInputEnd]) := by
  cases x with
  | fakeInputBegin =>
    simp only [CPrimaryClient.call, CPrimaryClient.fakeInputBegin]
    split_ifs with h <;> simp <;> omega
  | fakeInputEnd =>
    have := hx rfl
    simp only [CPrimaryClient.call, CPrimaryClient.fakeInputEnd]
    split_ifs with h <;> simp <;> omega

theorem CPrimaryClient.count_before (pre : List CPrimaryClient.Call) :
    ∀ (xs : List CPrimaryClient.Call) (d : Nat) (c : CPrimaryClient.State)
      (x : CPrimaryClient.Call) (post : List CPrimaryClient.Call),
      c.m_fakeInputCount = d → CPrimaryClient.properlyNestedFrom d xs = true →
      xs = pre ++ x :: post →
      ∃ d1 : Nat, (CPrimaryClient.calls pre c).m_fakeInputCount = d1 ∧
        (x = .fakeInputEnd → 0 < d1) := by
  induction pre with
  | nil =>
    intro xs d c x post hc hn hxs
    subst hxs
    refine ⟨d, hc, fun hx => ?_⟩
    subst hx
    cases d with
    | zero => simp [CPrimaryClient.properlyNestedFrom] at hn
    | succ d => omega
  | cons y pre ih =>
    intro xs d c x post hc hn hxs
    subst hxs
    cases y with
    | fakeInputBegin =>
      simp only [List.cons_append, CPrimaryClient.properlyNestedFrom] at hn
      refine ih _ (d + 1) (CPrimaryClient.call .fakeInputBegin c) x post ?_ hn rfl
      simp only [CPrimaryClient.call, CPrimaryClient.fakeInputBegin]
      split_ifs <;> simp [hc]
    | fakeInputEnd =>
      cases d with
      | zero => simp [CPrimaryClient.properlyNestedFrom] at hn
      | succ d =>
        simp only [List.cons_append, CPrimaryClient.properlyNestedFrom] at hn
        refine ih _ d (CPrimaryClient.call .fakeInputEnd c) x post ?_ hn rfl
        simp only [CPrimaryClient.call, CPrimaryClient.fakeInputEnd]
        split_ifs <;> simp [hc]

/-- C18: calls of `fakeInputBegin` and `fakeInputEnd` may be nested and only the outermost have
an effect. For every properly nested sequence of calls from `m_fakeInputCount = 0`, at every call
of the sequence: the count is not negative before and after it; the screen is told to begin fake
input by that call exactly when it is a `fakeInputBegin` that raises the count from 0 to 1, and
to end it exactly when it is a `fakeInputEnd` that brings the count from 1 back to 0; and the
call tells the screen nothing else. -/
theorem C18_only_outermost_fake_input_calls_reach_screen (xs : List CPrimaryClient.Call)
    (hnested : CPrimaryClient.properlyNestedFrom 0 xs = true)
    (pre : List CPrimaryClient.Call) (x : CPrimaryClient.Call) (post : List CPrimaryClient.Call)
    (hxs : xs = pre ++ x :: post) :
    0 ≤ (CPrimaryClient.calls pre CPrimaryClient.State.initial).m_fakeInputCount ∧
    0 ≤ (CPrimaryClient.call x
      (CPrimaryClient.calls pre CPrimaryClient.State.initial)).m_fakeInputCount ∧
    ((CPrimaryClient.call x (CPrimaryClient.calls pre CPrimaryClient.State.initial)).m_screen =
        (CPrimaryClient.calls pre CPrimaryClient.State.initial).m_screen ++ [.fakeInputBegin] ↔
      (x = .fakeInputBegin ∧
        (CPrimaryClient.calls pre CPrimaryClient.State.initial).m_fakeInputCount = 0 ∧
        (CPrimaryClient.call x
          (CPrimaryClient.calls pre CPrimaryClient.State.initial)).m_fakeInputCount = 1)) ∧
    ((CPrimaryClient.call x (CPrimaryClient.calls pre CPrimaryClient.State.initial)).m_screen =
        (CPrimaryClient.calls pre CPrimaryClient.State.initial).m_screen ++ [.fakeInputEnd] ↔
      (x = .fakeInputEnd ∧
        (CPrimaryClient.calls pre CPrimaryClient.State.initial).m_fakeInputCount = 1 ∧
        (CPrimaryClient.call x
          (CPrimaryClient.calls pre CPrimaryClient.State.initial)).m_fakeInputCount = 0)) ∧
    ((CPrimaryClient.call x (CPrimaryClient.calls pre CPrimaryClient.State.initial)).m_screen =
        (CPrimaryClient.calls pre CPrimaryClient.State.initial).m_screen ∨
      (CPrimaryClient.call x (CPrimaryClient.calls pre CPrimaryClient.State.initial)).m_screen =
        (CPrimaryClient.calls pre CPrimaryClient.State.initial).m_screen ++ [.fakeInputBegin] ∨
      (CPrimaryClient.call x (CPrimaryClient.calls pre CPrimaryClient.State.initial)).m_screen =
        (CPrimaryClient.calls pre CPrimaryClient.State.initial).m_screen ++ [.fakeInputEnd]) := by
  obtain ⟨d1, hd1, hx⟩ := CPrimaryClient.count_before pre xs 0 CPrimaryClient.State.initial x post
    rfl hnested hxs
  exact CPrimaryClient.call_effect _ x d1 hd1 hx

theorem C18_only_outermost_fake_input_calls_reach_screen_witness :
    CPrimaryClient.properlyNestedFrom 0
      [.fakeInputBegin, .fakeInputBegin, .fakeInputEnd, .fakeInputEnd] = true ∧
    ((CPrimaryClient.call .fakeInputBegin
        (CPrimaryClient.calls [.fakeInputBegin] CPrimaryClient.State.initial)).m_screen =
      (CPrimaryClient.calls [.fakeInputBegin] CPrimaryClient.State.initial).m_screen) ∧
    0 ≤ (CPrimaryClient.call .fakeInputEnd (CPrimaryClient.calls
      [.fakeInputBegin, .fakeInputBegin, .fakeInputEnd]
        CPrimaryClient.State.initial)).m_fakeInputCount ∧
    ((CPrimaryClient.call .fakeInputEnd (CPrimaryClient.calls
        [.fakeInputBegin, .fakeInputBegin, .fakeInputEnd] CPrimaryClient.State.initial)).m_screen =
      (CPrimaryClient.calls [.fakeInputBegin, .fakeInputBegin, .fakeInputEnd]
        CPrimaryClient.State.initial).m_screen ++ [.fakeInputEnd]) :=
  ⟨rfl, rfl,
    (C18_only_outermost_fake_input_calls_reach_screen
      [.fakeInputBegin, .fakeInputBegin, .fakeInputEnd, .fakeInputEnd] rfl
      [.fakeInputBegin, .fakeInputBegin, .fakeInputEnd] .fakeInputEnd [] rfl).2.1,
    (C18_only_outermost_fake_input_calls_reach_screen
      [.fakeInputBegin, .fakeInputBegin, .fakeInputEnd, .fakeInputEnd] rfl
      [.fakeInputBegin, .fakeInputBegin, .fakeInputEnd] .fakeInputEnd [] rfl).2.2.2.1.mpr
        ⟨rfl, rfl, rfl⟩⟩

/-! ## The keyboard group of the X Windows key state -/

/-- C19: for every explicit group number `g >= 0` (neither `kGroupPoll` nor `kGroupPollAndSet`),
`setActiveGroup(g)` leaves the stored group `m_group` equal to `g`, whatever the X server and the
group stored before; the three assertions of the tests hold too: group 1 is stored as 1, after
`kGroupPoll` the group is at least -1, and after `kGroupPollAndSet` it is 0 on a server in group
0. -/
theorem C19_setActiveGroup_stores_explicit_group (x : CXWindowsKeyState.XServer) (g : Int)
    (k : CXWindowsKeyState.State) (hg : 0 ≤ g) :
    g ≠ CXWindowsKeyState.kGroupPoll ∧ g ≠ CXWindowsKeyState.kGroupPollAndSet ∧
    (CXWindowsKeyState.setActiveGroup x g k).m_group = g ∧
    (CXWindowsKeyState.setActiveGroup x 1 k).m_group = 1 ∧
    -1 ≤ (CXWindowsKeyState.setActiveGroup x CXWindowsKeyState.kGroupPoll k).m_group ∧
    (CXWindowsKeyState.setActiveGroup ⟨some 0⟩ CXWindowsKeyState.kGroupPollAndSet k).m_group =
      0 := by
  have h1 : g ≠ CXWindowsKeyState.kGroupPoll := by
    simp only [CXWindowsKeyState.kGroupPoll]; omega
  have h2 : g ≠ CXWindowsKeyState.kGroupPollAndSet := by
    simp only [CXWindowsKeyState.kGroupPollAndSet]; omega
  refine ⟨h1, h2, ?_, ?_, ?_, ?_⟩
  · simp [CXWindowsKeyState.setActiveGroup, h1, h2]
  · simp [CXWindowsKeyState.setActiveGroup, CXWindowsKeyState.kGroupPoll,
      CXWindowsKeyState.kGroupPollAndSet]
  · simp [CXWindowsKeyState.setActiveGroup, CXWindowsKeyState.kGroupPoll,
      CXWindowsKeyState.kGroupPollAndSet]
  · simp [CXWindowsKeyState.setActiveGroup, CXWindowsKeyState.pollActiveGroup]

theorem C19_setActiveGroup_stores_explicit_group_witness :
    (0 : Int) ≤ 3 ∧
    (CXWindowsKeyState.setActiveGroup ⟨none⟩ 3 ⟨-1⟩).m_group = 3 :=
  ⟨by decide, (C19_setActiveGroup_stores_explicit_group ⟨none⟩ 3 ⟨-1⟩ (by decide)).2.2.1⟩

/-- C20: for every stored group `g >= 0`, `pollActiveGroup` returns `g` without consulting the X
server; it consults the server exactly when no group is stored (`m_group = -1`), and then returns
0 when the server is in its default state (group 0, or no XKB state to read). -/
theorem C20_pollActiveGroup_returns_stored_group (x : CXWindowsKeyState.XServer) (g : Int)
    (hg : 0 ≤ g) :
    CXWindowsKeyState.pollActiveGroup x ⟨g⟩ = (g, false) ∧
    (∀ k : CXWindowsKeyState.State,
      (CXWindowsKeyState.pollActiveGroup x k).2 = true ↔ k.m_group = -1) ∧
    (x.XkbGetState = some 0 ∨ x.XkbGetState = none →
      CXWindowsKeyState.pollActiveGroup x ⟨-1⟩ = (0, true)) := by
  refine ⟨?_, fun k => ?_, fun hx => ?_⟩
  · have : g ≠ -1 := by omega
    simp [CXWindowsKeyState.pollActiveGroup, this]
  · by_cases hk : k.m_group = -1 <;> simp [CXWindowsKeyState.pollActiveGroup, hk]
  · rcases hx with hx | hx <;> simp [CXWindowsKeyState.pollActiveGroup, hx]

theorem C20_pollActiveGroup_returns_stored_group_witness :
    (0 : Int) ≤ 3 ∧
    CXWindowsKeyState.pollActiveGroup ⟨some 2⟩ ⟨3⟩ = (3, false) ∧
    CXWindowsKeyState.pollActiveGroup ⟨some 0⟩ ⟨-1⟩ = (0, true) :=
  ⟨by decide, (C20_pollActiveGroup_returns_stored_group ⟨some 2⟩ 3 (by decide)).1,
    (C20_pollActiveGroup_returns_stored_group ⟨some 0⟩ 3 (by decide)).2.2 (Or.inl rfl)⟩

/-! ## The two parsers, the end of the options and the log filter -/

/-- C26: on a build without the Windows `--service` option, `parse` of synergyc.cpp and
`CClientApp::parse` are equivalent: for every argument vector, every argument record on entry and
every behaviour of the host-name, address and log-filter collaborators they give the same result,
so they both exit, with the same exit code and the same message, or both return, with identical
argument records. -/
theorem C26_parsers_equivalent (b : Build) (host : Host) (argv : List String) (ARG : CArgs) :
    CClientApp.parse b host argv ARG = synergyc.parse b host argv ARG ∧
    ((∃ e1 e2 : Exit, synergyc.parse b host argv ARG = .error e1 ∧
        CClientApp.parse b host argv ARG = .error e2 ∧ e1.code = e2.code) ∨
      (∃ ARG1 ARG2 : CArgs, synergyc.parse b host argv ARG = .ok ARG1 ∧
        CClientApp.parse b host argv ARG = .ok ARG2 ∧
        ARG1.m_name = ARG2.m_name ∧ ARG1.m_daemon = ARG2.m_daemon ∧
        ARG1.m_restartable = ARG2.m_restartable ∧ ARG1.m_backend = ARG2.m_backend ∧
        ARG1.m_yscroll = ARG2.m_yscroll ∧ ARG1.m_logFilter = ARG2.m_logFilter ∧
        ARG1.m_logFile = ARG2.m_logFile ∧ ARG1.m_display = ARG2.m_display ∧
        ARG1.m_serverAddress = ARG2.m_serverAddress)) := by
  have h : CClientApp.parse b host argv ARG = synergyc.parse b host argv ARG := by
    rw [CClientApp.parse_eq]
  refine ⟨h, ?_⟩
  rw [h]
  cases synergyc.parse b host argv ARG with
  | error e => exact Or.inl ⟨e, e, rfl, rfl, rfl⟩
  | ok A => exact Or.inr ⟨A, A, rfl, rfl, rfl, rfl, rfl, rfl, rfl, rfl, rfl, rfl, rfl⟩

theorem synergyc.parseOption_double_dash (b : Build) (rest : List String) (ARG : CArgs) :
    synergyc.parseOption b "--" rest ARG = .ok (.stopAfter ARG) := by
  rcases hb : b.WINAPI_XWINDOWS with _ | _ <;>
    simp [synergyc.parseOption, synergyc.isArg, bind, Except.bind, pure, Except.pure, hb]

/-- After a `--` reached in option position the arguments are not read as options: parse goes on
with exactly the arguments that follow it as the non-option arguments. -/
theorem synergyc.parse_after_double_dash (b : Build) (host : Host) (ARG : CArgs) (argv0 : String)
    (pre rest : List String) (n : Nat) (ARG1 : CArgs)
    (hreach : synergyc.optionLoopAfter b n (pre ++ "--" :: rest)
      { ARG with m_name := host.getHostName } = some ("--" :: rest, ARG1)) :
    (rest = [] →
      synergyc.parse b host (argv0 :: (pre ++ "--" :: rest)) ARG =
        .error ⟨kExitArgs, .serverAddressRequired⟩) ∧
    (∀ x : String, rest = [x] →
      synergyc.parse b host (argv0 :: (pre ++ "--" :: rest)) ARG =
        match synergyc.saveServerAddress host x ARG1 with
        | .error e => .error e
        | .ok ARG2 => synergyc.setLogFilter host ARG2) ∧
    (∀ (x y : String) (more : List String), rest = x :: y :: more →
      synergyc.parse b host (argv0 :: (pre ++ "--" :: rest)) ARG =
        .error ⟨kExitArgs, .unrecognizedOption x⟩) := by
  have h3 := synergyc.parseOptions_of_optionLoopAfter b n _ _ _ _ hreach
  have h4 : synergyc.parseOptions b (pre ++ "--" :: rest) { ARG with m_name := host.getHostName } =
      .ok (rest, ARG1) := by
    rw [h3, synergyc.parseOptions, synergyc.parseOption_double_dash]
  refine ⟨fun h => ?_, fun x h => ?_, fun x y more h => ?_⟩ <;> subst h <;>
    simp [synergyc.parse, h4]

/-- C25, refuted as stated: an unrecognised argument beginning with `-` that comes after `--` is
not ignored. In `synergyc -- -x srv` it makes parse exit with the bad-arguments code, and in
`synergyc -- -x` it is taken as the server address. -/
theorem C25_after_double_dash_not_ignored_counterexample :
    "-x".toList.head? = some '-' ∧ recognised ⟨false⟩ "-x" = false ∧
    synergyc.parse ⟨false⟩ exampleHost ["synergyc", "--", "-x", "srv"] CClientApp.CArgs.CArgs =
      .error ⟨kExitArgs, .unrecognizedOption "-x"⟩ ∧
    CClientApp.parse ⟨false⟩ exampleHost ["synergyc", "--", "-x", "srv"] CClientApp.CArgs.CArgs =
      .error ⟨kExitArgs, .unrecognizedOption "-x"⟩ ∧
    ∃ ARG2 : CArgs,
      synergyc.parse ⟨false⟩ exampleHost ["synergyc", "--", "-x"] CClientApp.CArgs.CArgs =
        .ok ARG2 ∧
      ARG2.m_serverAddress = some ⟨"-x", 24800, true⟩ :=
  ⟨rfl, rfl, rfl, rfl, _, rfl, rfl⟩

/-- C25, amended: the arguments after a `--` reached in option position are not read as options,
and none of them is ignored. When nothing follows the `--` parse exits with the bad-arguments
code; when exactly one argument follows, it is the server address, whatever it begins with; when
two or more follow, parse exits with the bad-arguments code and names the first of them. The same
unrecognised argument beginning with `-`, reached before any `--`, makes parse exit with the
bad-arguments code. Both for `parse` of synergyc.cpp and for `CClientApp::parse`. -/
theorem C25_arguments_after_double_dash (b : Build) (host : Host) (ARG : CArgs) (argv0 : String)
    (pre rest : List String) :
    (∀ (n : Nat) (ARG1 : CArgs),
      synergyc.optionLoopAfter b n (pre ++ "--" :: rest)
        { ARG with m_name := host.getHostName } = some ("--" :: rest, ARG1) →
      (rest = [] →
        synergyc.parse b host (argv0 :: (pre ++ "--" :: rest)) ARG =
          .error ⟨kExitArgs, .serverAddressRequired⟩) ∧
      (∀ x : String, rest = [x] →
        synergyc.parse b host (argv0 :: (pre ++ "--" :: rest)) ARG =
          match synergyc.saveServerAddress host x ARG1 with
          | .error e => .error e
          | .ok ARG2 => synergyc.setLogFilter host ARG2) ∧
      (∀ (x y : String) (more : List String), rest = x :: y :: more →
        synergyc.parse b host (argv0 :: (pre ++ "--" :: rest)) ARG =
          .error ⟨kExitArgs, .unrecognizedOption x⟩)) ∧
    (∀ (n : Nat) (ARG1 : CArgs),
      CClientApp.optionLoopAfter b n (pre ++ "--" :: rest)
        { ARG with m_name := host.getHostName } = some ("--" :: rest, ARG1) →
      (rest = [] →
        CClientApp.parse b host (argv0 :: (pre ++ "--" :: rest)) ARG =
          .error ⟨kExitArgs, .serverAddressRequired⟩) ∧
      (∀ x : String, rest = [x] →
        CClientApp.parse b host (argv0 :: (pre ++ "--" :: rest)) ARG =
          match CClientApp.saveServerAddress host x ARG1 with
          | .error e => .error e
          | .ok ARG2 => CClientApp.setLogFilter host ARG2) ∧
      (∀ (x y : String) (more : List String), rest = x :: y :: more →
        CClientApp.parse b host (argv0 :: (pre ++ "--" :: rest)) ARG =
          .error ⟨kExitArgs, .unrecognizedOption x⟩)) ∧
    (∀ (n : Nat) (ARG1 : CArgs) (arg : String) (pre1 rest1 : List String),
      synergyc.optionLoopAfter b n (pre1 ++ arg :: rest1)
        { ARG with m_name := host.getHostName } = some (arg :: rest1, ARG1) →
      arg.toList.head? = some '-' → recognised b arg = false →
      synergyc.parse b host (argv0 :: (pre1 ++ arg :: rest1)) ARG =
          .error ⟨kExitArgs, .unrecognizedOption arg⟩ ∧
        CClientApp.parse b host (argv0 :: (pre1 ++ arg :: rest1)) ARG =
          .error ⟨kExitArgs, .unrecognizedOption arg⟩) := by
  rw [CClientApp.optionLoopAfter_eq, CClientApp.parse_eq, CClientApp.saveServerAddress_eq,
    CClientApp.setLogFilter_eq]
  refine ⟨fun n ARG1 h => synergyc.parse_after_double_dash b host ARG argv0 pre rest n ARG1 h,
    fun n ARG1 h => synergyc.parse_after_double_dash b host ARG argv0 pre rest n ARG1 h,
    fun n ARG1 arg pre1 rest1 h hdash hrec => ?_⟩
  have := synergyc.parse_unrecognised b host ARG argv0 pre1 arg rest1 rest1 n ARG1 h hdash hrec
  exact ⟨this, this⟩

theorem C25_arguments_after_double_dash_witness :
    synergyc.optionLoopAfter ⟨false⟩ 1 (["-f"] ++ "--" :: ["-x", "srv"])
        { CClientApp.CArgs.CArgs with m_name := exampleHost.getHostName } =
      some ("--" :: ["-x", "srv"], { CClientApp.CArgs.CArgs with m_name := "me", m_daemon := false }) ∧
    synergyc.parse ⟨false⟩ exampleHost ("synergyc" :: (["-f"] ++ "--" :: ["-x", "srv"]))
        CClientApp.CArgs.CArgs = .error ⟨kExitArgs, .unrecognizedOption "-x"⟩ :=
  ⟨by rfl,
    ((C25_arguments_after_double_dash ⟨false⟩ exampleHost CClientApp.CArgs.CArgs "synergyc"
      ["-f"] ["-x", "srv"]).1 1 _ (by rfl)).2.2 "-x" "srv" [] rfl⟩

theorem synergyc.parseOptions_logFilter_daemon (b : Build) (l unread : List String)
    (ARG ARG1 : CArgs) (h : synergyc.parseOptions b l ARG = .ok (unread, ARG1)) :
    ARG1.m_logFilter = (lastSetting debugSetting (optionsOf b l)).getD ARG.m_logFilter ∧
    ARG1.m_daemon = (lastSetting daemonSetting (optionsOf b l)).getD ARG.m_daemon := by
  have happ := synergyc.parseOptions_applies b l.length l ARG unread ARG1 le_rfl h
  rw [happ]
  refine ⟨lastSetting_foldl (fun A => A.m_logFilter) debugSetting (fun A o => ?_) _ _,
    lastSetting_foldl (fun A => A.m_daemon) daemonSetting (fun _ _ => rfl) _ _⟩
  simp only [applyOption, debugSetting]
  split_ifs <;> rfl

theorem synergyc.setLogFilter_eq_filterPassed (host : Host) (ARG : CArgs) :
    synergyc.setLogFilter host ARG =
      if host.setFilter (filterPassed none ARG.m_logFilter ARG.m_daemon) = true then
        .ok { ARG with m_logFilter := filterPassed none ARG.m_logFilter ARG.m_daemon }
      else
        .error ⟨kExitArgs,
          .unrecognizedLogLevel (filterPassed none ARG.m_logFilter ARG.m_daemon)⟩ := by
  rcases hd : ARG.m_daemon with _ | _ <;> rcases hf : ARG.m_logFilter with _ | level <;>
    rcases hs : host.setFilter (filterPassed none ARG.m_logFilter ARG.m_daemon) with _ | _ <;>
    simp [synergyc.setLogFilter, filterPassed, hd, hf] at hs ⊢ <;> simp [hs] <;>
    (cases ARG; simp_all)

theorem filterPassed_none_getD (given : Option (Option String)) (entry : Option String)
    (daemon : Bool) :
    filterPassed none (given.getD entry) daemon = filterPassed given entry daemon := by
  simp [filterPassed]

/-- C24: for every argument vector that parse accepts up to the log-filter step (the option loop
leaves exactly the server address, and the address step does not exit): the log filter handed to
the logger is the parameter of the last `-d` or `--debug` in option position when there is one,
daemon or not; when there is none and the record is entered without filter, it is "NOTE" when the
parsed daemon flag is true and no filter when it is false; parse returns with that filter stored
when the logger accepts it, and exits with the bad-arguments code exactly when the logger rejects
it. -/
theorem C24_log_filter_passed_to_logger (b : Build) (host : Host) (argv : List String)
    (ARG : CArgs) (server : String) (ARG1 ARG2 : CArgs)
    (hopts : synergyc.parseOptions b argv.tail { ARG with m_name := host.getHostName } =
      .ok ([server], ARG1))
    (haddr : synergyc.saveServerAddress host server ARG1 = .ok ARG2) :
    (∀ level : String, lastSetting debugSetting (optionsOf b argv.tail) = some (some level) →
      filterPassed (lastSetting debugSetting (optionsOf b argv.tail)) ARG.m_logFilter
        ((lastSetting daemonSetting (optionsOf b argv.tail)).getD ARG.m_daemon) = some level) ∧
    (lastSetting debugSetting (optionsOf b argv.tail) = none → ARG.m_logFilter = none →
      filterPassed (lastSetting debugSetting (optionsOf b argv.tail)) ARG.m_logFilter
          ((lastSetting daemonSetting (optionsOf b argv.tail)).getD ARG.m_daemon) =
        if (lastSetting daemonSetting (optionsOf b argv.tail)).getD ARG.m_daemon = true
        then some "NOTE" else none) ∧
    (host.setFilter (filterPassed (lastSetting debugSetting (optionsOf b argv.tail))
        ARG.m_logFilter
        ((lastSetting daemonSetting (optionsOf b argv.tail)).getD ARG.m_daemon)) = true →
      synergyc.parse b host argv ARG = .ok { ARG2 with
        m_logFilter := filterPassed (lastSetting debugSetting (optionsOf b argv.tail))
          ARG.m_logFilter
          ((lastSetting daemonSetting (optionsOf b argv.tail)).getD ARG.m_daemon) }) ∧
    (host.setFilter (filterPassed (lastSetting debugSetting (optionsOf b argv.tail))
        ARG.m_logFilter
        ((lastSetting daemonSetting (optionsOf b argv.tail)).getD ARG.m_daemon)) = false →
      synergyc.parse b host argv ARG = .error ⟨kExitArgs, .unrecognizedLogLevel
        (filterPassed (lastSetting debugSetting (optionsOf b argv.tail)) ARG.m_logFilter
          ((lastSetting daemonSetting (optionsOf b argv.tail)).getD ARG.m_daemon))⟩) ∧
    ((∃ p : Printed, synergyc.parse b host argv ARG = .error ⟨kExitArgs, p⟩) ↔
      host.setFilter (filterPassed (lastSetting debugSetting (optionsOf b argv.tail))
        ARG.m_logFilter
        ((lastSetting daemonSetting (optionsOf b argv.tail)).getD ARG.m_daemon)) = false) := by
  obtain ⟨hfilter, hdaemon⟩ := synergyc.parseOptions_logFilter_daemon b argv.tail [server] _ ARG1 hopts
  have hframe := synergyc.saveServerAddress_frame host server ARG1 ARG2 haddr
  have h2f : ARG2.m_logFilter =
      (lastSetting debugSetting (optionsOf b argv.tail)).getD ARG.m_logFilter :=
    hframe.2.2.2.2.trans hfilter
  have h2d : ARG2.m_daemon =
      (lastSetting daemonSetting (optionsOf b argv.tail)).getD ARG.m_daemon :=
    hframe.2.2.2.1.trans hdaemon
  have hparse : synergyc.parse b host argv ARG = synergyc.setLogFilter host ARG2 := by
    rw [synergyc.parse_one_unread b host argv ARG server ARG1 hopts, haddr]
  rw [hparse, synergyc.setLogFilter_eq_filterPassed, h2f, h2d, filterPassed_none_getD]
  refine ⟨fun level h => ?_, fun h hentry => ?_, fun h => ?_, fun h => ?_, ?_⟩
  · simp [filterPassed, h]
  · simp [filterPassed, h, hentry]
  · simp [h]
  · simp [h]
  · rcases hs : host.setFilter (filterPassed (lastSetting debugSetting (optionsOf b argv.tail))
        ARG.m_logFilter
        ((lastSetting daemonSetting (optionsOf b argv.tail)).getD ARG.m_daemon)) with _ | _ <;>
      simp

theorem C24_log_filter_passed_to_logger_witness :
    synergyc.parseOptions ⟨false⟩ ["synergyc", "-d", "DEBUG", "--debug", "BAD", "srv"].tail
        { CClientApp.CArgs.CArgs with m_name := exampleHost.getHostName } =
      .ok (["srv"], { CClientApp.CArgs.CArgs with m_name := "me", m_logFilter := some "BAD" }) ∧
    synergyc.saveServerAddress exampleHost "srv"
        { CClientApp.CArgs.CArgs with m_name := "me", m_logFilter := some "BAD" } =
      .ok { CClientApp.CArgs.CArgs with
        m_name := "me", m_logFilter := some "BAD", m_serverAddress := some ⟨"srv", 24800, true⟩ } ∧
    synergyc.parse ⟨false⟩ exampleHost ["synergyc", "-d", "DEBUG", "--debug", "BAD", "srv"]
        CClientApp.CArgs.CArgs = .error ⟨kExitArgs, .unrecognizedLogLevel (some "BAD")⟩ :=
  ⟨by rfl, by rfl,
    (C24_log_filter_passed_to_logger ⟨false⟩ exampleHost
      ["synergyc", "-d", "DEBUG", "--debug", "BAD", "srv"] CClientApp.CArgs.CArgs "srv" _ _
      (by rfl) (by rfl)).2.2.2.1 (by rfl)⟩

/-! ## The supervisor: screen errors, the event loop and the invariants of the statics -/

/-- C23: for every screen error event, `handleScreenError` enqueues exactly one quit event and
leaves everything else of the supervisor state as it was (no timer is made, no handler changes,
`connect()` is not called); dispatching the event gives that same state whatever the restart
policy is; so when the client has been started and the first event delivered is an error event of
its screen, `mainLoop` makes no timer, returns the success exit code and has stopped the client,
also with restart enabled. -/
theorem C23_screen_error_quits (pf : Platform) (ARG : CArgs) (e : CEvent) (s : synergyc.Statics)
    (later : List (List CEvent)) (steps : Nat)
    (hnone : s.s_clientScreen = none)
    (hscreen : pf.createScreen s.screenCount = none)
    (hclient : pf.newClient s.clientCount = none) :
    synergyc.handleScreenError e s =
      { s with EVENTQUEUE :=
        { s.EVENTQUEUE with m_events := s.EVENTQUEUE.m_events ++ [CEvent.quit] } } ∧
    (synergyc.handleScreenError e s).EVENTQUEUE.m_timers = s.EVENTQUEUE.m_timers ∧
    (∀ ARG1 : CArgs, s.EVENTQUEUE.getHandler e = some .handleScreenError →
      synergyc.dispatchEvent pf ARG1 e s = some (synergyc.handleScreenError e s)) ∧
    ∃ s1 : synergyc.Statics,
      synergyc.mainLoop pf ARG (steps + 2)
          ([⟨.screenError, .screen s.screenCount, e.getData⟩] :: later) s =
        .returned kExitSuccess s1 ∧
      s1.EVENTQUEUE.m_timers = [] ∧
      s1.connects = s.connects ++ [s.clientCount] ∧
      s1.s_client = none ∧ s1.s_clientScreen = none := by
  refine ⟨rfl, rfl, fun ARG1 hh => by simp [synergyc.dispatchEvent, hh], ?_⟩
  obtain ⟨later1, pending1, hq⟩ := getEvent_quit_first later []
  simp only [CEvent.quit] at hq
  simp [synergyc.mainLoop, synergyc.startClient, synergyc.startClientTry,
    synergyc.openClientScreen, synergyc.openClient, hnone, hscreen, hclient,
    synergyc.updateStatus, synergyc.connect, synergyc.eventLoop, CEventQueue.getEvent,
    synergyc.dispatchEvent, synergyc.handleScreenError, CEventQueue.addEvent,
    CEventQueue.CEventQueue, CEventQueue.adoptHandler, CEventQueue.getHandler, hq,
    synergyc.stopClient, synergyc.closeClient, synergyc.closeClientScreen, CEvent.quit,
    CEventQueue.removeHandler]

theorem C23_screen_error_quits_witness :
    CClientApp.CArgs.CArgs.m_restartable = true ∧
    synergyc.Statics.initial.s_clientScreen = none ∧
    okPlatform.createScreen synergyc.Statics.initial.screenCount = none ∧
    okPlatform.newClient synergyc.Statics.initial.clientCount = none ∧
    ∃ s1 : synergyc.Statics,
      synergyc.mainLoop okPlatform CClientApp.CArgs.CArgs (0 + 2)
          ([⟨.screenError, .screen synergyc.Statics.initial.screenCount,
              (⟨.screenError, .screen 0, none⟩ : CEvent).getData⟩] :: [])
          synergyc.Statics.initial =
        .returned kExitSuccess s1 ∧
      s1.EVENTQUEUE.m_timers = [] ∧
      s1.connects = synergyc.Statics.initial.connects ++ [synergyc.Statics.initial.clientCount] ∧
      s1.s_client = none ∧ s1.s_clientScreen = none :=
  ⟨rfl, rfl, rfl, rfl,
    (C23_screen_error_quits okPlatform CClientApp.CArgs.CArgs ⟨.screenError, .screen 0, none⟩
      synergyc.Statics.initial [] 0 rfl rfl rfl).2.2.2⟩

theorem synergyc.eventLoopLog_fst (pf : Platform) (ARG : CArgs) (steps : Nat) :
    ∀ (arrivals : List (List CEvent)) (s : synergyc.Statics),
      (synergyc.eventLoopLog pf ARG steps arrivals s).1 = synergyc.eventLoop pf ARG steps arrivals s := by
  induction steps with
  | zero => intro arrivals s; rfl
  | succ n ih =>
    intro arrivals s
    simp only [synergyc.eventLoopLog, synergyc.eventLoop]
    rcases hg : CEventQueue.getEvent arrivals s.EVENTQUEUE.m_events with _ | ⟨event, later, pending⟩
    · rfl
    · by_cases hq : event.getType = .kQuit
      · simp [hq]
      · simp only [hq, if_false]
        rcases hd : synergyc.dispatchEvent pf ARG event
            { s with EVENTQUEUE := { s.EVENTQUEUE with m_events := pending } } with _ | s2
        · rfl
        · exact ih later s2

theorem synergyc.mainLoopLog_fst (pf : Platform) (ARG : CArgs) (steps : Nat)
    (arrivals : List (List CEvent)) (s : synergyc.Statics) :
    (synergyc.mainLoopLog pf ARG steps arrivals s).1 = synergyc.mainLoop pf ARG steps arrivals s := by
  simp only [synergyc.mainLoopLog, synergyc.mainLoop]
  rcases hs : synergyc.startClient pf ARG { s with EVENTQUEUE := CEventQueue.CEventQueue }
    with _ | ⟨_ | _, s1⟩
  · rfl
  · rfl
  · exact synergyc.eventLoopLog_fst pf ARG steps arrivals s1

theorem synergyc.eventLoopLog_spec (pf : Platform) (ARG : CArgs) (steps : Nat) :
    ∀ (arrivals : List (List CEvent)) (s : synergyc.Statics),
      (synergyc.eventLoopLog pf ARG steps arrivals s).2.2 =
        (synergyc.eventLoopLog pf ARG steps arrivals s).2.1.takeWhile
          (fun e => decide (e.getType ≠ .kQuit)) ∧
      ((∃ e ∈ (synergyc.eventLoopLog pf ARG steps arrivals s).2.1, e.getType = .kQuit) ↔
        ∃ s2, (synergyc.eventLoopLog pf ARG steps arrivals s).1 = .returned kExitSuccess s2) ∧
      (∀ code s2, (synergyc.eventLoopLog pf ARG steps arrivals s).1 = .returned code s2 →
        code = kExitSuccess ∧ s2.s_client = none ∧ s2.s_clientScreen = none ∧
        ∃ q : CEvent, q.getType = .kQuit ∧
          (synergyc.eventLoopLog pf ARG steps arrivals s).2.1 =
            (synergyc.eventLoopLog pf ARG steps arrivals s).2.2 ++ [q]) ∧
      ((synergyc.eventLoopLog pf ARG steps arrivals s).1 = .outOfSteps →
        (synergyc.eventLoopLog pf ARG steps arrivals s).2.1.length = steps ∧
        (synergyc.eventLoopLog pf ARG steps arrivals s).2.2 =
          (synergyc.eventLoopLog pf ARG steps arrivals s).2.1) ∧
      (∀ more : Nat, (synergyc.eventLoopLog pf ARG steps arrivals s).1 ≠ .outOfSteps →
        synergyc.eventLoopLog pf ARG (steps + more) arrivals s =
          synergyc.eventLoopLog pf ARG steps arrivals s) := by
  induction steps with
  | zero =>
    intro arrivals s
    simp [synergyc.eventLoopLog]
  | succ n ih =>
    intro arrivals s
    have hadd : ∀ more : Nat, n + 1 + more = (n + more) + 1 := fun more => by omega
    simp only [hadd, synergyc.eventLoopLog]
    rcases hg : CEventQueue.getEvent arrivals s.EVENTQUEUE.m_events with _ | ⟨event, later, pending⟩
    · simp
    · by_cases hq : event.getType = .kQuit
      · simp [hq, synergyc.updateStatus, synergyc.stopClient]
      · simp only [hq, if_false]
        rcases hd : synergyc.dispatchEvent pf ARG event
            { s with EVENTQUEUE := { s.EVENTQUEUE with m_events := pending } } with _ | s2
        · simp [hq]
        · obtain ⟨h1, h2, h3, h4, h5⟩ := ih later s2
          refine ⟨?_, ?_, ?_, ?_, ?_⟩
          · simp only [List.takeWhile_cons, hq, ne_eq, not_false_eq_true, decide_True, if_true]
            exact congrArg _ h1
          · rw [← h2]
            simp [hq]
          · intro code s2r hr
            obtain ⟨hc, hcl, hsc, q, hqq, hdel⟩ := h3 code s2r hr
            exact ⟨hc, hcl, hsc, q, hqq, by simp [hdel]⟩
          · intro hr
            obtain ⟨hl, hdd⟩ := h4 hr
            exact ⟨by simp [hl], by simp [hdd]⟩
          · intro more hr
            simp only [h5 more hr]

/-- C22: `mainLoop` returns the failure exit code if and only if `startClient` returns false, and
then no event is delivered or dispatched. When `startClient` returns true, the events dispatched
are, in order, exactly the delivered events that precede the first quit event; a quit event is
delivered if and only if `mainLoop` returns, and it then returns the success exit code with the
client stopped (`s_client` and `s_clientScreen` both none), the quit event being the last event
delivered and not dispatched. The bound on the steps only cuts a run short: a run that ends within
the bound is the run for every larger bound, and a run cut short has dispatched every event
delivered so far. -/
theorem C22_mainLoop_dispatches_until_quit (pf : Platform) (ARG : CArgs) (steps : Nat)
    (arrivals : List (List CEvent)) (s : synergyc.Statics) :
    (synergyc.mainLoopLog pf ARG steps arrivals s).1 = synergyc.mainLoop pf ARG steps arrivals s ∧
    ((∃ s1, synergyc.mainLoop pf ARG steps arrivals s = .returned kExitFailed s1) ↔
      ∃ s1, synergyc.startClient pf ARG { s with EVENTQUEUE := CEventQueue.CEventQueue } =
        some (false, s1)) ∧
    (∀ s1, synergyc.startClient pf ARG { s with EVENTQUEUE := CEventQueue.CEventQueue } =
        some (false, s1) →
      synergyc.mainLoopLog pf ARG steps arrivals s = (.returned kExitFailed s1, [], [])) ∧
    (∀ s1, synergyc.startClient pf ARG { s with EVENTQUEUE := CEventQueue.CEventQueue } =
        some (true, s1) →
      (synergyc.mainLoopLog pf ARG steps arrivals s).2.2 =
        (synergyc.mainLoopLog pf ARG steps arrivals s).2.1.takeWhile
          (fun e => decide (e.getType ≠ .kQuit)) ∧
      ((∃ e ∈ (synergyc.mainLoopLog pf ARG steps arrivals s).2.1, e.getType = .kQuit) ↔
        ∃ s2, synergyc.mainLoop pf ARG steps arrivals s = .returned kExitSuccess s2) ∧
      (∀ code s2, synergyc.mainLoop pf ARG steps arrivals s = .returned code s2 →
        code = kExitSuccess ∧ s2.s_client = none ∧ s2.s_clientScreen = none ∧
        ∃ q : CEvent, q.getType = .kQuit ∧
          (synergyc.mainLoopLog pf ARG steps arrivals s).2.1 =
            (synergyc.mainLoopLog pf ARG steps arrivals s).2.2 ++ [q]) ∧
      (synergyc.mainLoop pf ARG steps arrivals s = .outOfSteps →
        (synergyc.mainLoopLog pf ARG steps arrivals s).2.1.length = steps ∧
        (synergyc.mainLoopLog pf ARG steps arrivals s).2.2 =
          (synergyc.mainLoopLog pf ARG steps arrivals s).2.1) ∧
      (∀ more : Nat, synergyc.mainLoop pf ARG steps arrivals s ≠ .outOfSteps →
        synergyc.mainLoopLog pf ARG (steps + more) arrivals s =
          synergyc.mainLoopLog pf ARG steps arrivals s)) := by
  refine ⟨synergyc.mainLoopLog_fst pf ARG steps arrivals s, ?_, ?_, ?_⟩
  · rcases hs : synergyc.startClient pf ARG { s with EVENTQUEUE := CEventQueue.CEventQueue }
      with _ | ⟨_ | _, s1⟩
    · simp [synergyc.mainLoop, hs]
    · simp [synergyc.mainLoop, hs]
    · simp only [synergyc.mainLoop, hs]
      constructor
      · rintro ⟨s2, h2⟩
        rw [← synergyc.eventLoopLog_fst] at h2
        have hc := ((synergyc.eventLoopLog_spec pf ARG steps arrivals s1).2.2.1 _ _ h2).1
        simp [kExitFailed, kExitSuccess] at hc
      · rintro ⟨s2, h2⟩
        simp at h2
  · intro s1 hs
    simp [synergyc.mainLoopLog, hs]
  · intro s1 hs
    have hm : synergyc.mainLoop pf ARG steps arrivals s =
        (synergyc.eventLoopLog pf ARG steps arrivals s1).1 := by
      simp [synergyc.mainLoop, hs, synergyc.eventLoopLog_fst]
    have hl : ∀ n, synergyc.mainLoopLog pf ARG n arrivals s =
        synergyc.eventLoopLog pf ARG n arrivals s1 := by
      intro n
      simp [synergyc.mainLoopLog, hs]
    simp only [hm, hl]
    exact synergyc.eventLoopLog_spec pf ARG steps arrivals s1

theorem C22_mainLoop_dispatches_until_quit_witness :
    synergyc.startClient okPlatform CClientApp.CArgs.CArgs
        { synergyc.Statics.initial with EVENTQUEUE := CEventQueue.CEventQueue } =
      some (true, startedStatics) ∧
    (synergyc.mainLoopLog okPlatform CClientApp.CArgs.CArgs 5
        [[⟨.clientConnected, .client 0, none⟩, ⟨.other 7, .null, none⟩, CEvent.quit,
          ⟨.clientDisconnected, .client 0, none⟩]] synergyc.Statics.initial).2.1 =
      [⟨.clientConnected, .client 0, none⟩, ⟨.other 7, .null, none⟩, CEvent.quit] ∧
    (synergyc.mainLoopLog okPlatform CClientApp.CArgs.CArgs 5
        [[⟨.clientConnected, .client 0, none⟩, ⟨.other 7, .null, none⟩, CEvent.quit,
          ⟨.clientDisconnected, .client 0, none⟩]] synergyc.Statics.initial).2.2 =
      (synergyc.mainLoopLog okPlatform CClientApp.CArgs.CArgs 5
        [[⟨.clientConnected, .client 0, none⟩, ⟨.other 7, .null, none⟩, CEvent.quit,
          ⟨.clientDisconnected, .client 0, none⟩]] synergyc.Statics.initial).2.1.takeWhile
          (fun e => decide (e.getType ≠ .kQuit)) :=
  ⟨by rfl, by rfl,
    ((C22_mainLoop_dispatches_until_quit okPlatform CClientApp.CArgs.CArgs 5
      [[⟨.clientConnected, .client 0, none⟩, ⟨.other 7, .null, none⟩, CEvent.quit,
        ⟨.clientDisconnected, .client 0, none⟩]] synergyc.Statics.initial).2.2.2
      startedStatics (by rfl)).1⟩

theorem synergyc.startClientConnecting_returns (pf : Platform) (ARG : CArgs)
    (connectThrows : Nat → Option XBase) (hreturns : ∀ n, connectThrows n = none)
    (s : synergyc.Statics) :
    synergyc.startClientConnecting pf connectThrows ARG s = synergyc.startClient pf ARG s := by
  simp only [synergyc.startClientConnecting, synergyc.startClientTryConnecting,
    synergyc.startClient, hreturns]
  rcases synergyc.startClientTry pf ARG s with ⟨e, clientScreen, s1⟩ | s1
  · rcases e with ⟨what, t⟩ | what | what <;> rfl
  · rcases hc : s1.s_client with _ | client <;> simp [hc]

theorem synergyc.startClient_recordedScreenOpen (pf : Platform) (ARG : CArgs)
    (s : synergyc.Statics) (h : recordedScreenOpen s) :
    ∃ (result : Bool) (s1 : synergyc.Statics),
      synergyc.startClient pf ARG s = some (result, s1) ∧ recordedScreenOpen s1 := by
  obtain ⟨hiff, hopen⟩ := h
  rcases hscr : s.s_clientScreen with _ | screen
  · have hcl : s.s_client = none := hiff.2 hscr
    rcases hcs : pf.createScreen s.screenCount with _ | e
    · rcases hnc : pf.newClient s.clientCount with _ | e
      · simp [synergyc.startClient, synergyc.startClientTry, synergyc.openClientScreen,
          synergyc.openClient, hscr, hcs, hnc, synergyc.updateStatus, synergyc.connect,
          recordedScreenOpen]
      · rcases e with ⟨what, t⟩ | what | what
        · rcases hr : ARG.m_restartable with _ | _ <;>
            simp [synergyc.startClient, synergyc.startClientTry, synergyc.openClientScreen,
              synergyc.openClient, hscr, hcs, hnc, hr, synergyc.updateStatus,
              synergyc.closeClientScreen, synergyc.scheduleClientRestart,
              CEventQueue.newOneShotTimer, recordedScreenOpen, hcl]
        · simp [synergyc.startClient, synergyc.startClientTry, synergyc.openClientScreen,
            synergyc.openClient, hscr, hcs, hnc, synergyc.closeClientScreen, recordedScreenOpen,
            hcl]
        · simp [synergyc.startClient, synergyc.startClientTry, synergyc.openClientScreen,
            synergyc.openClient, hscr, hcs, hnc, synergyc.closeClientScreen, recordedScreenOpen,
            hcl]
    · rcases e with ⟨what, t⟩ | what | what
      · rcases hr : ARG.m_restartable with _ | _ <;>
          simp [synergyc.startClient, synergyc.startClientTry, synergyc.openClientScreen,
            hscr, hcs, hr, synergyc.updateStatus, synergyc.closeClientScreen,
            synergyc.scheduleClientRestart, CEventQueue.newOneShotTimer, recordedScreenOpen,
            hcl]
      · simp [synergyc.startClient, synergyc.startClientTry, synergyc.openClientScreen,
          hscr, hcs, synergyc.closeClientScreen, recordedScreenOpen, hcl]
      · simp [synergyc.startClient, synergyc.startClientTry, synergyc.openClientScreen,
          hscr, hcs, synergyc.closeClientScreen, recordedScreenOpen, hcl]
  · rcases hcl : s.s_client with _ | client
    · rw [hiff.1 hcl] at hscr
      simp at hscr
    · simp [synergyc.startClient, synergyc.startClientTry, hscr, hcl, synergyc.updateStatus,
        synergyc.connect, recordedScreenOpen, hopen screen hscr]

theorem synergyc.stopClient_recordedScreenOpen (s : synergyc.Statics) :
    recordedScreenOpen (synergyc.stopClient s) := by
  simp [synergyc.stopClient, recordedScreenOpen]

theorem runSupervisorCalls_recordedScreenOpen (pf : Platform) (ARG : CArgs)
    (connectThrows : Nat → Option XBase) (hreturns : ∀ n, connectThrows n = none)
    (calls : List SupervisorCall) :
    ∀ s : synergyc.Statics, recordedScreenOpen s →
      ∃ s1 : synergyc.Statics,
        runSupervisorCalls pf connectThrows ARG calls s = some s1 ∧ recordedScreenOpen s1 := by
  induction calls with
  | nil => intro s h; exact ⟨s, rfl, h⟩
  | cons call calls ih =>
    intro s h
    cases call with
    | startClient =>
      obtain ⟨result, s1, hs, h1⟩ := synergyc.startClient_recordedScreenOpen pf ARG s h
      simp only [runSupervisorCalls,
        synergyc.startClientConnecting_returns pf ARG connectThrows hreturns, hs]
      exact ih s1 h1
    | stopClient =>
      simp only [runSupervisorCalls]
      exact ih _ (synergyc.stopClient_recordedScreenOpen s)

theorem synergyc.startClient_s_suspened (pf : Platform) (ARG : CArgs) (s : synergyc.Statics)
    (result : Bool) (s1 : synergyc.Statics)
    (h : synergyc.startClient pf ARG s = some (result, s1)) : s1.s_suspened = s.s_suspened := by
  rcases hscr : s.s_clientScreen with _ | screen
  · rcases hcs : pf.createScreen s.screenCount with _ | e
    · rcases hnc : pf.newClient s.clientCount with _ | e
      · simp [synergyc.startClient, synergyc.startClientTry, synergyc.openClientScreen,
          synergyc.openClient, hscr, hcs, hnc, synergyc.updateStatus, synergyc.connect] at h
        rw [← h.2]
      · rcases e with ⟨what, t⟩ | what | what
        · rcases hr : ARG.m_restartable with _ | _ <;>
          · simp [synergyc.startClient, synergyc.startClientTry, synergyc.openClientScreen,
              synergyc.openClient, hscr, hcs, hnc, hr, synergyc.updateStatus,
              synergyc.closeClientScreen, synergyc.scheduleClientRestart,
              CEventQueue.newOneShotTimer] at h
            rw [← h.2]
        · simp [synergyc.startClient, synergyc.startClientTry, synergyc.openClientScreen,
            synergyc.openClient, hscr, hcs, hnc, synergyc.closeClientScreen] at h
          rw [← h.2]
        · simp [synergyc.startClient, synergyc.startClientTry, synergyc.openClientScreen,
            synergyc.openClient, hscr, hcs, hnc, synergyc.closeClientScreen] at h
          rw [← h.2]
    · rcases e with ⟨what, t⟩ | what | what
      · rcases hr : ARG.m_restartable with _ | _ <;>
        · simp [synergyc.startClient, synergyc.startClientTry, synergyc.openClientScreen,
            hscr, hcs, hr, synergyc.updateStatus, synergyc.closeClientScreen,
            synergyc.scheduleClientRestart, CEventQueue.newOneShotTimer] at h
          rw [← h.2]
      · simp [synergyc.startClient, synergyc.startClientTry, synergyc.openClientScreen,
          hscr, hcs, synergyc.closeClientScreen] at h
        rw [← h.2]
      · simp [synergyc.startClient, synergyc.startClientTry, synergyc.openClientScreen,
          hscr, hcs, synergyc.closeClientScreen] at h
        rw [← h.2]
  · rcases hcl : s.s_client with _ | client
    · simp [synergyc.startClient, synergyc.startClientTry, hscr, hcl] at h
    · simp [synergyc.startClient, synergyc.startClientTry, hscr, hcl, synergyc.updateStatus,
        synergyc.connect] at h
      rw [← h.2]

theorem runSupervisorOp_s_suspened (pf : Platform) (ARG : CArgs) (op : SupervisorOp)
    (s s1 : synergyc.Statics) (h : runSupervisorOp pf ARG op s = some s1) :
    s1.s_suspened = s.s_suspened := by
  cases op with
  | startClient =>
    rcases hst : synergyc.startClient pf ARG s with _ | ⟨result, s2⟩
    · simp [runSupervisorOp, hst] at h
    · simp [runSupervisorOp, hst] at h
      rw [← h]
      exact synergyc.startClient_s_suspened pf ARG s result s2 hst
  | stopClient =>
    simp only [runSupervisorOp, Option.some.injEq] at h
    rw [← h]
    rcases hc : s.s_client with _ | c <;> rcases hsc : s.s_clientScreen with _ | c2 <;>
      simp [synergyc.stopClient, synergyc.closeClient, synergyc.closeClientScreen, hc, hsc]
  | handleClientConnected e =>
    simp only [runSupervisorOp, Option.some.injEq] at h
    rw [← h]
    rfl
  | handleClientFailed e =>
    simp only [runSupervisorOp, synergyc.handleClientFailed] at h
    rcases hd : e.getData with _ | info
    · simp [hd] at h
    · simp only [hd] at h
      split_ifs at h <;>
        simp [synergyc.updateStatus, synergyc.scheduleClientRestart,
          synergyc.nextRestartTimeout, CEventQueue.newOneShotTimer] at h <;>
        rw [← h]
  | handleClientDisconnected e =>
    simp only [runSupervisorOp, synergyc.handleClientDisconnected] at h
    split_ifs at h
    · simp [synergyc.updateStatus] at h
      rw [← h]
    · rcases hc : s.s_client with _ | client
      · simp [hc] at h
      · simp [hc, synergyc.updateStatus, synergyc.connect] at h
        rw [← h]
    · simp [synergyc.updateStatus] at h
      rw [← h]
  | handleClientRestart e vtimer =>
    rcases hst : synergyc.startClient pf ARG { s with EVENTQUEUE :=
        (s.EVENTQUEUE.deleteTimer vtimer).removeHandler .kTimer (.timer vtimer) }
      with _ | ⟨result, s2⟩
    · simp [runSupervisorOp, synergyc.handleClientRestart, hst] at h
    · simp [runSupervisorOp, synergyc.handleClientRestart, hst] at h
      rw [← h]
      have hkeep := synergyc.startClient_s_suspened pf ARG _ result s2 hst
      exact hkeep
  | handleScreenError e =>
    simp only [runSupervisorOp, Option.some.injEq] at h
    rw [← h]
    rfl

theorem runSupervisorOps_s_suspened (pf : Platform) (ARG : CArgs) (ops : List SupervisorOp) :
    ∀ s s1 : synergyc.Statics, runSupervisorOps pf ARG ops s = some s1 →
      s1.s_suspened = s.s_suspened := by
  induction ops with
  | nil =>
    intro s s1 h
    simp only [runSupervisorOps, Option.some.injEq] at h
    rw [h]
  | cons op ops ih =>
    intro s s1 h
    simp only [runSupervisorOps] at h
    rcases hop : runSupervisorOp pf ARG op s with _ | s2
    · simp [hop] at h
    · simp only [hop] at h
      rw [ih s2 s1 h, runSupervisorOp_s_suspened pf ARG op s s2 hop]

/-- C28: the suspended flag `s_suspened` is false in every state reached from the initial state
through the operations of the supervisor (`startClient`, `stopClient` and the connected, failed,
disconnected, restart and screen-error handlers), none of which changes the flag; so in every
such state, with restart enabled, a connection failure with retry set enqueues nothing and
schedules exactly one restart timer of 1.0 s bound to `handleClientRestart`, and a disconnect
calls `connect()` on the recorded client. -/
theorem C28_never_suspended (pf : Platform) (ARG : CArgs) (ops : List SupervisorOp)
    (s1 : synergyc.Statics)
    (hrun : runSupervisorOps pf ARG ops synergyc.Statics.initial = some s1) :
    s1.s_suspened = false ∧
    (∀ (op : SupervisorOp) (s s2 : synergyc.Statics),
      runSupervisorOp pf ARG op s = some s2 → s2.s_suspened = s.s_suspened) ∧
    (ARG.m_restartable = true → ∀ (e : CEvent) (info : CFailInfo),
      e.getData = some info → info.m_retry = true →
      ∃ s2 : synergyc.Statics, synergyc.handleClientFailed ARG e s1 = some s2 ∧
        s2.EVENTQUEUE.m_events = s1.EVENTQUEUE.m_events ∧
        s2.EVENTQUEUE.m_timers =
          s1.EVENTQUEUE.m_timers ++ [⟨s1.EVENTQUEUE.m_timerCount, 1, true⟩] ∧
        s2.EVENTQUEUE.getHandler ⟨.kTimer, .timer s1.EVENTQUEUE.m_timerCount, none⟩ =
          some (.handleClientRestart s1.EVENTQUEUE.m_timerCount)) ∧
    (ARG.m_restartable = true → ∀ (e : CEvent) (client : Nat), s1.s_client = some client →
      ∃ s2 : synergyc.Statics, synergyc.handleClientDisconnected ARG e s1 = some s2 ∧
        s2.connects = s1.connects ++ [client] ∧
        s2.EVENTQUEUE = s1.EVENTQUEUE) := by
  have hs : s1.s_suspened = false :=
    runSupervisorOps_s_suspened pf ARG ops synergyc.Statics.initial s1 hrun
  refine ⟨hs, runSupervisorOp_s_suspened pf ARG, fun hr e info hinfo hretry => ?_,
    fun hr e client hc => ?_⟩
  · simp [synergyc.handleClientFailed, hinfo, hr, hretry, hs, synergyc.updateStatus,
      synergyc.scheduleClientRestart, synergyc.nextRestartTimeout,
      CEventQueue.newOneShotTimer, getHandler_adoptHandler, RETRY_TIME_eq_one]
  · simp [synergyc.handleClientDisconnected, hr, hs, hc, synergyc.updateStatus,
      synergyc.connect]

theorem C28_never_suspended_witness :
    ∃ s1 : synergyc.Statics,
      runSupervisorOps okPlatform CClientApp.CArgs.CArgs
        [.startClient, .handleClientConnected ⟨.clientConnected, .client 0, none⟩,
          .handleClientDisconnected ⟨.clientDisconnected, .client 0, none⟩,
          .handleClientFailed ⟨.clientConnectionFailed, .client 0, some ⟨"refused", true⟩⟩,
          .handleClientRestart ⟨.kTimer, .timer 0, none⟩ 0]
        synergyc.Statics.initial = some s1 ∧
      s1.s_suspened = false :=
  ⟨_, rfl,
    (C28_never_suspended okPlatform CClientApp.CArgs.CArgs
      [.startClient, .handleClientConnected ⟨.clientConnected, .client 0, none⟩,
        .handleClientDisconnected ⟨.clientDisconnected, .client 0, none⟩,
        .handleClientFailed ⟨.clientConnectionFailed, .client 0, some ⟨"refused", true⟩⟩,
        .handleClientRestart ⟨.kTimer, .timer 0, none⟩ 0]
      _ rfl).1⟩

/-! ## The modifier maps of the X Windows key state -/

theorem CXWindowsKeyState.mapModifiersToXLoop_zero (k : CXWindowsKeyState.ModifierMaps)
    (bits : List Nat) :
    ∀ modifiers : Nat,
      CXWindowsKeyState.mapModifiersToXLoop k 0 bits modifiers = (true, modifiers) := by
  induction bits with
  | nil => intro modifiers; rfl
  | cons i bits ih =>
    intro modifiers
    simp [CXWindowsKeyState.mapModifiersToXLoop, ih]

/-- C21: `CXWindowsKeyState` maps the empty modifier set to the empty modifier set in both
directions, whatever the modifier maps contain: `mapModifiersFromX(0)` is 0, and
`mapModifiersToX(0, out)` returns true and leaves 0 in `out`. -/
theorem C21_empty_modifier_set_maps_to_empty (k : CXWindowsKeyState.ModifierMaps) :
    CXWindowsKeyState.mapModifiersFromX k 0 = 0 ∧
    CXWindowsKeyState.mapModifiersToX k 0 = (true, 0) := by
  constructor
  · simp [CXWindowsKeyState.mapModifiersFromX]
  · exact CXWindowsKeyState.mapModifiersToXLoop_zero k _ 0

/-! ## The settings dialog -/

theorem CIpcServer.handleClientConnecting_subset (e : CIpcServer.Event) (accepted : Option Nat)
    (s : CIpcServer.State) :
    s.m_clients ⊆ (CIpcServer.handleClientConnecting e accepted s).m_clients := by
  cases accepted with
  | none => exact Finset.Subset.refl _
  | some stream => exact Finset.subset_insert _ _

theorem CIpcServer.handleClientConnecting_clientsConstructed (e : CIpcServer.Event)
    (accepted : Option Nat) (s : CIpcServer.State) (h : CIpcServer.clientsConstructed s) :
    CIpcServer.clientsConstructed (CIpcServer.handleClientConnecting e accepted s) := by
  cases accepted with
  | none => exact h
  | some stream =>
    intro proxy hp
    simp only [CIpcServer.handleClientConnecting, Finset.mem_insert] at hp
    simp only [CIpcServer.handleClientConnecting, List.length_append, List.length_singleton]
    rcases hp with hp | hp
    · omega
    · have hlt := h proxy hp
      omega

theorem CIpcServer.handleClientConnectingAll_subset (calls : List (CIpcServer.Event × Option Nat)) :
    ∀ s : CIpcServer.State, s.m_clients ⊆ (CIpcServer.handleClientConnectingAll calls s).m_clients := by
  induction calls with
  | nil => intro s; exact Finset.Subset.refl _
  | cons call calls ih =>
    intro s
    rcases call with ⟨e, accepted⟩
    exact (CIpcServer.handleClientConnecting_subset e accepted s).trans (ih _)

/-- C30: for every connecting event, `CIpcServer::handleClientConnecting` changes nothing (the
client set, the proxies and the pending events are as before) when `accept()` yields no stream;
otherwise, the clients being proxies constructed earlier, it constructs one proxy on the stream,
which is not yet in the client set, inserts it, so that the set has exactly one more element and
has lost none, and enqueues exactly one event, of the client-connected type, whose target is
the server and whose data is that same proxy; consequently the client set never shrinks, over one
call and over every sequence of calls. -/
theorem C30_handleClientConnecting_frame (e : CIpcServer.Event) (s : CIpcServer.State)
    (calls : List (CIpcServer.Event × Option Nat)) (hs : CIpcServer.clientsConstructed s) :
    CIpcServer.handleClientConnecting e none s = s ∧
    (∀ stream : Nat, ∃ proxy : Nat,
      proxy ∉ s.m_clients ∧
      (CIpcServer.handleClientConnecting e (some stream) s).m_clients = insert proxy s.m_clients ∧
      (CIpcServer.handleClientConnecting e (some stream) s).m_clients.card =
        s.m_clients.card + 1 ∧
      s.m_clients ⊆ (CIpcServer.handleClientConnecting e (some stream) s).m_clients ∧
      (CIpcServer.handleClientConnecting e (some stream) s).events =
        s.events ++ [⟨CIpcServer.getClientConnectedEvent, s.this, some proxy⟩] ∧
      (CIpcServer.handleClientConnecting e (some stream) s).proxies.get? proxy = some stream ∧
      (CIpcServer.handleClientConnecting e (some stream) s).this = s.this) ∧
    (∀ accepted : Option Nat,
      s.m_clients ⊆ (CIpcServer.handleClientConnecting e accepted s).m_clients ∧
      CIpcServer.clientsConstructed (CIpcServer.handleClientConnecting e accepted s)) ∧
    s.m_clients ⊆ (CIpcServer.handleClientConnectingAll calls s).m_clients := by
  refine ⟨rfl, fun stream => ⟨s.proxies.length, ?_⟩,
    fun accepted => ⟨CIpcServer.handleClientConnecting_subset e accepted s,
      CIpcServer.handleClientConnecting_clientsConstructed e accepted s hs⟩,
    CIpcServer.handleClientConnectingAll_subset calls s⟩
  have hnew : s.proxies.length ∉ s.m_clients := fun hmem => absurd (hs _ hmem) (lt_irrefl _)
  refine ⟨hnew, rfl, ?_, Finset.subset_insert _ _, rfl, ?_, rfl⟩
  · simp [CIpcServer.handleClientConnecting, Finset.card_insert_of_not_mem hnew]
  · simp [CIpcServer.handleClientConnecting]

theorem C30_handleClientConnecting_frame_witness :
    CIpcServer.clientsConstructed ⟨7, {0, 1}, [40, 41], []⟩ ∧
    ∃ proxy : Nat,
      proxy ∉ ({0, 1} : Finset Nat) ∧
      (CIpcServer.handleClientConnecting ⟨"IListenSocket::connecting", 3, none⟩ (some 42)
        ⟨7, {0, 1}, [40, 41], []⟩).m_clients = insert proxy {0, 1} ∧
      (CIpcServer.handleClientConnecting ⟨"IListenSocket::connecting", 3, none⟩ (some 42)
        ⟨7, {0, 1}, [40, 41], []⟩).events =
          [⟨CIpcServer.getClientConnectedEvent, 7, some proxy⟩] := by
  have hs : CIpcServer.clientsConstructed ⟨7, {0, 1}, [40, 41], []⟩ := by decide
  obtain ⟨proxy, h1, h2, _, _, h6, _⟩ :=
    (C30_handleClientConnecting_frame ⟨"IListenSocket::connecting", 3, none⟩
      ⟨7, {0, 1}, [40, 41], []⟩ [] hs).2.1 42
  exact ⟨hs, proxy, h1, h2, h6⟩

end Synergy
